import Mathlib

/-!
# orby-examples: signing and self-verification

A shallow embedding of the Go signing code of the repository
(`go-app/src/main.go`, `go-app/src/utils.go` and the nested copy in
`go/go-app/src/orby/utils.go`) together with the parts of the Go standard
library and of go-ethereum that the code calls.

* Go `string`s are Lean `String`s; byte slices are lists of naturals below 256.
* `*big.Int` is `Int` (`Option Int` where the code can hold a nil pointer),
  `uint64` is `Nat` with explicit bounds.
* Keccak-256, the secp256k1 primitives and EIP-712 struct hashing are fields of
  `Lib`; what the go-ethereum documentation promises about the first two is the
  predicate `Lib.Laws`.
* The outcome of `json.Unmarshal` is an argument of the function that calls it.
-/

set_option maxRecDepth 100000

namespace OrbyExamples

/-! ## Go standard library -/

deriving instance DecidableEq for Except

/-- A byte slice; every element is meant to be below 256. -/
abbrev Bytes := List Nat

/-- Go `strings.TrimPrefix(s, pre)`. -/
def stringsTrimPrefix (s pre : String) : String :=
  if pre.data.isPrefixOf s.data then ⟨s.data.drop pre.data.length⟩ else s

/-- Digit value of a character in `math/big` `nat.scan` (bases up to 36): the value
`63` (`MaxBase + 1`) stands for a character that is no digit. -/
def bigDigit (c : Char) : Nat :=
  if 48 ≤ c.toNat ∧ c.toNat ≤ 57 then c.toNat - 48
  else if 97 ≤ c.toNat ∧ c.toNat ≤ 122 then c.toNat - 97 + 10
  else if 65 ≤ c.toNat ∧ c.toNat ≤ 90 then c.toNat - 65 + 10
  else 63

/-- The mantissa loop of `nat.scan` followed by the "entire content must have been
consumed" test of `Int.setFromScanner`: every character has to be a digit of the base. -/
def bigScanDigits (base : Nat) (acc : Nat) : List Char → Option Nat
  | [] => some acc
  | c :: cs =>
    if bigDigit c < base then bigScanDigits base (acc * base + bigDigit c) cs else none

/-- The mantissa of `nat.scan`: at least one digit (`errNoDigits` otherwise). -/
def bigScanMantissa (base : Nat) (ds : List Char) : Option Nat :=
  if ds.isEmpty then none else bigScanDigits base 0 ds

/-- Go `new(big.Int).SetString(s, base)` for a base between 2 and 36: an optional sign,
then at least one digit; `none` is the `ok == false` outcome. -/
def bigSetString (s : String) (base : Nat) : Option Int :=
  match s.data with
  | [] => none
  | c :: cs =>
    if c = '-' then (bigScanMantissa base cs).map (fun (n : Nat) => -(n : Int))
    else if c = '+' then (bigScanMantissa base cs).map (fun (n : Nat) => (n : Int))
    else (bigScanMantissa base (c :: cs)).map (fun (n : Nat) => (n : Int))

/-- The error kinds of `strconv.ParseUint`. -/
inductive NumError where
  | errSyntax
  | errRange
  deriving DecidableEq, Repr

/-- The largest `uint64`. -/
def maxUint64 : Nat := 2 ^ 64 - 1

/-- Digit value of a byte in `strconv.ParseUint`; `none` is the `default:` case. -/
def strconvDigit (c : Char) : Option Nat :=
  if 48 ≤ c.toNat ∧ c.toNat ≤ 57 then some (c.toNat - 48)
  else if (97 ≤ c.toNat ∧ c.toNat ≤ 122) then some (c.toNat - 97 + 10)
  else if (65 ≤ c.toNat ∧ c.toNat ≤ 90) then some (c.toNat - 65 + 10)
  else none

/-- The digit loop of `strconv.ParseUint(s, base, 64)` with `n` the value so far. -/
def parseUintLoop (base : Nat) (n : Nat) : List Char → Nat × Option NumError
  | [] => (n, none)
  | c :: cs =>
    match strconvDigit c with
    | none => (0, some .errSyntax)
    | some d =>
      if d ≥ base then (0, some .errSyntax)
      else if n ≥ maxUint64 / base + 1 then (maxUint64, some .errRange)
      else if n * base + d > maxUint64 then (maxUint64, some .errRange)
      else parseUintLoop base (n * base + d) cs

/-- Go `strconv.ParseUint(s, base, 64)` for a base between 2 and 36: the value and the
error that come back together. -/
def strconvParseUint (s : String) (base : Nat) : Nat × Option NumError :=
  if s.data = [] then (0, some .errSyntax) else parseUintLoop base 0 s.data

/-- Go `encoding/hex` `fromHexChar`. -/
def fromHexChar (c : Char) : Option Nat :=
  if 48 ≤ c.toNat ∧ c.toNat ≤ 57 then some (c.toNat - 48)
  else if 97 ≤ c.toNat ∧ c.toNat ≤ 102 then some (c.toNat - 97 + 10)
  else if 65 ≤ c.toNat ∧ c.toNat ≤ 70 then some (c.toNat - 65 + 10)
  else none

/-- The bytes `hex.DecodeString` hands back: those decoded before the first error
(a character that is no hex digit, or a dangling last character). -/
def hexDecodePrefix : List Char → Bytes
  | a :: b :: rest =>
    match fromHexChar a, fromHexChar b with
    | some x, some y => (16 * x + y) :: hexDecodePrefix rest
    | _, _ => []
  | _ => []

/-- One lowercase hex digit of `encoding/hex`. -/
def hexDigit (n : Nat) : Char :=
  if n < 10 then Char.ofNat (48 + n) else Char.ofNat (87 + n)

/-- Go `hex.EncodeToString`. -/
def hexEncodeToString (b : Bytes) : String :=
  ⟨b.flatMap (fun x => [hexDigit (x / 16 % 16), hexDigit (x % 16)])⟩

/-! ## go-ethereum `common` -/

/-- The `has0xPrefix` helper of go-ethereum `common`. -/
def has0xPrefix (s : String) : Bool :=
  match s.data with
  | a :: b :: _ => a = '0' && (b = 'x' || b = 'X')
  | _ => false

/-- The go-ethereum helper `common.FromHex`: strip `0x`, left-pad to an even byte
length, decode and drop the decoding error (`Hex2Bytes`).  The parity test is on the
byte length of the string, as in Go; decoding stops at the first character that is no
hex digit, which is where a multi-byte character would stop it too. -/
def FromHex (s : String) : Bytes :=
  let s1 : String := if has0xPrefix s then ⟨s.data.drop 2⟩ else s
  let s2 : List Char := if s1.utf8ByteSize % 2 = 1 then '0' :: s1.data else s1.data
  hexDecodePrefix s2

/-- A 20-byte account address (`common.Address`). -/
abbrev Address := Bytes

/-- The go-ethereum helper `common.BytesToAddress`: keep the last 20 bytes,
left-pad with zeros. -/
def BytesToAddress (b : Bytes) : Address :=
  let b1 := if b.length > 20 then b.drop (b.length - 20) else b
  List.replicate (20 - b1.length) 0 ++ b1

/-- The go-ethereum helper `common.HexToAddress`. -/
def HexToAddress (s : String) : Address := BytesToAddress (FromHex s)

/-! ## JSON values as `encoding/json` decodes them into `interface{}` -/

/-- A decoded JSON value; `null` is the nil interface. -/
inductive JSONValue where
  | null
  | bool (b : Bool)
  | number (literal : String)
  | string (s : String)
  | array (items : List JSONValue)
  | object (members : List (String × JSONValue))
  /-- A `*math.HexOrDecimal256` held in an interface, as `TypedDataDomain.Map` stores
  the chain id. -/
  | hexOrDecimal256 (x : Int)

/-- A decoded JSON object, `map[string]interface{}`, as an association list. -/
abbrev JSONObject := List (String × JSONValue)

/-- Go map indexing `m[key]`: the nil interface when the key is missing. -/
def JSONObject.index (m : JSONObject) (key : String) : JSONValue :=
  (m.lookup key).getD .null

/-- The type assertion `v.(string)`. -/
def JSONValue.asString : JSONValue → Option String
  | .string s => some s
  | _ => none

/-- The comparison `v != nil` on an interface value. -/
def JSONValue.nonNil : JSONValue → Bool
  | .null => false
  | _ => true

/-! ## go-ethereum `signer/core/apitypes` -/

/-- One field of a struct type, `apitypes.Type`. -/
structure TypeField where
  Name : String
  /-- The Go field `Type`. -/
  Type_ : String
  deriving DecidableEq, Repr

/-- The EIP-712 domain, `apitypes.TypedDataDomain`; `ChainId` is a pointer. -/
structure TypedDataDomain where
  Name : String
  Version : String
  ChainId : Option Int
  VerifyingContract : String
  Salt : String
  deriving DecidableEq, Repr

/-- The zero value `apitypes.TypedDataDomain{}`. -/
def TypedDataDomain.zero : TypedDataDomain :=
  { Name := "", Version := "", ChainId := none, VerifyingContract := "", Salt := "" }

/-- The type schema `apitypes.Types`, a `map[string][]Type`, as an association list. -/
abbrev Types := List (String × List TypeField)

/-- Typed data, `apitypes.TypedData`; `Types = none` is the nil map. -/
structure TypedData where
  Types : Option Types
  PrimaryType : String
  Domain : TypedDataDomain
  Message : JSONObject

/-- Go map read `m[key]` with the `ok` flag. -/
def Types.get (m : Types) (key : String) : Option (List TypeField) := m.lookup key

/-- Go map assignment `m[key] = v`: the old entry of the key, if any, is replaced. -/
def Types.set (m : Types) (key : String) (v : List TypeField) : Types :=
  (key, v) :: m.filter (fun e => e.1 ≠ key)

/-- The method `TypedDataDomain.Map`: the fields that are set, by name. -/
def TypedDataDomain.Map (d : TypedDataDomain) : JSONObject :=
  (match d.ChainId with
    | some c => [("chainId", JSONValue.hexOrDecimal256 c)]
    | none => []) ++
  (if d.Name.length > 0 then [("name", JSONValue.string d.Name)] else []) ++
  (if d.Version.length > 0 then [("version", JSONValue.string d.Version)] else []) ++
  (if d.VerifyingContract.length > 0 then
    [("verifyingContract", JSONValue.string d.VerifyingContract)] else []) ++
  (if d.Salt.length > 0 then [("salt", JSONValue.string d.Salt)] else [])

/-! ## go-ethereum `math/big` helpers, RLP and `crypto` -/

/-- Errors that come out of go-ethereum (and the libraries below it). -/
inductive LibError where
  /-- The error `types.ErrTxTypeNotSupported`, "transaction type not supported". -/
  | errTxTypeNotSupported
  /-- The error `types.ErrInvalidChainId`, "invalid chain id for signer". -/
  | errInvalidChainId
  /-- The error `types.ErrInvalidSig`, "invalid transaction v, r, s values". -/
  | errInvalidSig
  /-- The error "invalid public key" of `recoverPlain`. -/
  | errInvalidPublicKey
  /-- The error `rlp.ErrNegativeBigInt`, "rlp: cannot encode negative big.Int". -/
  | errNegativeBigInt
  /-- An error reported by a primitive of `Lib`. -/
  | other (msg : String)
  deriving DecidableEq, Repr

/-- Minimal big-endian bytes of a natural with recursion fuel. -/
def bigEndianFuel : Nat → Nat → Bytes
  | 0, _ => []
  | fuel + 1, n => if n = 0 then [] else bigEndianFuel fuel (n / 256) ++ [n % 256]

/-- Go `(*big.Int).Bytes()` of a non-negative value: minimal big-endian bytes, empty
for zero. -/
def bigEndian (n : Nat) : Bytes := bigEndianFuel n n

/-- Go `new(big.Int).SetBytes(b)`: the big-endian value of a byte slice. -/
def fromBigEndian (b : Bytes) : Nat := b.foldl (fun acc x => acc * 256 + x) 0

/-- Left-pad the minimal big-endian bytes of `n` with zeros to `k` bytes, as
`copy(buf[k-len(b):k], b)` into a zeroed buffer does (for `n < 256 ^ k`). -/
def paddedBigBytes (n : Nat) (k : Nat) : Bytes :=
  List.replicate (k - (bigEndian n).length) 0 ++ bigEndian n

/-- The test `x.BitLen() <= k` on a `*big.Int`: the bit length is that of the
absolute value. -/
def bitLenLE (x : Int) (k : Nat) : Bool := decide (x.natAbs < 2 ^ k)

/-- Go `(*big.Int).Uint64()`: the low 64 bits of the absolute value. -/
def bigUint64 (x : Int) : Nat := x.natAbs % 2 ^ 64

/-- A value handed to the RLP encoder. -/
inductive RLPItem where
  | uint (n : Nat)
  | bigInt (x : Int)
  | bytes (b : Bytes)
  | address (a : Option Address)
  | emptyList

/-- RLP header of a string (`offset = 0x80`) or list (`offset = 0xC0`) of `size` bytes. -/
def rlpHeader (offset size : Nat) : Bytes :=
  if size < 56 then [offset + size]
  else [offset + 55 + (bigEndian size).length] ++ bigEndian size

/-- RLP encoding of a byte string. -/
def rlpBytes (b : Bytes) : Bytes :=
  match b with
  | [x] => if x ≤ 0x7f then [x] else rlpHeader 0x80 1 ++ [x]
  | _ => rlpHeader 0x80 b.length ++ b

/-- RLP encoding of one value; a negative `*big.Int` is `rlp.ErrNegativeBigInt`. -/
def rlpItem : RLPItem → Except LibError Bytes
  | .uint n => .ok (rlpBytes (bigEndian n))
  | .bigInt x => if x < 0 then .error .errNegativeBigInt else .ok (rlpBytes (bigEndian x.toNat))
  | .bytes b => .ok (rlpBytes b)
  | .address a =>
    .ok (match a with
      | none => [0x80]
      | some b => rlpBytes b)
  | .emptyList => .ok [0xC0]

/-- RLP encoding of the items one after the other. -/
def rlpItems : List RLPItem → Except LibError Bytes
  | [] => .ok []
  | x :: xs =>
    match rlpItem x with
    | .error e => .error e
    | .ok b =>
      match rlpItems xs with
      | .error e => .error e
      | .ok bs => .ok (b ++ bs)

/-- Go `rlp.EncodeToBytes` of a struct or list of these values. -/
def rlpEncodeList (items : List RLPItem) : Except LibError Bytes :=
  match rlpItems items with
  | .error e => .error e
  | .ok payload => .ok (rlpHeader 0xC0 payload.length ++ payload)

/-- The primitives of go-ethereum that are taken as given: Keccak-256, the secp256k1
operations behind `crypto.Sign` and `crypto.Ecrecover`, and EIP-712 struct hashing. -/
structure Lib where
  /-- The hash `crypto.Keccak256`. -/
  keccak256 : Bytes → Bytes
  /-- The public point `(X, Y)` of the private scalar `D`. -/
  scalarBaseMult : Nat → Nat × Nat
  /-- The call `crypto.Sign(digestHash, prv)`, as a function of the digest and `prv.D`:
  a 65-byte `R || S || V` signature or an error. -/
  sign : Bytes → Nat → Except LibError Bytes
  /-- The call `crypto.Ecrecover(hash, sig)`: the 65-byte uncompressed public key or
  an error. -/
  ecrecover : Bytes → Bytes → Except LibError Bytes
  /-- The method `typedData.HashStruct(primaryType, data)` of `apitypes.TypedData`. -/
  hashStruct : TypedData → String → JSONObject → Except LibError Bytes

/-- The order of the secp256k1 group, `secp256k1N`. -/
def secp256k1N : Nat :=
  0xfffffffffffffffffffffffffffffffebaaedce6af48a03bbfd25e8cd0364141

/-- Half the group order, `secp256k1halfN`. -/
def secp256k1halfN : Nat := secp256k1N / 2

/-- An `*ecdsa.PrivateKey`: the scalar `D` and the stored public point. -/
structure PrivateKey where
  D : Nat
  X : Nat
  Y : Nat

/-- The go-ethereum helper `crypto.FromECDSAPub`: `0x04 || X || Y`, 65 bytes. -/
def FromECDSAPub (X Y : Nat) : Bytes := 4 :: (paddedBigBytes X 32 ++ paddedBigBytes Y 32)

/-- The go-ethereum helper `crypto.PubkeyToAddress`:
`BytesToAddress(Keccak256(pubBytes[1:])[12:])`. -/
def PubkeyToAddress (L : Lib) (key : PrivateKey) : Address :=
  BytesToAddress ((L.keccak256 ((FromECDSAPub key.X key.Y).drop 1)).drop 12)

/-- The go-ethereum helper `crypto.ValidateSignatureValues`. -/
def ValidateSignatureValues (v : Nat) (r s : Int) (homestead : Bool) : Bool :=
  if r < 1 ∨ s < 1 then false
  else if homestead ∧ s > (secp256k1halfN : Int) then false
  else decide (r < (secp256k1N : Int) ∧ s < (secp256k1N : Int) ∧ (v = 0 ∨ v = 1))

/-! ## go-ethereum `core/types`: transactions and the EIP-155 signer -/

/-- The legacy transaction payload, `types.LegacyTx`. -/
structure LegacyTx where
  Nonce : Nat
  GasPrice : Int
  Gas : Nat
  To : Option Address
  Value : Int
  Data : Bytes
  V : Int
  R : Int
  S : Int
  deriving DecidableEq, Repr, Inhabited

/-- The fee-market transaction payload, `types.DynamicFeeTx` (the access list is
always empty here). -/
structure DynamicFeeTx where
  ChainID : Int
  Nonce : Nat
  GasTipCap : Int
  GasFeeCap : Int
  Gas : Nat
  To : Option Address
  Value : Int
  Data : Bytes
  V : Int
  R : Int
  S : Int
  deriving DecidableEq, Repr

/-- A `types.Transaction`: its inner payload. -/
inductive Transaction where
  | legacyTx (inner : LegacyTx)
  | dynamicFeeTx (inner : DynamicFeeTx)
  deriving DecidableEq, Repr

/-- The constructor `types.NewTransaction`: a legacy transaction with a zero signature;
`NewTx` copies the payload and a nil `gasPrice` or `amount` becomes zero. -/
def NewTransaction (nonce : Nat) (toAddr : Address) (amount : Option Int) (gasLimit : Nat)
    (gasPrice : Option Int) (data : Bytes) : Transaction :=
  .legacyTx
    { Nonce := nonce, GasPrice := gasPrice.getD 0, Gas := gasLimit, To := some toAddr,
      Value := amount.getD 0, Data := data, V := 0, R := 0, S := 0 }

/-- The call `types.NewTx(&types.DynamicFeeTx{...})` with the fields the signer sets;
the copy turns nil big integers into zeros and leaves the signature zero. -/
def NewDynamicFeeTx (chainID : Option Int) (nonce : Nat) (toAddr : Address) (value : Option Int)
    (gas : Nat) (gasFeeCap gasTipCap : Option Int) (data : Bytes) : Transaction :=
  .dynamicFeeTx
    { ChainID := chainID.getD 0, Nonce := nonce, GasTipCap := gasTipCap.getD 0,
      GasFeeCap := gasFeeCap.getD 0, Gas := gas, To := some toAddr, Value := value.getD 0,
      Data := data, V := 0, R := 0, S := 0 }

/-- The method `tx.Type() == LegacyTxType`. -/
def Transaction.isLegacy : Transaction → Bool
  | .legacyTx _ => true
  | .dynamicFeeTx _ => false

/-- The method `tx.Nonce()`. -/
def Transaction.Nonce : Transaction → Nat
  | .legacyTx t => t.Nonce
  | .dynamicFeeTx t => t.Nonce

/-- The method `tx.GasPrice()`; for a fee-market transaction it is the fee cap. -/
def Transaction.GasPrice : Transaction → Int
  | .legacyTx t => t.GasPrice
  | .dynamicFeeTx t => t.GasFeeCap

/-- The method `tx.Gas()`. -/
def Transaction.Gas : Transaction → Nat
  | .legacyTx t => t.Gas
  | .dynamicFeeTx t => t.Gas

/-- The method `tx.To()`. -/
def Transaction.To : Transaction → Option Address
  | .legacyTx t => t.To
  | .dynamicFeeTx t => t.To

/-- The method `tx.Value()`. -/
def Transaction.Value : Transaction → Int
  | .legacyTx t => t.Value
  | .dynamicFeeTx t => t.Value

/-- The method `tx.Data()`. -/
def Transaction.Data : Transaction → Bytes
  | .legacyTx t => t.Data
  | .dynamicFeeTx t => t.Data

/-- The method `tx.RawSignatureValues()`, in the order `(v, r, s)`. -/
def Transaction.RawSignatureValues : Transaction → Int × Int × Int
  | .legacyTx t => (t.V, t.R, t.S)
  | .dynamicFeeTx t => (t.V, t.R, t.S)

/-- The helper `isProtectedV` of `core/types`. -/
def isProtectedV (V : Int) : Bool :=
  if bitLenLE V 8 then
    let v := bigUint64 V
    v != 27 && v != 28 && v != 1 && v != 0
  else true

/-- The method `tx.Protected()`. -/
def Transaction.Protected : Transaction → Bool
  | .legacyTx t => isProtectedV t.V
  | .dynamicFeeTx _ => true

/-- The helper `deriveChainId` of `core/types`; the 64-bit branch computes
`(v - 35) / 2` in `uint64` arithmetic. -/
def deriveChainId (v : Int) : Int :=
  if bitLenLE v 64 then
    let v64 := bigUint64 v
    if v64 = 27 ∨ v64 = 28 then 0
    else (((v64 + 2 ^ 64 - 35) % 2 ^ 64 / 2 : Nat) : Int)
  else (v - 35) / 2

/-- The method `tx.ChainId()`. -/
def Transaction.ChainId : Transaction → Int
  | .legacyTx t => deriveChainId t.V
  | .dynamicFeeTx t => t.ChainID

/-- The signer `types.EIP155Signer`; `chainIdMul` is `chainId * 2`. -/
structure EIP155Signer where
  chainId : Int
  chainIdMul : Int
  deriving DecidableEq, Repr

/-- The constructor `types.NewEIP155Signer` (a nil chain id counts as zero). -/
def NewEIP155Signer (chainId : Option Int) : EIP155Signer :=
  { chainId := chainId.getD 0, chainIdMul := chainId.getD 0 * 2 }

/-- The helper `rlpHash` of `core/types`: Keccak-256 of the RLP encoding, read into
a 32-byte `common.Hash`.  The encoding error is dropped, and on an error nothing
has been written to the hasher. -/
def rlpHash (L : Lib) (items : List RLPItem) : Bytes :=
  match rlpEncodeList items with
  | .ok b => L.keccak256 b
  | .error _ => L.keccak256 []

/-- The method `EIP155Signer.Hash`. -/
def EIP155Signer.Hash (L : Lib) (s : EIP155Signer) (tx : Transaction) : Bytes :=
  rlpHash L [.uint tx.Nonce, .bigInt tx.GasPrice, .uint tx.Gas, .address tx.To,
    .bigInt tx.Value, .bytes tx.Data, .bigInt s.chainId, .uint 0, .uint 0]

/-- The method `HomesteadSigner.Hash` (that of `FrontierSigner`). -/
def HomesteadSigner.Hash (L : Lib) (tx : Transaction) : Bytes :=
  rlpHash L [.uint tx.Nonce, .bigInt tx.GasPrice, .uint tx.Gas, .address tx.To,
    .bigInt tx.Value, .bytes tx.Data]

/-- What a library call can end in besides a value: an error value or a panic. -/
inductive Fault where
  | err (e : LibError)
  | panic
  deriving DecidableEq, Repr

/-- The helper `decodeSignature`: `(r, s, v)` of a 65-byte signature with
`v = sig[64] + 27` in byte arithmetic; any other length panics. -/
def decodeSignature (sig : Bytes) : Except Fault (Int × Int × Int) :=
  if sig.length ≠ 65 then .error .panic
  else .ok ((fromBigEndian (sig.take 32) : Int), (fromBigEndian ((sig.drop 32).take 32) : Int),
    (((sig.getD 64 0 + 27) % 256 : Nat) : Int))

/-- The method `EIP155Signer.SignatureValues`: `(R, S, V)`, with
`V = sig[64] + 35 + 2 * chainId` unless the chain id is zero. -/
def EIP155Signer.SignatureValues (s : EIP155Signer) (tx : Transaction) (sig : Bytes) :
    Except Fault (Int × Int × Int) :=
  if !tx.isLegacy then .error (.err .errTxTypeNotSupported)
  else
    match decodeSignature sig with
    | .error f => .error f
    | .ok (R, S, V) =>
      if s.chainId ≠ 0 then
        .ok (R, S, (((sig.getD 64 0 + 35) % 256 : Nat) : Int) + s.chainIdMul)
      else .ok (R, S, V)

/-- The method `tx.WithSignature(signer, sig)` for the EIP-155 signer. -/
def Transaction.WithSignature (tx : Transaction) (signer : EIP155Signer) (sig : Bytes) :
    Except Fault Transaction :=
  match signer.SignatureValues tx sig with
  | .error f => .error f
  | .ok (r, s, v) =>
    match tx with
    | .legacyTx t => .ok (.legacyTx { t with V := v, R := r, S := s })
    | .dynamicFeeTx t =>
      .ok (.dynamicFeeTx { t with ChainID := signer.chainId, V := v, R := r, S := s })

/-- The function `types.SignTx(tx, s, prv)`. -/
def SignTx (L : Lib) (tx : Transaction) (s : EIP155Signer) (prv : PrivateKey) :
    Except Fault Transaction :=
  match L.sign (s.Hash L tx) prv.D with
  | .error e => .error (.err e)
  | .ok sig => tx.WithSignature s sig

/-- The recovery byte of `recoverPlain`: `byte(Vb.Uint64() - 27)`, in `uint64`
arithmetic and then cut to a byte. -/
def recoveryByte (Vb : Int) : Nat := (bigUint64 Vb + 2 ^ 64 - 27) % 2 ^ 64 % 256

/-- The helper `recoverPlain` of `core/types`. -/
def recoverPlain (L : Lib) (sighash : Bytes) (R S Vb : Int) (homestead : Bool) :
    Except Fault Address :=
  if !bitLenLE Vb 8 then .error (.err .errInvalidSig)
  else
    let V := recoveryByte Vb
    if !ValidateSignatureValues V R S homestead then .error (.err .errInvalidSig)
    else
      let r := bigEndian R.toNat
      let s := bigEndian S.toNat
      if r.length > 32 ∨ s.length > 32 then .error .panic
      else
        let sig := paddedBigBytes R.toNat 32 ++ paddedBigBytes S.toNat 32 ++ [V]
        match L.ecrecover sighash sig with
        | .error e => .error (.err e)
        | .ok pub =>
          if pub.length = 0 ∨ pub.head? ≠ some 4 then .error (.err .errInvalidPublicKey)
          else .ok (BytesToAddress ((L.keccak256 (pub.drop 1)).drop 12))

/-- The method `EIP155Signer.Sender`. -/
def EIP155Signer.Sender (L : Lib) (s : EIP155Signer) (tx : Transaction) :
    Except Fault Address :=
  if !tx.isLegacy then .error (.err .errTxTypeNotSupported)
  else if !tx.Protected then
    let (v, r, s1) := tx.RawSignatureValues
    recoverPlain L (HomesteadSigner.Hash L tx) r s1 v true
  else if tx.ChainId ≠ s.chainId then .error (.err .errInvalidChainId)
  else
    let (V, R, S) := tx.RawSignatureValues
    recoverPlain L (s.Hash L tx) R S (V - s.chainIdMul - 8) true

/-- The method `tx.MarshalBinary()`: the RLP list of a legacy transaction, or the type
byte `0x02` followed by the RLP list of a fee-market transaction. -/
def Transaction.MarshalBinary : Transaction → Except LibError Bytes
  | .legacyTx t =>
    rlpEncodeList [.uint t.Nonce, .bigInt t.GasPrice, .uint t.Gas, .address t.To,
      .bigInt t.Value, .bytes t.Data, .bigInt t.V, .bigInt t.R, .bigInt t.S]
  | .dynamicFeeTx t =>
    match rlpEncodeList [.bigInt t.ChainID, .uint t.Nonce, .bigInt t.GasTipCap,
      .bigInt t.GasFeeCap, .uint t.Gas, .address t.To, .bigInt t.Value, .bytes t.Data,
      .emptyList, .bigInt t.V, .bigInt t.R, .bigInt t.S] with
    | .error e => .error e
    | .ok b => .ok (2 :: b)

/-! ## The repository: `go-app/src/utils.go` and `go-app/src/main.go` -/

/-- The errors of `signTypedData` and `signTransaction`, one constructor per
`fmt.Errorf` format, and `panic` for a run-time panic of the Go code. -/
inductive SignError where
  /-- The error "failed to parse typed data JSON: %v". -/
  | failedToParseTypedData
  /-- The error "typed data missing '%s' field" for domain, types, primaryType, message. -/
  | missingField (field : String)
  /-- The error "failed to hash struct data: %v". -/
  | failedToHashStruct (e : LibError)
  /-- The error "failed to create domain separator: %v". -/
  | failedToCreateDomainSeparator (e : LibError)
  /-- The error "failed to sign typed data hash: %v". -/
  | failedToSignTypedData (e : LibError)
  /-- The error "failed to recover public key from signature: %v". -/
  | failedToRecoverPublicKey (e : LibError)
  /-- The error "signature verification failed: recovered address %s does not match
  original address %s". -/
  | signatureVerificationFailed (recovered original : Address)
  /-- The error "invalid chain ID: %s". -/
  | invalidChainID (chainIDStr : String)
  /-- The error "failed to sign transaction: %v". -/
  | failedToSignTransaction (e : LibError)
  /-- The error "failed to recover sender from signed transaction: %v". -/
  | failedToRecoverSender (e : LibError)
  /-- The error "transaction signature verification failed: recovered sender %s does
  not match original address %s". -/
  | transactionVerificationFailed (sender original : Address)
  /-- The error "failed to marshal signed transaction: %v". -/
  | failedToMarshal (e : LibError)
  | panic
  deriving DecidableEq, Repr

/-- The three fields that `addEIP712DomainTypeToTypedData` writes. -/
def eip712Domain : List TypeField :=
  [{ Name := "name", Type_ := "string" },
   { Name := "chainId", Type_ := "uint256" },
   { Name := "verifyingContract", Type_ := "address" }]

/-- The function `addEIP712DomainTypeToTypedData` of `go-app/src/utils.go`: make the
map if it is nil, then assign `typedData.Types["EIP712Domain"]`. -/
def addEIP712DomainTypeToTypedData (typedData : TypedData) : TypedData :=
  let types : Types := match typedData.Types with
    | none => []
    | some m => m
  { typedData with Types := some (types.set "EIP712Domain" eip712Domain) }

/-- Go `fmt.Sprintf(format, args...)` with string operands, on the bytes of the
strings, for formats made of literal bytes, `%%` and the plain verb `%s`: a literal
byte is copied, `%%` writes one `%`, `%s` writes the bytes of the next operand as they
are.  The result is `none` outside this fragment (flags, widths, other verbs, a
missing or a left-over operand). -/
def goSprintf : Bytes → List Bytes → Option Bytes
  | [], args => if args.isEmpty then some [] else none
  | b :: rest, args =>
    if b ≠ 0x25 then (goSprintf rest args).map (fun out => b :: out)
    else
      match rest, args with
      | 0x25 :: rest1, args1 => (goSprintf rest1 args1).map (fun out => 0x25 :: out)
      | 0x73 :: rest1, a :: args1 => (goSprintf rest1 args1).map (fun out => a ++ out)
      | _, _ => none

/-- The bytes of the format string `"\x19\x01%s%s"` of `signTypedData`. -/
def eip712Format : Bytes := [0x19, 0x01, 0x25, 0x73, 0x25, 0x73]

/-- The byte string that `signTypedData` hashes:
`[]byte(fmt.Sprintf("\x19\x01%s%s", string(domainSeparator), string(typedDataHash)))`.
The format is inside the fragment of `goSprintf`, so the default is never taken. -/
def eip712RawData (domainSeparator typedDataHash : Bytes) : Bytes :=
  (goSprintf eip712Format [domainSeparator, typedDataHash]).getD []

/-- The final digest of `signTypedData` (steps 1 to 3): both struct hashes, then
Keccak-256 of the formatted byte string `eip712RawData`. -/
def typedDataDigest (L : Lib) (typedData : TypedData) : Except SignError Bytes :=
  match L.hashStruct typedData typedData.PrimaryType typedData.Message with
  | .error e => .error (.failedToHashStruct e)
  | .ok typedDataHash =>
    match L.hashStruct typedData "EIP712Domain" typedData.Domain.Map with
    | .error e => .error (.failedToCreateDomainSeparator e)
    | .ok domainSeparator =>
      let rawData := eip712RawData domainSeparator typedDataHash
      .ok (L.keccak256 rawData)

/-- Step 5 of `signTypedData`: `if signature[64] < 27 { signature[64] += 27 }` in
byte arithmetic. -/
def adjustV (signature : Bytes) : Bytes :=
  if signature.getD 64 0 < 27 then signature.set 64 ((signature.getD 64 0 + 27) % 256)
  else signature

/-- The function `signTypedData` of `go-app/src/main.go`.  `parsed` is the outcome
of `json.Unmarshal([]byte(typedDataJSON), &typedData)`, `none` when it fails. -/
def signTypedData (L : Lib) (_typedDataJSON : String) (parsed : Option TypedData)
    (privateKey : PrivateKey) : Except SignError String :=
  match parsed with
  | none => .error .failedToParseTypedData
  | some typedData0 =>
    let typedData := addEIP712DomainTypeToTypedData typedData0
    if typedData.Domain = TypedDataDomain.zero then .error (.missingField "domain")
    else if (typedData.Types.getD []).length = 0 then .error (.missingField "types")
    else if typedData.PrimaryType = "" then .error (.missingField "primaryType")
    else if typedData.Message.length = 0 then .error (.missingField "message")
    else
      match typedDataDigest L typedData with
      | .error e => .error e
      | .ok finalHash =>
        match L.sign finalHash privateKey.D with
        | .error e => .error (.failedToSignTypedData e)
        | .ok signature0 =>
          let originalSignature := signature0
          if signature0.length ≤ 64 then .error .panic
          else
            let signature := adjustV signature0
            match L.ecrecover finalHash originalSignature with
            | .error e => .error (.failedToRecoverPublicKey e)
            | .ok pubKey =>
              if pubKey.length < 1 then .error .panic
              else if (L.keccak256 (pubKey.drop 1)).length < 12 then .error .panic
              else
                let recoveredAddress :=
                  BytesToAddress ((L.keccak256 (pubKey.drop 1)).drop 12)
                let originalAddress := PubkeyToAddress L privateKey
                if recoveredAddress ≠ originalAddress then
                  .error (.signatureVerificationFailed recoveredAddress originalAddress)
                else .ok ("0x" ++ hexEncodeToString signature)

/-- The chain-id step of `signTransaction` (`main.go`, "Parse the chain ID"): strip
the `eip155-` tag, then parse the rest in base 10. -/
def parseChainID (chainIDStr : String) : Except SignError Int :=
  let chainIDStr1 := stringsTrimPrefix chainIDStr "eip155-"
  match bigSetString chainIDStr1 10 with
  | none => .error (.invalidChainID chainIDStr1)
  | some chainID => .ok chainID

/-- The gas limit `signTransaction` uses. -/
def txGasLimit (txMap : Option JSONObject) : Nat :=
  match txMap with
  | none => 300000
  | some m =>
    match (m.index "gasLimit").asString with
    | some gasLimitStr =>
      let gasLimit_temp := (strconvParseUint (stringsTrimPrefix gasLimitStr "0x") 16).1
      if gasLimit_temp > 0 then gasLimit_temp else 300000
    | none => 300000

/-- The value `signTransaction` uses. -/
def txValue (txMap : Option JSONObject) : Int :=
  match txMap with
  | none => 0
  | some m =>
    match (m.index "value").asString with
    | some valueStr =>
      if valueStr ≠ "" then
        match bigSetString (stringsTrimPrefix valueStr "0x") 16 with
        | some value_temp => value_temp
        | none => 0
      else 0
    | none => 0

/-- The nonce `signTransaction` uses. -/
def txNonce (txMap : Option JSONObject) : Nat :=
  match txMap with
  | none => 0
  | some m =>
    match (m.index "nonce").asString with
    | some nonceStr =>
      if nonceStr ≠ "" then (strconvParseUint (stringsTrimPrefix nonceStr "0x") 16).1
      else 0
    | none => 0

/-- The payload bytes `signTransaction` uses: the `data` member of the JSON object,
or the raw input itself when it is no JSON. -/
def txPayload (txData : String) (txMap : Option JSONObject) : Bytes :=
  match txMap with
  | none => FromHex txData
  | some m =>
    match (m.index "data").asString with
    | some dataStr => if dataStr ≠ "" then FromHex dataStr else []
    | none => []

/-- The test `isJSON && txMap["maxFeePerGas"] != nil` of `signTransaction`. -/
def hasFeeMarketField (txMap : Option JSONObject) : Bool :=
  match txMap with
  | none => false
  | some m => (m.index "maxFeePerGas").nonNil

/-- A hex quantity read the way the fee fields are: `v.(string)` with the failure
dropped, `0x` stripped, `SetString(_, 16)` with the failure dropped (a nil result). -/
def feeField (m : JSONObject) (key : String) : Option Int :=
  bigSetString (stringsTrimPrefix ((m.index key).asString.getD "") "0x") 16

/-- The gas price of the legacy branch of `signTransaction`; `none` is a nil pointer. -/
def txGasPrice (txMap : Option JSONObject) : Option Int :=
  match txMap with
  | none => some 1000000000
  | some m =>
    if (m.index "gasPrice").nonNil then feeField m "gasPrice" else some 1000000000

/-- The transaction `signTransaction` creates (`main.go`, from "Create the
transaction" to the end of the legacy branch).  `txMap` is the outcome of
`json.Unmarshal([]byte(txData), &txMap)`, `none` when it fails. -/
def buildTransaction (txData : String) (txMap : Option JSONObject) (chainID : Int)
    (to_ : String) : Transaction :=
  let toAddr := HexToAddress to_
  let gasLimit := txGasLimit txMap
  let value := txValue txMap
  let nonce := txNonce txMap
  let txData_bytes := txPayload txData txMap
  if hasFeeMarketField txMap then
    let maxFeePerGas := feeField (txMap.getD []) "maxFeePerGas"
    let maxPriorityFeePerGas := feeField (txMap.getD []) "maxPriorityFeePerGas"
    NewDynamicFeeTx (some chainID) nonce toAddr (some value) gasLimit maxFeePerGas
      maxPriorityFeePerGas txData_bytes
  else
    NewTransaction nonce toAddr (some value) gasLimit (txGasPrice txMap) txData_bytes

/-- The rest of `signTransaction` (`main.go`, from "Sign the transaction"): sign with
the EIP-155 signer, recover the sender, compare, serialise.  The signed transaction is
handed back next to the string. -/
def signAndVerify (L : Lib) (tx : Transaction) (chainID : Int) (privateKey : PrivateKey) :
    Except SignError (Transaction × String) :=
  let signer := NewEIP155Signer (some chainID)
  match SignTx L tx signer privateKey with
  | .error (.err e) => .error (.failedToSignTransaction e)
  | .error .panic => .error .panic
  | .ok signedTx =>
    match signer.Sender L signedTx with
    | .error (.err e) => .error (.failedToRecoverSender e)
    | .error .panic => .error .panic
    | .ok sender =>
      let originalAddress := PubkeyToAddress L privateKey
      if sender ≠ originalAddress then
        .error (.transactionVerificationFailed sender originalAddress)
      else
        match signedTx.MarshalBinary with
        | .error e => .error (.failedToMarshal e)
        | .ok signedTxBytes => .ok (signedTx, "0x" ++ hexEncodeToString signedTxBytes)

/-- The function `signTransaction` of `go-app/src/main.go`.  `txMap` is the outcome of
`json.Unmarshal([]byte(txData), &txMap)`, `none` when it fails. -/
def signTransaction (L : Lib) (txData : String) (txMap : Option JSONObject)
    (chainIDStr : String) (to_ : String) (privateKey : PrivateKey) :
    Except SignError String :=
  match parseChainID chainIDStr with
  | .error e => .error e
  | .ok chainID =>
    match signAndVerify L (buildTransaction txData txMap chainID to_) chainID privateKey with
    | .error e => .error e
    | .ok (_, signed) => .ok signed

/-! ## The nested copy: `go/go-app/src/orby/types.go` and `utils.go` -/

namespace Orby

/-- The struct `Operation` of `orby/types.go`: its string fields and the estimated
time (the fee and token-state members play no part in signing and are left out). -/
structure Operation where
  ChainId : String
  Data : String
  EstimatedTimeInMs : Int
  Format : String
  From : String
  GasLimit : String
  MaxFeePerGas : String
  MaxPriorityFeePerGas : String
  Nonce : String
  To : String
  TxRpcUrl : String
  /-- The Go field `Type`. -/
  Type_ : String
  deriving DecidableEq, Repr

/-- The function `AddEIP712DomainTypeToTypedData` of `orby/utils.go`. -/
def AddEIP712DomainTypeToTypedData (typedData : TypedData) : TypedData :=
  let types : Types := match typedData.Types with
    | none => []
    | some m => m
  let eip712Domain : List TypeField :=
    [{ Name := "name", Type_ := "string" },
     { Name := "chainId", Type_ := "uint256" },
     { Name := "verifyingContract", Type_ := "address" }]
  { typedData with Types := some (types.set "EIP712Domain" eip712Domain) }

/-- The chain-id step of `SignTransaction` in `orby/utils.go`: the tag is stripped
into `chainIDStr`, but `SetString` is given `operation.ChainId` itself; `chainIDStr`
only appears in the error. -/
def parseChainID (operation : Operation) : Except SignError Int :=
  let chainIDStr := stringsTrimPrefix operation.ChainId "eip155-"
  match bigSetString operation.ChainId 10 with
  | none => .error (.invalidChainID chainIDStr)
  | some chainID => .ok chainID

/-- The function `SignTransaction` of `orby/utils.go`.  `privateKey` is what
`GetPrivateKey()` returns and `txMap` the outcome of
`json.Unmarshal([]byte(operation.Data), &txMap)`, `none` when it fails.  After the
chain-id step the text is that of `signTransaction` in `main.go`, with
`operation.Data` and `operation.To` for `txData` and `to`. -/
def SignTransaction (L : Lib) (operation : Operation) (txMap : Option JSONObject)
    (privateKey : PrivateKey) : Except SignError String :=
  match parseChainID operation with
  | .error e => .error e
  | .ok chainID =>
    match signAndVerify L (buildTransaction operation.Data txMap chainID operation.To)
        chainID privateKey with
    | .error e => .error e
    | .ok (_, signed) => .ok signed

/-- The function `SignTypedData` of `orby/utils.go`.  `privateKey` is what
`GetPrivateKey()` returns and `parsed` the outcome of
`json.Unmarshal([]byte(operation.Data), &typedData)`, `none` when it fails. -/
def SignTypedData (L : Lib) (_operation : Operation) (parsed : Option TypedData)
    (privateKey : PrivateKey) : Except SignError String :=
  match parsed with
  | none => .error .failedToParseTypedData
  | some typedData0 =>
    let typedData := AddEIP712DomainTypeToTypedData typedData0
    if typedData.Domain = TypedDataDomain.zero then .error (.missingField "domain")
    else if (typedData.Types.getD []).length = 0 then .error (.missingField "types")
    else if typedData.PrimaryType = "" then .error (.missingField "primaryType")
    else if typedData.Message.length = 0 then .error (.missingField "message")
    else
      match L.hashStruct typedData typedData.PrimaryType typedData.Message with
      | .error e => .error (.failedToHashStruct e)
      | .ok typedDataHash =>
        match L.hashStruct typedData "EIP712Domain" typedData.Domain.Map with
        | .error e => .error (.failedToCreateDomainSeparator e)
        | .ok domainSeparator =>
          let rawData := eip712RawData domainSeparator typedDataHash
          let finalHash := L.keccak256 rawData
          match L.sign finalHash privateKey.D with
          | .error e => .error (.failedToSignTypedData e)
          | .ok signature0 =>
            let originalSignature := signature0
            if signature0.length ≤ 64 then .error .panic
            else
              let signature := adjustV signature0
              match L.ecrecover finalHash originalSignature with
              | .error e => .error (.failedToRecoverPublicKey e)
              | .ok pubKey =>
                if pubKey.length < 1 then .error .panic
                else if (L.keccak256 (pubKey.drop 1)).length < 12 then .error .panic
                else
                  let recoveredAddress :=
                    BytesToAddress ((L.keccak256 (pubKey.drop 1)).drop 12)
                  let originalAddress := PubkeyToAddress L privateKey
                  if recoveredAddress ≠ originalAddress then
                    .error (.signatureVerificationFailed recoveredAddress originalAddress)
                  else .ok ("0x" ++ hexEncodeToString signature)

end Orby

/-! ## What the go-ethereum documentation promises about the primitives -/

/-- A signature as `crypto.Sign` documents it: 65 bytes `R || S || V` with `V` equal
to 0 or 1, `R` and `S` in the range of the group order and `S` in the lower half. -/
def WellFormedSig (sig : Bytes) : Prop :=
  sig.length = 65 ∧ (∀ x ∈ sig, x < 256) ∧ sig.getD 64 0 ≤ 1 ∧
  0 < fromBigEndian (sig.take 32) ∧ fromBigEndian (sig.take 32) < secp256k1N ∧
  0 < fromBigEndian ((sig.drop 32).take 32) ∧
  fromBigEndian ((sig.drop 32).take 32) ≤ secp256k1halfN

/-- A private key as `crypto.HexToECDSA` makes it: a scalar in the range of the
group order with its own public point stored next to it. -/
def ValidKey (L : Lib) (key : PrivateKey) : Prop :=
  0 < key.D ∧ key.D < secp256k1N ∧ L.scalarBaseMult key.D = (key.X, key.Y) ∧
  key.X < 2 ^ 256 ∧ key.Y < 2 ^ 256

/-- The contract of the primitives: Keccak-256 yields 32 bytes; signing a 32-byte
digest with a valid key yields a well-formed signature, and public-key recovery from
that digest and signature yields the signer's uncompressed public key. -/
structure Lib.Laws (L : Lib) : Prop where
  keccak_length : ∀ b, (L.keccak256 b).length = 32
  sign_ok : ∀ h key, h.length = 32 → ValidKey L key →
    ∃ sig, L.sign h key.D = .ok sig ∧ WellFormedSig sig
  recover_sign : ∀ h key sig, h.length = 32 → ValidKey L key → L.sign h key.D = .ok sig →
    L.ecrecover h sig = .ok (FromECDSAPub key.X key.Y)

/-! ## A small instance of the primitives, for concrete runs -/

/-- A toy instance of `Lib` that meets `Lib.Laws`: the hash keeps the first 32 bytes
of its input (zero-padded), the public point of `D` is `(D % 255 + 1, 0)`, a
signature carries that coordinate as `R` with `S = 1` and `V = 0`, and recovery
reads the point back from `R`. -/
def toyLib : Lib where
  keccak256 := fun b => (b ++ List.replicate 32 0).take 32
  scalarBaseMult := fun d => (d % 255 + 1, 0)
  sign := fun h d =>
    if h.length = 32 then
      .ok (List.replicate 31 0 ++ [d % 255 + 1] ++ (List.replicate 31 0 ++ [1]) ++ [0])
    else .error (.other "hash is required to be exactly 32 bytes")
  ecrecover := fun _ sig => .ok (4 :: (sig.take 32 ++ List.replicate 32 0))
  hashStruct := fun _ primaryType _ => .ok (List.replicate 32 (primaryType.length % 256))

/-- A valid key of `toyLib`. -/
def toyKey : PrivateKey := { D := 7, X := 8, Y := 0 }

/-- The address `0x00...01` as a string. -/
def addrOne : String := "0x0000000000000000000000000000000000000001"

/-- An operation with the given chain id and destination and nothing else set. -/
def opOnChain (chainId : String) (data : String) (toAddr : String) : Orby.Operation :=
  { ChainId := chainId, Data := data, EstimatedTimeInMs := 0, Format := "TRANSACTION",
    From := "", GasLimit := "", MaxFeePerGas := "", MaxPriorityFeePerGas := "",
    Nonce := "", To := toAddr, TxRpcUrl := "", Type_ := "" }

/-! ## Vocabulary of the statements -/

/-- A decimal digit `0`..`9`. -/
def isDecimalDigit (c : Char) : Bool := decide (48 ≤ c.toNat ∧ c.toNat ≤ 57)

/-- A non-empty string of decimal digits. -/
def isDecimal (d : String) : Bool := !d.data.isEmpty && d.data.all isDecimalDigit

/-- The number a string of decimal digits denotes. -/
def decimalValue (d : String) : Nat :=
  d.data.foldl (fun acc c => acc * 10 + (c.toNat - 48)) 0

/-- An optional sign `+` or `-` followed by a non-empty string of decimal digits. -/
def isSignedDecimal (s : String) : Bool :=
  match s.data with
  | [] => false
  | c :: cs =>
    if c = '-' ∨ c = '+' then !cs.isEmpty && cs.all isDecimalDigit
    else (c :: cs).all isDecimalDigit

/-- The field `key` is absent from the transaction input: the input is raw hex data,
or a JSON object without that key. -/
def FieldAbsent (txMap : Option JSONObject) (key : String) : Prop :=
  ∀ m, txMap = some m → m.lookup key = none

/-- The `EIP712Domain` entry of the schema of a typed data, if the schema has one. -/
def domainEntry (typedData : TypedData) : Option (List TypeField) :=
  typedData.Types.bind (fun m => m.get "EIP712Domain")

/-- A typed data whose schema declares `EIP712Domain` with a version field and in
another order. -/
def customDomainTypedData : TypedData :=
  { Types := some [("EIP712Domain",
      [{ Name := "verifyingContract", Type_ := "address" },
       { Name := "name", Type_ := "string" },
       { Name := "version", Type_ := "string" },
       { Name := "chainId", Type_ := "uint256" }]),
      ("Mail", [{ Name := "contents", Type_ := "string" }])],
    PrimaryType := "Mail",
    Domain := { Name := "Ether Mail", Version := "1", ChainId := some 1,
                VerifyingContract := "0xCcCCccccCCCCcCCCCCCcCcCccCcCCCcCcccccccC", Salt := "" },
    Message := [("contents", .string "Hello")] }


/-- A lowercase hex digit, `0`..`9` or `a`..`f`. -/
def isLowerHexDigit (c : Char) : Bool :=
  decide ((48 ≤ c.toNat ∧ c.toNat ≤ 57) ∨ (97 ≤ c.toNat ∧ c.toNat ≤ 102))

/-- The bytes that a string of hex digit pairs denotes; `none` when a character is no
hex digit or the number of digits is odd. -/
def hexPairs : List Char → Option Bytes
  | [] => some []
  | [_] => none
  | a :: b :: rest =>
    match fromHexChar a, fromHexChar b, hexPairs rest with
    | some x, some y, some bs => some ((16 * x + y) :: bs)
    | _, _, _ => none

/-- The Go return pair `(string, error)` of a signing call: every `return` of
`signTypedData` and `signTransaction` with a non-nil error has `""` as its string. -/
def returnPair (r : Except SignError String) : String × Option SignError :=
  match r with
  | .ok s => (s, none)
  | .error e => ("", some e)

/-- The address that `signTypedData` recovers from a public key:
`common.BytesToAddress(crypto.Keccak256(pubKey[1:])[12:])`. -/
def recoveredAddressOf (L : Lib) (pubKey : Bytes) : Address :=
  BytesToAddress ((L.keccak256 (pubKey.drop 1)).drop 12)

/-- Steps 4 to 6 of `signTypedData` on the final digest: sign, keep the raw signature,
adjust the last byte, recover the public key from the raw signature, compare the
addresses, encode the adjusted signature. -/
def signAndPublish (L : Lib) (finalHash : Bytes) (privateKey : PrivateKey) :
    Except SignError String :=
  match L.sign finalHash privateKey.D with
  | .error e => .error (.failedToSignTypedData e)
  | .ok signature0 =>
    if signature0.length ≤ 64 then .error .panic
    else
      match L.ecrecover finalHash signature0 with
      | .error e => .error (.failedToRecoverPublicKey e)
      | .ok pubKey =>
        if pubKey.length < 1 then .error .panic
        else if (L.keccak256 (pubKey.drop 1)).length < 12 then .error .panic
        else if recoveredAddressOf L pubKey ≠ PubkeyToAddress L privateKey then
          .error (.signatureVerificationFailed (recoveredAddressOf L pubKey)
            (PubkeyToAddress L privateKey))
        else .ok ("0x" ++ hexEncodeToString (adjustV signature0))

/-- The parsed typed data passes the validation of `signTypedData`; the `types` test
comes after the insertion of the domain type. -/
def PassesValidation (typedData : TypedData) : Prop :=
  typedData.Domain ≠ TypedDataDomain.zero ∧ typedData.PrimaryType ≠ "" ∧
  typedData.Message.length ≠ 0

/-- The toy primitives with a public-key recovery that always fails. -/
def toyLibNoRecover : Lib :=
  { toyLib with ecrecover := fun _ _ => .error (.other "invalid signature recovery id") }

/-- A key whose stored public point is not the point of its scalar in `toyLib`. -/
def toyKeyMismatch : PrivateKey := { D := 7, X := 9, Y := 0 }

/-- The typed data `customDomainTypedData` without a schema. -/
def noTypesTypedData : TypedData := { customDomainTypedData with Types := none }

/-- The typed data `customDomainTypedData` with an empty message. -/
def emptyMessageTypedData : TypedData := { customDomainTypedData with Message := [] }

/-- The typed data `customDomainTypedData` with an empty primary type. -/
def emptyPrimaryTypedData : TypedData := { customDomainTypedData with PrimaryType := "" }

/-- The typed data `customDomainTypedData` with a zero domain. -/
def zeroDomainTypedData : TypedData :=
  { customDomainTypedData with Domain := TypedDataDomain.zero }

/-! ## Chain-id formatting -/

/-- The digit loop of `fmt` (`fmtInteger`, base 10) on the magnitude `u`: digits are
written from the right while `u >= 10`, then the leading digit.  The first argument
bounds the number of rounds. -/
def fmtDecimalDigits : Nat → Nat → List Char → List Char
  | 0, _, buf => buf
  | fuel + 1, u, buf =>
    if u ≥ 10 then fmtDecimalDigits fuel (u / 10) (Char.ofNat (48 + u % 10) :: buf)
    else Char.ofNat (48 + u) :: buf

/-- Go `fmt.Sprintf("%d", x)` on an integer: a minus sign for a negative number, then
the decimal digits of the magnitude. -/
def fmtDecimal (x : Int) : String :=
  ⟨(if x < 0 then ['-'] else []) ++ fmtDecimalDigits (x.natAbs + 1) x.natAbs []⟩

/-- The function `GetExternalChainIdFromInternalChainId` of `go-app/src/utils.go`:
`""` for 0, otherwise `fmt.Sprintf("eip155-%d", chainId)`. -/
def GetExternalChainIdFromInternalChainId (chainId : Int) : String :=
  if chainId = 0 then ""
  else "eip155-" ++ fmtDecimal chainId

namespace Orby

/-- The function `GetExternalChainIdFromInternalChainId` of `orby/utils.go`. -/
def GetExternalChainIdFromInternalChainId (chainId : Int) : String :=
  if chainId = 0 then ""
  else "eip155-" ++ fmtDecimal chainId

end Orby

/-! ## Hex quantities -/

/-- A hex digit `0`..`9`, `a`..`f`, `A`..`F`. -/
def isHexDigit (c : Char) : Bool := (fromHexChar c).isSome

/-- The digits of a hex quantity: the string without a leading `0x`. -/
def hexDigitsOf (s : String) : List Char :=
  match s.data with
  | '0' :: 'x' :: ds => ds
  | ds => ds

/-- A valid hex string: an optional `0x`, then at least one hex digit and nothing
else. -/
def isValidHex (s : String) : Bool :=
  !(hexDigitsOf s).isEmpty && (hexDigitsOf s).all isHexDigit

/-- The number that hex digits denote, continuing from `n`. -/
def hexValueFrom (n : Nat) (cs : List Char) : Nat :=
  cs.foldl (fun a c => a * 16 + (fromHexChar c).getD 0) n

/-- The number a hex string denotes. -/
def hexValue (s : String) : Nat := hexValueFrom 0 (hexDigitsOf s)

/-- The number that the hex digits before the first other character denote. -/
def leadingHexValue (s : String) : Nat :=
  hexValueFrom 0 ((hexDigitsOf s).takeWhile isHexDigit)

/-- The JSON object of the end-to-end scenario: value 0, gas limit 21000, gas price
1000000000, nonce 5, empty data. -/
def scenarioTx : JSONObject :=
  [("to", .string addrOne), ("value", .string "0x0"), ("gasLimit", .string "0x5208"),
   ("gasPrice", .string "0x3b9aca00"), ("nonce", .string "0x5"), ("data", .string "0x")]

/-! ## The sign-and-send loop and the runners -/

namespace Orby

/-- The struct `SignedOperation` of `orby/types.go` (and of `go-app/src/types.go`). -/
structure SignedOperation where
  /-- The Go field `Type`. -/
  Type_ : String
  Signature : String
  Data : String
  ChainId : String
  From : String
  deriving DecidableEq, Repr

/-- The struct `Intent` of `orby/types.go`: its operations (the fee and token-state
members are left out). -/
structure Intent where
  IntentOperations : List Operation
  deriving DecidableEq, Repr

/-- The struct `OperationSet` of `orby/types.go` (`GetOperationsToSwapResponse` in
`go-app/src/types.go`): status, estimated time and intents (the fee and token-state
members are left out). -/
structure OperationSet where
  AggregateEstimatedTimeInMs : Int
  Intents : List Intent
  Status : String
  deriving DecidableEq, Repr

/-- The struct `ErrorResponse` of `orby/types.go`. -/
structure ErrorResponse where
  Code : Int
  Message : String
  deriving DecidableEq, Repr

end Orby

/-- The outcomes of `json.Unmarshal` on a text, one function per target type. -/
structure JSONLib where
  /-- Into `apitypes.TypedData`; `none` when it fails. -/
  typedData : String → Option TypedData
  /-- Into `map[string]interface{}`; `none` when it fails. -/
  object : String → Option JSONObject
  /-- Into `OperationSet`; `none` when it fails. -/
  operationSet : String → Option Orby.OperationSet
  /-- Into `ErrorResponse`; `none` when it fails. -/
  errorResponse : String → Option Orby.ErrorResponse

/-- The signed operation that the loop appends for `op` and its signature. -/
def signedOperationOf (op : Orby.Operation) (signature : String) : Orby.SignedOperation :=
  { Type_ := op.Type_, Signature := signature, Data := op.Data, ChainId := op.ChainId,
    From := op.From }

/-- The `for` loop over the operations of the first intent, with `signedOperations`
the slice built so far: sign by format, `continue` on a signing error or an unknown
format, otherwise append.  `signTyped` and `signTx` are the two signing calls of the
loop body. -/
def signLoop (signTyped signTx : Orby.Operation → Except SignError String) :
    List Orby.Operation → List Orby.SignedOperation → List Orby.SignedOperation
  | [], signedOperations => signedOperations
  | op :: rest, signedOperations =>
    if op.Format = "TYPED_DATA" then
      match signTyped op with
      | .error _ => signLoop signTyped signTx rest signedOperations
      | .ok signature =>
        signLoop signTyped signTx rest (signedOperations ++ [signedOperationOf op signature])
    else if op.Format = "TRANSACTION" then
      match signTx op with
      | .error _ => signLoop signTyped signTx rest signedOperations
      | .ok signature =>
        signLoop signTyped signTx rest (signedOperations ++ [signedOperationOf op signature])
    else signLoop signTyped signTx rest signedOperations

/-- The block "Sign and send the operations": the arguments of the call of
`SendSignedOperations`, `none` when the call is not made. -/
def signAndSend (signTyped signTx : Orby.Operation → Except SignError String)
    (intents : List Orby.Intent) (accountClusterId : String) :
    Option (List Orby.SignedOperation × String) :=
  match intents with
  | [] => none
  | intent :: _ =>
    let signedOperations := signLoop signTyped signTx intent.IntentOperations []
    if signedOperations.length > 0 then some (signedOperations, accountClusterId) else none

/-- The sign-and-send block of `main` in `go-app/src/main.go`, which signs with
`signTypedData(op.Data, privateKey)` and
`signTransaction(op.Data, op.ChainId, op.To, privateKey)`. -/
def mainSignAndSend (L : Lib) (J : JSONLib) (privateKey : PrivateKey)
    (intents : List Orby.Intent) (accountClusterId : String) :
    Option (List Orby.SignedOperation × String) :=
  signAndSend (fun op => signTypedData L op.Data (J.typedData op.Data) privateKey)
    (fun op => signTransaction L op.Data (J.object op.Data) op.ChainId op.To privateKey)
    intents accountClusterId

namespace Orby

/-- The sign-and-send block of the runners in `orby/examples` and
`orby/orby_functions`, which signs with `orby.SignTypedData(op)` and
`orby.SignTransaction(op)`. -/
def runSignAndSend (L : Lib) (J : JSONLib) (privateKey : PrivateKey)
    (intents : List Intent) (accountClusterId : String) :
    Option (List SignedOperation × String) :=
  signAndSend (fun op => SignTypedData L op (J.typedData op.Data) privateKey)
    (fun op => SignTransaction L op (J.object op.Data) privateKey)
    intents accountClusterId

/-- What happens inside `OrbyClient.SendJSONRPCRequest`, step by step. -/
inductive RPCExchange where
  /-- The call `json.Marshal` of the request fails. -/
  | marshalFailed (e : String)
  /-- The call `HTTPClient.Post` fails. -/
  | postFailed (e : String)
  /-- The call `io.ReadAll` of the body fails. -/
  | readFailed (e : String)
  /-- The call `json.Unmarshal` of the body fails. -/
  | bodyFailed (e : String)
  /-- The body has an `error` member. -/
  | rpcError (message : String) (code : Int)
  /-- The body has no `error` member; `raw` is `result.Result`, nil when the body
  has no `result` member either. -/
  | result (raw : Option String)
  deriving DecidableEq, Repr

/-- A Go `error` of a runner. -/
inductive RunError where
  /-- An error of a step of `SendJSONRPCRequest`. -/
  | request (e : String)
  /-- The error "RPC error: %s (code: %d)". -/
  | rpc (message : String) (code : Int)
  /-- An error of `json.Unmarshal`. -/
  | unmarshal
  deriving DecidableEq, Repr

/-- The method `OrbyClient.SendJSONRPCRequest`: the pair `(json.RawMessage, error)`
it returns. -/
def SendJSONRPCRequest (x : RPCExchange) : Option String × Option RunError :=
  match x with
  | .marshalFailed e => (none, some (.request e))
  | .postFailed e => (none, some (.request e))
  | .readFailed e => (none, some (.request e))
  | .bodyFailed e => (none, some (.request e))
  | .rpcError message code => (none, some (.rpc message code))
  | .result raw => (raw, none)

/-- The call `json.Unmarshal(raw, &v)` on a `json.RawMessage`: a nil message is an
"unexpected end of JSON input". -/
def unmarshalRaw {α : Type} (parse : String → Option α) (raw : Option String) : Option α :=
  match raw with
  | none => none
  | some text => parse text

/-- What a run of a runner did: the error it returned, the operations it handed to a
signing call, and the arguments of its call of `SendSignedOperations`, if any. -/
structure RunResult where
  err : Option RunError
  signed : List Operation
  sent : Option (List SignedOperation × String)
  deriving DecidableEq, Repr

/-- The method `Run` of `GetOperationsToSwap`, `GetOperationsToExecuteTransaction`
and `GetOperationsToSignTypedData`, from "2. Call operation" on (the three texts
differ in the RPC method and the log messages only).  `x` is what happens inside
`SendJSONRPCRequest`, to which the client method forwards. -/
def Run (L : Lib) (J : JSONLib) (privateKey : PrivateKey) (accountClusterId : String)
    (x : RPCExchange) : RunResult :=
  let (swapResult, err) := SendJSONRPCRequest x
  match unmarshalRaw J.operationSet swapResult with
  | none => { err := some .unmarshal, signed := [], sent := none }
  | some swapResponse =>
    if swapResponse.Status = "" then
      match unmarshalRaw J.errorResponse swapResult with
      | some _ => { err := none, signed := [], sent := none }
      | none => { err := err, signed := [], sent := none }
    else
      { err := none,
        signed := (swapResponse.Intents.head?.map (fun i => i.IntentOperations)).getD []
          |>.filter (fun op => op.Format = "TYPED_DATA" ∨ op.Format = "TRANSACTION"),
        sent := runSignAndSend L J privateKey swapResponse.Intents accountClusterId }

end Orby

/-! ## What go-ethereum `EncodeData` reports -/

/-- The fields that `typedData.Types[primaryType]` declares; none for a type that is
not in the schema. -/
def declaredFields (typedData : TypedData) (primaryType : String) : List TypeField :=
  ((typedData.Types.getD []).get primaryType).getD []

/-- Go `len(m)` of a map: the number of its keys. -/
def JSONObject.len (m : JSONObject) : Nat := (m.map Prod.fst).eraseDups.length

/-- Two errors of `EncodeData`, through which `HashStruct` goes: "there is extra data
provided in the message" when the data has more keys than the type declares fields,
and the encoding error of a declared field whose value is missing from the data (a
nil value is no string, number, address, struct or slice). -/
structure Lib.HashStructLaws (L : Lib) : Prop where
  extra_data : ∀ typedData primaryType (data : JSONObject),
    (declaredFields typedData primaryType).length < data.len →
    ∃ e, L.hashStruct typedData primaryType data = .error e
  missing_value : ∀ typedData primaryType (data : JSONObject) field,
    field ∈ declaredFields typedData primaryType → data.lookup field.Name = none →
    ∃ e, L.hashStruct typedData primaryType data = .error e

/-- The toy primitives with a struct hash that reports the two errors of
`Lib.HashStructLaws`. -/
def toyLib712 : Lib :=
  { toyLib with
    hashStruct := fun typedData primaryType data =>
      if (declaredFields typedData primaryType).length < data.len then
        .error (.other "there is extra data provided in the message")
      else if (declaredFields typedData primaryType).any
          (fun field => (data.lookup field.Name).isNone) then
        .error (.other "provided data is missing")
      else .ok (List.replicate 32 (primaryType.length % 256)) }

/-- The typed data `customDomainTypedData` with a domain of exactly name, chainId and
verifyingContract. -/
def plainDomainTypedData : TypedData :=
  { customDomainTypedData with
    Domain := { customDomainTypedData.Domain with Version := "" } }

/-- The entry of the list of signed operations that an operation accounts for: for an
operation of format TYPED_DATA or TRANSACTION whose signing returned no error, the
operation's Type, Data, ChainId and From with the returned signature; none for any
other operation. -/
def sentEntry (signTyped signTx : Orby.Operation → Except SignError String)
    (op : Orby.Operation) : Option Orby.SignedOperation :=
  if op.Format = "TYPED_DATA" ∨ op.Format = "TRANSACTION" then
    match (if op.Format = "TYPED_DATA" then signTyped op else signTx op) with
    | .ok signature =>
      some { Type_ := op.Type_, Signature := signature, Data := op.Data,
             ChainId := op.ChainId, From := op.From }
    | .error _ => none
  else none

/-- The list that the claim hands to `SendSignedOperations` for the given intents,
none when nothing is sent. -/
def sentList (signTyped signTx : Orby.Operation → Except SignError String)
    (intents : List Orby.Intent) (accountClusterId : String) :
    Option (List Orby.SignedOperation × String) :=
  match intents with
  | [] => none
  | intent :: _ =>
    if intent.IntentOperations.filterMap (sentEntry signTyped signTx) = [] then none
    else some (intent.IntentOperations.filterMap (sentEntry signTyped signTx),
      accountClusterId)

/-- An RPC result with a `code` member that is no number. -/
def badCodeText : String := "\x7b\"code\": \"abc\"\x7d"

/-- A JSON decoder on the text `badCodeText` only: it decodes into an `OperationSet`
with no member set, and into nothing else. -/
def toyJSON : JSONLib :=
  { typedData := fun _ => none
    object := fun _ => none
    operationSet := fun text =>
      if text = badCodeText then
        some { AggregateEstimatedTimeInMs := 0, Intents := [], Status := "" }
      else none
    errorResponse := fun _ => none }

/-! ## Chain-id parsing -/

theorem bigDigit_of_decimal (c : Char) (h : isDecimalDigit c = true) :
    bigDigit c = c.toNat - 48 ∧ bigDigit c < 10 := by
  simp only [isDecimalDigit, decide_eq_true_eq] at h
  unfold bigDigit
  rw [if_pos h]
  omega

theorem bigDigit_lt_ten (c : Char) (h : bigDigit c < 10) : isDecimalDigit c = true := by
  simp only [isDecimalDigit, decide_eq_true_eq]
  unfold bigDigit at h
  split at h
  · assumption
  · split at h
    · omega
    · split at h <;> omega

theorem bigScanDigits_decimal (cs : List Char) (acc : Nat)
    (h : cs.all isDecimalDigit = true) :
    bigScanDigits 10 acc cs = some (cs.foldl (fun a c => a * 10 + (c.toNat - 48)) acc) := by
  induction cs generalizing acc with
  | nil => rfl
  | cons c cs ih =>
    simp only [List.all_cons, Bool.and_eq_true] at h
    obtain ⟨hv, hlt⟩ := bigDigit_of_decimal c h.1
    rw [bigScanDigits, if_pos hlt, List.foldl_cons, hv]
    exact ih _ h.2

theorem bigScanDigits_none (cs : List Char) (acc : Nat)
    (h : cs.all isDecimalDigit = false) : bigScanDigits 10 acc cs = none := by
  induction cs generalizing acc with
  | nil => simp at h
  | cons c cs ih =>
    unfold bigScanDigits
    by_cases hc : bigDigit c < 10
    · rw [if_pos hc]
      have hd := bigDigit_lt_ten c hc
      simp only [List.all_cons, hd, Bool.true_and] at h
      exact ih _ h
    · rw [if_neg hc]

theorem bigScanDigits_isSome (cs : List Char) (acc : Nat)
    (h : cs.all isDecimalDigit = true) : (bigScanDigits 10 acc cs).isSome = true := by
  rw [bigScanDigits_decimal cs acc h]; rfl

/-- `SetString(s, 10)` succeeds exactly on optionally signed decimal strings. -/
theorem bigSetString_isSome_iff (s : String) :
    (bigSetString s 10).isSome = isSignedDecimal s := by
  have key : ∀ ds : List Char, (bigScanMantissa 10 ds).isSome
      = (!ds.isEmpty && ds.all isDecimalDigit) := by
    intro ds
    unfold bigScanMantissa
    cases ds with
    | nil => rfl
    | cons d ds =>
      simp only [List.isEmpty_cons, Bool.not_false, Bool.true_and, Bool.false_eq_true, if_false]
      cases hall : (d :: ds).all isDecimalDigit
      · rw [bigScanDigits_none _ _ hall]; rfl
      · exact bigScanDigits_isSome _ _ hall
  unfold bigSetString isSignedDecimal
  cases hs : s.data with
  | nil => rfl
  | cons c cs =>
    simp only
    by_cases h1 : c = '-'
    · simp only [h1, if_true, true_or, Option.isSome_map', key]
    · by_cases h2 : c = '+'
      · simp only [h2, if_true, or_true, Option.isSome_map', key]
        first | exact key _ | simp [key]
      · simp only [h1, h2, if_false, or_self, Option.isSome_map', key]
        simp

theorem bigSetString_decimal (d : String) (h : isDecimal d = true) :
    bigSetString d 10 = some (decimalValue d : Int) := by
  unfold isDecimal at h
  unfold bigSetString decimalValue
  cases hs : d.data with
  | nil => simp [hs] at h
  | cons c cs =>
    simp only [hs, List.isEmpty_cons, Bool.not_false, Bool.true_and] at h
    have hc : isDecimalDigit c = true := by
      simp only [List.all_cons, Bool.and_eq_true] at h; exact h.1
    have h1 : ¬ (c = '-') := by
      rintro rfl; simp [isDecimalDigit] at hc
    have h2 : ¬ (c = '+') := by
      rintro rfl; simp [isDecimalDigit] at hc
    simp only [h1, h2, if_false, bigScanMantissa, List.isEmpty_cons, Bool.false_eq_true]
    rw [bigScanDigits_decimal _ _ h]
    rfl

theorem trimPrefix_tagged (d : String) :
    stringsTrimPrefix ("eip155-" ++ d) "eip155-" = d := by
  unfold stringsTrimPrefix
  have h1 : ("eip155-" ++ d).data = 'e' :: 'i' :: 'p' :: '1' :: '5' :: '5' :: '-' :: d.data := by
    rw [String.data_append]; rfl
  have h2 : ("eip155-" : String).data = ['e', 'i', 'p', '1', '5', '5', '-'] := rfl
  rw [h1, h2]
  simp [List.isPrefixOf]

theorem trimPrefix_decimal (d : String) (h : isDecimal d = true) :
    stringsTrimPrefix d "eip155-" = d := by
  unfold stringsTrimPrefix
  unfold isDecimal at h
  have h2 : ("eip155-" : String).data = ['e', 'i', 'p', '1', '5', '5', '-'] := rfl
  rw [h2]
  cases hs : d.data with
  | nil => simp [hs] at h
  | cons c cs =>
    simp only [hs, List.isEmpty_cons, Bool.not_false, Bool.true_and, List.all_cons,
      Bool.and_eq_true] at h
    have hne : ¬ ('e' = c) := by
      rintro rfl; simp [isDecimalDigit] at h
    simp [List.isPrefixOf, hne]

/-- C4: in the top-level `signTransaction` the chain id parsed from `"eip155-" + d` and
the one parsed from `d` are the same integer, the decimal value of `d`, for every
non-empty string `d` of decimal digits; so the two calls have the same outcome. -/
theorem parseChainID_tag_stripped (d : String) (hd : isDecimal d = true) :
    parseChainID ("eip155-" ++ d) = .ok (decimalValue d : Int) ∧
    parseChainID d = .ok (decimalValue d : Int) ∧
    ∀ (L : Lib) (txData : String) (txMap : Option JSONObject) (to_ : String)
      (key : PrivateKey),
      signTransaction L txData txMap ("eip155-" ++ d) to_ key
        = signTransaction L txData txMap d to_ key := by
  have h1 : parseChainID ("eip155-" ++ d) = .ok (decimalValue d : Int) := by
    unfold parseChainID
    simp only [trimPrefix_tagged, bigSetString_decimal d hd]
  have h2 : parseChainID d = .ok (decimalValue d : Int) := by
    unfold parseChainID
    simp only [trimPrefix_decimal d hd, bigSetString_decimal d hd]
  refine ⟨h1, h2, fun L txData txMap to_ key => ?_⟩
  unfold signTransaction
  rw [h1, h2]

/-- C4 at `d = "137"`: `"eip155-137"` and `"137"` both parse to 137. -/
theorem parseChainID_tag_stripped_witness :
    parseChainID "eip155-137" = .ok 137 ∧ parseChainID "137" = .ok 137 ∧
    ∀ (L : Lib) (txData : String) (txMap : Option JSONObject) (to_ : String)
      (key : PrivateKey),
      signTransaction L txData txMap "eip155-137" to_ key
        = signTransaction L txData txMap "137" to_ key :=
  parseChainID_tag_stripped "137" (by decide)

/-- C5: the nested `SignTransaction` hands the unstripped `operation.ChainId` to
`SetString`, so an operation on chain `"eip155-137"` is rejected with the invalid
chain ID error for every input and key, while `"137"` parses to 137. -/
theorem nested_parseChainID_keeps_tag (L : Lib) (data toAddr : String)
    (txMap : Option JSONObject) (key : PrivateKey) :
    Orby.SignTransaction L (opOnChain "eip155-137" data toAddr) txMap key
      = .error (.invalidChainID "137") ∧
    Orby.parseChainID (opOnChain "137" data toAddr) = .ok 137 ∧
    parseChainID "eip155-137" = .ok 137 := by
  refine ⟨?_, ?_, by decide⟩
  · unfold Orby.SignTransaction
    have h : Orby.parseChainID (opOnChain "eip155-137" data toAddr)
        = .error (.invalidChainID "137") := by
      unfold Orby.parseChainID
      dsimp only [opOnChain]
      decide
    rw [h]
  · unfold Orby.parseChainID
    dsimp only [opOnChain]
    decide

theorem signAndVerify_ne_invalidChainID (L : Lib) (tx : Transaction) (c : Int)
    (key : PrivateKey) (s : String) :
    signAndVerify L tx c key ≠ .error (.invalidChainID s) := by
  intro h
  unfold signAndVerify at h
  dsimp only at h
  split at h
  · cases h
  · cases h
  · split at h
    · cases h
    · cases h
    · split at h
      · cases h
      · split at h <;> cases h

theorem parseChainID_error_iff (chainIDStr s : String) :
    parseChainID chainIDStr = .error (.invalidChainID s) ↔
      (isSignedDecimal (stringsTrimPrefix chainIDStr "eip155-") = false ∧
        s = stringsTrimPrefix chainIDStr "eip155-") := by
  unfold parseChainID
  dsimp only
  have h := bigSetString_isSome_iff (stringsTrimPrefix chainIDStr "eip155-")
  cases hp : bigSetString (stringsTrimPrefix chainIDStr "eip155-") 10 with
  | none =>
    rw [hp] at h
    simp only [Option.isSome_none] at h
    simp only [Except.error.injEq, SignError.invalidChainID.injEq, ← h, true_and]
    exact eq_comm
  | some c =>
    rw [hp] at h
    simp only [Option.isSome_some] at h
    simp [← h]

/-- C6 (amended): `signTransaction` returns the invalid chain ID error exactly when
the chain-id string, after stripping an `eip155-` prefix, is not an optionally signed
non-empty string of decimal digits; the error carries the stripped string and is
returned before any transaction is built. -/
theorem signTransaction_invalidChainID_iff (L : Lib) (txData : String)
    (txMap : Option JSONObject) (chainIDStr to_ : String) (key : PrivateKey) (s : String) :
    signTransaction L txData txMap chainIDStr to_ key = .error (.invalidChainID s) ↔
      (isSignedDecimal (stringsTrimPrefix chainIDStr "eip155-") = false ∧
        s = stringsTrimPrefix chainIDStr "eip155-") := by
  rw [← parseChainID_error_iff]
  unfold signTransaction
  cases hp : parseChainID chainIDStr with
  | error e => simp
  | ok c =>
    simp only
    constructor
    · intro h
      split at h
      · rename_i e he
        cases h
        exact absurd he (signAndVerify_ne_invalidChainID L _ c key s)
      · cases h
    · intro h; cases h

/-- C6 as stated fails at `"-1"`: it parses to the chain id -1, and the call does not
end in the invalid chain ID error. -/
theorem signTransaction_minus_one_parses :
    parseChainID "-1" = .ok (-1) ∧
    signTransaction toyLib "0x" none "-1" addrOne toyKey ≠ .error (.invalidChainID "-1") := by
  decide

/-! ## The transaction that is built -/

theorem index_of_lookup_none (m : JSONObject) (key : String) (h : m.lookup key = none) :
    m.index key = .null := by
  unfold JSONObject.index; rw [h]; rfl

/-- C7: a field that is absent from the transaction input (raw hex data, or a JSON
object without the key) takes its default in the transaction that is built: gas limit
300000, value 0, nonce 0 and, for a legacy transaction, gas price 1000000000. -/
theorem buildTransaction_defaults (txData : String) (txMap : Option JSONObject)
    (chainID : Int) (to_ : String) :
    (FieldAbsent txMap "gasLimit" → (buildTransaction txData txMap chainID to_).Gas = 300000) ∧
    (FieldAbsent txMap "value" → (buildTransaction txData txMap chainID to_).Value = 0) ∧
    (FieldAbsent txMap "nonce" → (buildTransaction txData txMap chainID to_).Nonce = 0) ∧
    (FieldAbsent txMap "gasPrice" →
      (buildTransaction txData txMap chainID to_).isLegacy = true →
      (buildTransaction txData txMap chainID to_).GasPrice = 1000000000) := by
  have hg : FieldAbsent txMap "gasLimit" → txGasLimit txMap = 300000 := by
    intro h
    cases txMap with
    | none => rfl
    | some m => simp [txGasLimit, index_of_lookup_none m _ (h m rfl), JSONValue.asString]
  have hv : FieldAbsent txMap "value" → txValue txMap = 0 := by
    intro h
    cases txMap with
    | none => rfl
    | some m => simp [txValue, index_of_lookup_none m _ (h m rfl), JSONValue.asString]
  have hn : FieldAbsent txMap "nonce" → txNonce txMap = 0 := by
    intro h
    cases txMap with
    | none => rfl
    | some m => simp [txNonce, index_of_lookup_none m _ (h m rfl), JSONValue.asString]
  have hp : FieldAbsent txMap "gasPrice" → txGasPrice txMap = some 1000000000 := by
    intro h
    cases txMap with
    | none => rfl
    | some m => simp [txGasPrice, index_of_lookup_none m _ (h m rfl), JSONValue.nonNil]
  unfold buildTransaction
  refine ⟨fun h => ?_, fun h => ?_, fun h => ?_, fun h hl => ?_⟩
  · split <;> simp [NewDynamicFeeTx, NewTransaction, Transaction.Gas, hg h]
  · split <;> simp [NewDynamicFeeTx, NewTransaction, Transaction.Value, hv h]
  · split <;> simp [NewDynamicFeeTx, NewTransaction, Transaction.Nonce, hn h]
  · split at hl
    · simp [NewDynamicFeeTx, Transaction.isLegacy] at hl
    · rename_i hf
      simp [hf, NewTransaction, Transaction.GasPrice, hp h]

/-- C7 on the empty JSON object `{}`: every default applies. -/
theorem buildTransaction_defaults_witness :
    (buildTransaction "\x7b\x7d" (some []) 1 addrOne).Gas = 300000 ∧
    (buildTransaction "\x7b\x7d" (some []) 1 addrOne).Value = 0 ∧
    (buildTransaction "\x7b\x7d" (some []) 1 addrOne).Nonce = 0 ∧
    (buildTransaction "\x7b\x7d" (some []) 1 addrOne).GasPrice = 1000000000 :=
  have h := buildTransaction_defaults "\x7b\x7d" (some []) 1 addrOne
  have ha : ∀ k, FieldAbsent (some []) k := fun _ m hm => by cases hm; rfl
  ⟨h.1 (ha _), h.2.1 (ha _), h.2.2.1 (ha _), h.2.2.2 (ha _) (by decide)⟩

/-- C8: `signTransaction` builds a fee-market (`DynamicFeeTx`) transaction if and only
if the data parsed as JSON and the key `maxFeePerGas` maps to a non-null value; in every
other case it builds a legacy transaction.  The nested `SignTransaction` builds its
transaction by the same text. -/
theorem buildTransaction_feeMarket_iff (txData : String) (txMap : Option JSONObject)
    (chainID : Int) (to_ : String) :
    ((buildTransaction txData txMap chainID to_).isLegacy = false ↔
      ∃ m v, txMap = some m ∧ m.lookup "maxFeePerGas" = some v ∧ v ≠ JSONValue.null) ∧
    ((buildTransaction txData txMap chainID to_).isLegacy = true ↔
      ¬ ∃ m v, txMap = some m ∧ m.lookup "maxFeePerGas" = some v ∧ v ≠ JSONValue.null) := by
  have hfee : hasFeeMarketField txMap = true ↔
      ∃ m v, txMap = some m ∧ m.lookup "maxFeePerGas" = some v ∧ v ≠ JSONValue.null := by
    cases txMap with
    | none => simp [hasFeeMarketField]
    | some m =>
      simp only [hasFeeMarketField, JSONObject.index, Option.some.injEq, exists_and_left,
        exists_eq_left']
      cases hl : m.lookup "maxFeePerGas" with
      | none => simp [JSONValue.nonNil]
      | some v => cases v <;> simp [JSONValue.nonNil]
  have hleg : (buildTransaction txData txMap chainID to_).isLegacy
      = !hasFeeMarketField txMap := by
    unfold buildTransaction
    cases hasFeeMarketField txMap <;> simp [NewDynamicFeeTx, NewTransaction, Transaction.isLegacy]
  rw [hleg, ← hfee]
  cases hasFeeMarketField txMap <;> simp

/-! ## The `EIP712Domain` schema entry -/

theorem get_set_self (m : Types) (key : String) (v : List TypeField) :
    (m.set key v).get key = some v := by
  simp [Types.get, Types.set, List.lookup]

theorem domainEntry_after_add (typedData : TypedData) :
    domainEntry (addEIP712DomainTypeToTypedData typedData) = some eip712Domain ∧
    domainEntry (Orby.AddEIP712DomainTypeToTypedData typedData) = some eip712Domain := by
  constructor
  · simp only [domainEntry, addEIP712DomainTypeToTypedData, Option.some_bind, get_set_self]
  · simp only [domainEntry, Orby.AddEIP712DomainTypeToTypedData, Option.some_bind, get_set_self]
    rfl

/-- C9: after `AddEIP712DomainTypeToTypedData` (either copy), for every input typed
data, also one with a nil schema, the `EIP712Domain` entry of the schema is exactly
`name: string`, `chainId: uint256`, `verifyingContract: address`, in that order. -/
theorem addEIP712Domain_entry (typedData : TypedData) :
    domainEntry (addEIP712DomainTypeToTypedData typedData)
      = some [{ Name := "name", Type_ := "string" }, { Name := "chainId", Type_ := "uint256" },
              { Name := "verifyingContract", Type_ := "address" }] ∧
    domainEntry (Orby.AddEIP712DomainTypeToTypedData typedData)
      = some [{ Name := "name", Type_ := "string" }, { Name := "chainId", Type_ := "uint256" },
              { Name := "verifyingContract", Type_ := "address" }] := by
  have h := domainEntry_after_add typedData
  exact ⟨h.1, h.2⟩

/-- C10 as stated fails: a schema that already declares `EIP712Domain` (with a version
field, in another order) does not keep its entry, in either copy. -/
theorem addEIP712Domain_overwrites_custom :
    domainEntry customDomainTypedData ≠ none ∧
    domainEntry (Orby.AddEIP712DomainTypeToTypedData customDomainTypedData)
      ≠ domainEntry customDomainTypedData ∧
    domainEntry (addEIP712DomainTypeToTypedData customDomainTypedData)
      ≠ domainEntry customDomainTypedData := by
  decide

/-- C10 (amended): for every typed data whose schema already has an `EIP712Domain`
entry, the entry after `AddEIP712DomainTypeToTypedData` (either copy) is the fixed
three-field list, so it is the old entry only if the old entry was that list. -/
theorem addEIP712Domain_replaces_entry (typedData : TypedData) (e : List TypeField)
    (he : domainEntry typedData = some e) :
    domainEntry (Orby.AddEIP712DomainTypeToTypedData typedData) = some eip712Domain ∧
    domainEntry (addEIP712DomainTypeToTypedData typedData) = some eip712Domain ∧
    (domainEntry (Orby.AddEIP712DomainTypeToTypedData typedData) = domainEntry typedData ↔
      e = eip712Domain) := by
  have h1 : domainEntry (Orby.AddEIP712DomainTypeToTypedData typedData) = some eip712Domain :=
    (domainEntry_after_add typedData).2
  have h2 : domainEntry (addEIP712DomainTypeToTypedData typedData) = some eip712Domain :=
    (domainEntry_after_add typedData).1
  refine ⟨h1, h2, ?_⟩
  rw [h1, he]
  constructor
  · intro h; injection h with h; exact h.symm
  · intro h; rw [h]

/-- C10 (amended) on the schema with a custom `EIP712Domain` entry. -/
theorem addEIP712Domain_replaces_entry_witness :
    domainEntry (Orby.AddEIP712DomainTypeToTypedData customDomainTypedData)
      = some eip712Domain ∧
    domainEntry (addEIP712DomainTypeToTypedData customDomainTypedData) = some eip712Domain ∧
    (domainEntry (Orby.AddEIP712DomainTypeToTypedData customDomainTypedData)
        = domainEntry customDomainTypedData ↔
      [{ Name := "verifyingContract", Type_ := "address" }, { Name := "name", Type_ := "string" },
       { Name := "version", Type_ := "string" }, { Name := "chainId", Type_ := "uint256" }]
        = eip712Domain) :=
  addEIP712Domain_replaces_entry customDomainTypedData _ (by decide)


/-! ## Big-endian bytes -/

theorem bigEndianFuel_eq (f g n : Nat) (hf : n ≤ f) (hg : n ≤ g) :
    bigEndianFuel f n = bigEndianFuel g n := by
  induction f generalizing g n with
  | zero =>
    have h0 : n = 0 := by omega
    subst h0
    cases g <;> simp [bigEndianFuel]
  | succ f ih =>
    cases g with
    | zero =>
      have h0 : n = 0 := by omega
      subst h0
      simp [bigEndianFuel]
    | succ g =>
      simp only [bigEndianFuel]
      split
      · rfl
      · rw [ih g (n / 256) (by omega) (by omega)]

theorem bigEndian_zero : bigEndian 0 = [] := rfl

theorem bigEndian_pos (n : Nat) (h : n ≠ 0) :
    bigEndian n = bigEndian (n / 256) ++ [n % 256] := by
  unfold bigEndian
  cases n with
  | zero => contradiction
  | succ m =>
    simp only [bigEndianFuel]
    rw [if_neg (by omega), bigEndianFuel_eq m ((m + 1) / 256) ((m + 1) / 256) (by omega) le_rfl]

theorem bigEndian_snoc (n x : Nat) (hx : x < 256) (h : n ≠ 0 ∨ x ≠ 0) :
    bigEndian (n * 256 + x) = bigEndian n ++ [x] := by
  rw [bigEndian_pos _ (by omega)]
  have h1 : (n * 256 + x) / 256 = n := by omega
  have h2 : (n * 256 + x) % 256 = x := by omega
  rw [h1, h2]

theorem fromBigEndian_snoc (b : Bytes) (x : Nat) :
    fromBigEndian (b ++ [x]) = fromBigEndian b * 256 + x := by
  simp [fromBigEndian, List.foldl_append]

/-- Reading a byte slice as a big-endian number and writing the number back, padded
to the length of the slice, gives the slice. -/
theorem paddedBigBytes_fromBigEndian (b : Bytes) (hb : ∀ x ∈ b, x < 256) :
    (bigEndian (fromBigEndian b)).length ≤ b.length ∧
    paddedBigBytes (fromBigEndian b) b.length = b := by
  induction b using List.reverseRecOn with
  | nil => exact ⟨by simp [fromBigEndian, bigEndian_zero], rfl⟩
  | append_singleton b x ih =>
    have hx : x < 256 := hb x (by simp)
    obtain ⟨ih1, ih2⟩ := ih (fun y hy => hb y (by simp [hy]))
    rw [fromBigEndian_snoc]
    by_cases h0 : fromBigEndian b = 0 ∧ x = 0
    · obtain ⟨hn, hx0⟩ := h0
      rw [hn] at ih2
      simp only [paddedBigBytes, bigEndian_zero, List.length_nil, Nat.sub_zero,
        List.append_nil] at ih2
      subst hx0
      simp only [hn, Nat.zero_mul, Nat.add_zero, paddedBigBytes, bigEndian_zero,
        List.length_nil, Nat.sub_zero, List.append_nil, List.length_append,
        List.length_singleton, Nat.zero_le, true_and]
      rw [List.replicate_succ', ih2]
    · have hne : fromBigEndian b ≠ 0 ∨ x ≠ 0 := by
        by_contra hc
        push_neg at hc
        exact h0 hc
      rw [bigEndian_snoc _ _ hx hne]
      refine ⟨by simp only [List.length_append, List.length_singleton]; omega, ?_⟩
      simp only [paddedBigBytes, List.length_append, List.length_singleton] at ih2 ⊢
      rw [bigEndian_snoc _ _ hx hne, List.length_append, List.length_singleton,
        Nat.add_sub_add_right, ← List.append_assoc, ih2]

theorem sig_split (sig : Bytes) (h : sig.length = 65) :
    sig = sig.take 32 ++ (sig.drop 32).take 32 ++ [sig.getD 64 0] := by
  have h1 : sig = sig.take 64 ++ sig.drop 64 := (List.take_append_drop 64 sig).symm
  have h2 : sig.take 64 = sig.take 32 ++ (sig.drop 32).take 32 := List.take_add sig 32 32
  have h3 : (sig.drop 64).length = 1 := by simp [h]
  obtain ⟨a, ha⟩ := List.length_eq_one.mp h3
  have h4 : sig.getD 64 0 = a := by
    rw [List.getD_eq_getElem?_getD, ← List.head?_drop, ha]
    rfl
  rw [h4, ← h2, ← ha]
  exact h1


/-! ## Signing and sender recovery of a legacy transaction -/

theorem rlpHash_length (L : Lib) (hL : L.Laws) (items : List RLPItem) :
    (rlpHash L items).length = 32 := by
  unfold rlpHash
  split <;> exact hL.keccak_length _

/-- The legacy transaction `t` with the signature values the EIP-155 signer of chain
`c` derives from `sig`. -/
theorem SignTx_legacy (L : Lib) (t : LegacyTx) (c : Int) (hc : c ≠ 0) (key : PrivateKey)
    (sig : Bytes)
    (hs : L.sign ((NewEIP155Signer (some c)).Hash L (.legacyTx t)) key.D = .ok sig)
    (hlen : sig.length = 65) :
    SignTx L (.legacyTx t) (NewEIP155Signer (some c)) key =
      .ok (.legacyTx { t with
        V := (((sig.getD 64 0 + 35) % 256 : Nat) : Int) + c * 2,
        R := (fromBigEndian (sig.take 32) : Int),
        S := (fromBigEndian ((sig.drop 32).take 32) : Int) }) := by
  unfold SignTx
  rw [hs]
  simp [Transaction.WithSignature, EIP155Signer.SignatureValues, Transaction.isLegacy,
    decodeSignature, hlen, NewEIP155Signer, hc]

theorem isProtectedV_of_ge (V : Int) (h : 37 ≤ V) : isProtectedV V = true := by
  obtain ⟨n, rfl⟩ := Int.eq_ofNat_of_zero_le (by omega : 0 ≤ V)
  have hn : 37 ≤ n := by omega
  unfold isProtectedV bitLenLE bigUint64
  simp only [Int.natAbs_ofNat]
  split
  · rename_i h8
    simp only [decide_eq_true_eq] at h8
    have h8' : n < 256 := by norm_num at h8; exact h8
    have hmod : n % 2 ^ 64 = n := Nat.mod_eq_of_lt (by norm_num; omega)
    simp only [hmod]
    simp only [bne_iff_ne, ne_eq, Bool.and_eq_true, decide_eq_true_eq]
    omega
  · rfl

theorem deriveChainId_eip155 (v : Nat) (hv : v ≤ 1) (c : Int) (hc : 1 ≤ c) :
    deriveChainId (((v + 35 : Nat) : Int) + c * 2) = c := by
  obtain ⟨m, rfl⟩ := Int.eq_ofNat_of_zero_le (by omega : 0 ≤ c)
  have hm : 1 ≤ m := by omega
  have hV : (((v + 35 : Nat) : Int) + (m : Int) * 2) = ((v + 35 + m * 2 : Nat) : Int) := by
    push_cast; ring
  rw [hV]
  unfold deriveChainId bitLenLE bigUint64
  simp only [Int.natAbs_ofNat]
  split
  · rename_i h64
    simp only [decide_eq_true_eq] at h64
    have h64' : v + 35 + m * 2 < 18446744073709551616 := by norm_num at h64; exact h64
    have hmod : (v + 35 + m * 2) % 2 ^ 64 = v + 35 + m * 2 := Nat.mod_eq_of_lt (by norm_num; omega)
    simp only [hmod]
    rw [if_neg (by omega)]
    norm_num
    omega
  · push_cast
    omega


theorem FromECDSAPub_head (X Y : Nat) :
    (FromECDSAPub X Y).length ≠ 0 ∧ (FromECDSAPub X Y).head? = some 4 := by
  simp [FromECDSAPub]

theorem recovery_byte (v : Nat) (hv : v ≤ 1) :
    bitLenLE ((v : Int) + 27) 8 = true ∧
    recoveryByte ((v : Int) + 27) = v := by
  have hVb : (v : Int) + 27 = ((v + 27 : Nat) : Int) := by push_cast; rfl
  rw [hVb]
  simp only [recoveryByte, bitLenLE, bigUint64, Int.natAbs_ofNat, decide_eq_true_eq]
  constructor
  · norm_num; omega
  · norm_num; omega

/-- Recovery from the signature values of a well-formed signature: `recoverPlain`
rebuilds the signature bytes and gets the signer's address. -/
theorem recoverPlain_signed (L : Lib) (hL : L.Laws) (key : PrivateKey) (hk : ValidKey L key)
    (h : Bytes) (hh : h.length = 32) (sig : Bytes) (hs : L.sign h key.D = .ok sig)
    (hwf : WellFormedSig sig) :
    recoverPlain L h (fromBigEndian (sig.take 32) : Int)
      (fromBigEndian ((sig.drop 32).take 32) : Int) ((sig.getD 64 0 : Nat) + 27) true
      = .ok (PubkeyToAddress L key) := by
  obtain ⟨hlen, hbytes, hv, hr0, hrN, hs0, hsN⟩ := hwf
  have hrec := hL.recover_sign h key sig hh hk hs
  have hR := paddedBigBytes_fromBigEndian (sig.take 32)
    (fun x hx => hbytes x (List.mem_of_mem_take hx))
  have hS := paddedBigBytes_fromBigEndian ((sig.drop 32).take 32)
    (fun x hx => hbytes x (List.mem_of_mem_drop (List.mem_of_mem_take hx)))
  have hl1 : (sig.take 32).length = 32 := by simp [hlen]
  have hl2 : ((sig.drop 32).take 32).length = 32 := by simp [hlen]
  rw [hl1] at hR
  rw [hl2] at hS
  have hbit : bitLenLE (((sig.getD 64 0 : Nat) : Int) + 27) 8 = true :=
    (recovery_byte _ hv).1
  have hV : recoveryByte (((sig.getD 64 0 : Nat) : Int) + 27) = sig.getD 64 0 :=
    (recovery_byte _ hv).2
  have hval : ValidateSignatureValues (sig.getD 64 0) (fromBigEndian (sig.take 32) : Int)
      (fromBigEndian ((sig.drop 32).take 32) : Int) true = true := by
    unfold ValidateSignatureValues
    have hhalf : secp256k1halfN < secp256k1N := by decide
    rw [if_neg (by omega), if_neg (by simp only [true_and]; omega)]
    simp only [decide_eq_true_eq]
    refine ⟨by omega, by omega, by omega⟩
  unfold recoverPlain
  simp only [hbit, hV, hval, Bool.not_true, Bool.false_eq_true, if_false, Int.toNat_ofNat]
  rw [if_neg (by omega), hR.2, hS.2, ← sig_split sig hlen, hrec]
  simp only
  rw [if_neg (by
    have := FromECDSAPub_head key.X key.Y
    simp only [this.2, ne_eq, not_true_eq_false, or_false]
    exact this.1)]
  rfl

/-- The sender that the EIP-155 signer of chain `c >= 1` recovers from a legacy
transaction signed on that chain is the address of the key. -/
theorem Sender_signed_legacy (L : Lib) (hL : L.Laws) (key : PrivateKey) (hk : ValidKey L key)
    (t : LegacyTx) (c : Int) (hc : 1 ≤ c) (sig : Bytes)
    (hs : L.sign ((NewEIP155Signer (some c)).Hash L (.legacyTx t)) key.D = .ok sig)
    (hwf : WellFormedSig sig) :
    (NewEIP155Signer (some c)).Sender L (.legacyTx { t with
        V := (((sig.getD 64 0 + 35) % 256 : Nat) : Int) + c * 2,
        R := (fromBigEndian (sig.take 32) : Int),
        S := (fromBigEndian ((sig.drop 32).take 32) : Int) })
      = .ok (PubkeyToAddress L key) := by
  have hv : sig.getD 64 0 ≤ 1 := hwf.2.2.1
  have hmod : (sig.getD 64 0 + 35) % 256 = sig.getD 64 0 + 35 := Nat.mod_eq_of_lt (by omega)
  have hh : ((NewEIP155Signer (some c)).Hash L (.legacyTx t)).length = 32 :=
    rlpHash_length L hL _
  have hrec := recoverPlain_signed L hL key hk _ hh sig hs hwf
  unfold EIP155Signer.Sender
  simp only [Transaction.isLegacy, Bool.not_true, Bool.false_eq_true, if_false,
    Transaction.Protected, Transaction.ChainId, Transaction.RawSignatureValues, hmod]
  rw [isProtectedV_of_ge _ (by omega), deriveChainId_eip155 _ hv c hc]
  simp only [Bool.not_true, Bool.false_eq_true, if_false, NewEIP155Signer, Option.getD_some,
    ne_eq, not_true_eq_false]
  have hVb : ((sig.getD 64 0 + 35 : Nat) : Int) + c * 2 - c * 2 - 8
      = ((sig.getD 64 0 : Nat) : Int) + 27 := by
    push_cast; ring
  rw [hVb]
  exact hrec


theorem rlpEncodeList_legacy_ok (t : LegacyTx) (h1 : 0 ≤ t.GasPrice) (h2 : 0 ≤ t.Value)
    (h3 : 0 ≤ t.V) (h4 : 0 ≤ t.R) (h5 : 0 ≤ t.S) :
    ∃ b, (Transaction.legacyTx t).MarshalBinary = .ok b := by
  simp only [Transaction.MarshalBinary, rlpEncodeList, rlpItems, rlpItem,
    not_lt.mpr h1, not_lt.mpr h2, not_lt.mpr h3, not_lt.mpr h4, not_lt.mpr h5, if_false]
  exact ⟨_, rfl⟩

/-- Signing and checking a legacy transaction on a chain `c >= 1` with a valid key:
the signature is made, the recovered sender is the address of the key, and the
serialisation succeeds when no amount is negative. -/
theorem signAndVerify_legacy (L : Lib) (hL : L.Laws) (key : PrivateKey) (hk : ValidKey L key)
    (t : LegacyTx) (c : Int) (hc : 1 ≤ c) (hgp : 0 ≤ t.GasPrice) (hval : 0 ≤ t.Value) :
    ∃ signedTx signedTxBytes,
      signedTx.MarshalBinary = .ok signedTxBytes ∧
      (NewEIP155Signer (some c)).Sender L signedTx = .ok (PubkeyToAddress L key) ∧
      signAndVerify L (.legacyTx t) c key
        = .ok (signedTx, "0x" ++ hexEncodeToString signedTxBytes) := by
  have hh : ((NewEIP155Signer (some c)).Hash L (.legacyTx t)).length = 32 :=
    rlpHash_length L hL _
  obtain ⟨sig, hs, hwf⟩ := hL.sign_ok _ key hh hk
  have hsign := SignTx_legacy L t c (by omega) key sig hs hwf.1
  have hsender := Sender_signed_legacy L hL key hk t c hc sig hs hwf
  obtain ⟨b, hb⟩ := rlpEncodeList_legacy_ok { t with
      V := (((sig.getD 64 0 + 35) % 256 : Nat) : Int) + c * 2,
      R := (fromBigEndian (sig.take 32) : Int),
      S := (fromBigEndian ((sig.drop 32).take 32) : Int) } hgp hval
    (by show (0 : Int) ≤ (((sig.getD 64 0 + 35) % 256 : Nat) : Int) + c * 2; omega)
    (by show (0 : Int) ≤ (fromBigEndian (sig.take 32) : Int); omega)
    (by show (0 : Int) ≤ (fromBigEndian ((sig.drop 32).take 32) : Int); omega)
  refine ⟨_, b, hb, hsender, ?_⟩
  unfold signAndVerify
  simp only [hsign, hsender, hb, ne_eq, not_true_eq_false, if_false]

/-- C1 (amended): for every valid key and every legacy transaction input (raw hex data,
or JSON data with no non-null `maxFeePerGas`) with a chain id that parses to `c >= 1`
and with no negative value or gas price, `signTransaction` succeeds: it returns `0x`
and the hex of the serialised signed transaction, and the sender that the signer
recovers from that signed transaction is the address derived from the key. -/
theorem signTransaction_legacy_ok (L : Lib) (hL : L.Laws) (key : PrivateKey)
    (hk : ValidKey L key) (txData : String) (txMap : Option JSONObject)
    (chainIDStr to_ : String) (c : Int) (hparse : parseChainID chainIDStr = .ok c)
    (hc : 1 ≤ c) (hleg : hasFeeMarketField txMap = false) (hval : 0 ≤ txValue txMap)
    (hgp : 0 ≤ (txGasPrice txMap).getD 0) :
    ∃ signedTx signedTxBytes,
      signedTx.MarshalBinary = .ok signedTxBytes ∧
      (NewEIP155Signer (some c)).Sender L signedTx = .ok (PubkeyToAddress L key) ∧
      signAndVerify L (buildTransaction txData txMap c to_) c key
        = .ok (signedTx, "0x" ++ hexEncodeToString signedTxBytes) ∧
      signTransaction L txData txMap chainIDStr to_ key
        = .ok ("0x" ++ hexEncodeToString signedTxBytes) := by
  have hbuild : buildTransaction txData txMap c to_ = .legacyTx
      { Nonce := txNonce txMap, GasPrice := (txGasPrice txMap).getD 0,
        Gas := txGasLimit txMap, To := some (HexToAddress to_), Value := txValue txMap,
        Data := txPayload txData txMap, V := 0, R := 0, S := 0 } := by
    unfold buildTransaction
    simp [hleg, NewTransaction]
  obtain ⟨signedTx, b, hb, hsender, hsv⟩ :=
    signAndVerify_legacy L hL key hk
      { Nonce := txNonce txMap, GasPrice := (txGasPrice txMap).getD 0,
        Gas := txGasLimit txMap, To := some (HexToAddress to_), Value := txValue txMap,
        Data := txPayload txData txMap, V := 0, R := 0, S := 0 } c hc hgp hval
  refine ⟨signedTx, b, hb, hsender, by rw [hbuild]; exact hsv, ?_⟩
  unfold signTransaction
  rw [hparse]
  simp only [hbuild, hsv]

/-! ### The toy instance meets the contract -/

theorem bigEndian_byte (x : Nat) (h0 : 0 < x) (h1 : x < 256) : bigEndian x = [x] := by
  rw [bigEndian_pos x (by omega)]
  have hd : x / 256 = 0 := by omega
  have hm : x % 256 = x := by omega
  rw [hd, hm, bigEndian_zero]
  rfl

theorem fromBigEndian_zeros (n : Nat) (l : Bytes) :
    fromBigEndian (List.replicate n 0 ++ l) = fromBigEndian l := by
  unfold fromBigEndian
  rw [List.foldl_append]
  congr 1
  induction n with
  | zero => rfl
  | succ n ih => rw [List.replicate_succ, List.foldl_cons]; exact ih

theorem toySig_parts (x : Nat) :
    (List.replicate 31 0 ++ [x] ++ (List.replicate 31 0 ++ [1]) ++ [0]).take 32
      = List.replicate 31 0 ++ [x] ∧
    ((List.replicate 31 0 ++ [x] ++ (List.replicate 31 0 ++ [1]) ++ [0]).drop 32).take 32
      = List.replicate 31 0 ++ [1] ∧
    (List.replicate 31 0 ++ [x] ++ (List.replicate 31 0 ++ [1]) ++ [0]).getD 64 0 = 0 := by
  have hA : (List.replicate 31 0 ++ [x]).length = 32 := by simp
  have hB : (List.replicate 31 0 ++ [1]).length = 32 := by simp
  refine ⟨?_, ?_, ?_⟩
  · rw [List.append_assoc]
    exact List.take_left' hA
  · rw [List.append_assoc, List.drop_left' hA]
    exact List.take_left' hB
  · rw [List.getD_append_right _ _ _ _ (by simp)]
    simp

theorem toySig_wellFormed (x : Nat) (h0 : 0 < x) (h1 : x < 256) :
    WellFormedSig
      (List.replicate 31 0 ++ [x] ++ (List.replicate 31 0 ++ [1]) ++ [0]) := by
  obtain ⟨ht, hd, hg⟩ := toySig_parts x
  have hr : fromBigEndian (List.replicate 31 0 ++ [x]) = x := by
    rw [fromBigEndian_zeros]; simp [fromBigEndian]
  have hs : fromBigEndian (List.replicate 31 0 ++ [1]) = 1 := by
    rw [fromBigEndian_zeros]; simp [fromBigEndian]
  refine ⟨by simp, ?_, by rw [hg]; omega, by rw [ht, hr]; exact h0, ?_, by rw [hd, hs]; omega,
    by rw [hd, hs]; decide⟩
  · intro y hy
    simp only [List.mem_append, List.mem_replicate, List.mem_singleton] at hy
    omega
  · rw [ht, hr]
    simp only [secp256k1N]
    omega

theorem toyLib_laws : toyLib.Laws := by
  refine ⟨?_, ?_, ?_⟩
  · intro b
    simp only [toyLib, List.length_take, List.length_append, List.length_replicate]
    omega
  · intro h key hh _
    refine ⟨List.replicate 31 0 ++ [key.D % 255 + 1] ++ (List.replicate 31 0 ++ [1]) ++ [0],
      by simp only [toyLib, hh, if_true], ?_⟩
    exact toySig_wellFormed _ (by omega) (by omega)
  · intro h key sig hh hk hs
    obtain ⟨_, _, hpt, _, _⟩ := hk
    simp only [toyLib, Prod.mk.injEq] at hpt
    simp only [toyLib, hh, if_true, Except.ok.injEq] at hs
    subst hs
    simp only [toyLib, FromECDSAPub, paddedBigBytes, ← hpt.1, ← hpt.2, bigEndian_zero,
      bigEndian_byte (key.D % 255 + 1) (by omega) (by omega), List.length_nil,
      List.length_singleton, List.append_nil, (toySig_parts (key.D % 255 + 1)).1]

theorem toyKey_valid : ValidKey toyLib toyKey := by
  unfold ValidKey
  decide

/-- C1 (amended) on raw hex data `0x`, chain id `1`, with the toy primitives. -/
theorem signTransaction_legacy_ok_witness :
    ∃ signedTx signedTxBytes,
      signedTx.MarshalBinary = .ok signedTxBytes ∧
      (NewEIP155Signer (some 1)).Sender toyLib signedTx = .ok (PubkeyToAddress toyLib toyKey) ∧
      signAndVerify toyLib (buildTransaction "0x" none 1 addrOne) 1 toyKey
        = .ok (signedTx, "0x" ++ hexEncodeToString signedTxBytes) ∧
      signTransaction toyLib "0x" none "1" addrOne toyKey
        = .ok ("0x" ++ hexEncodeToString signedTxBytes) :=
  signTransaction_legacy_ok toyLib toyLib_laws toyKey toyKey_valid "0x" none "1" addrOne 1
    (by decide) (by decide) (by decide) (by decide) (by decide)

/-- C1 as stated fails on the JSON input with `"value": "-5"` (no `maxFeePerGas`, chain
id 1, a valid key, primitives that meet the contract): the hex value parses to -5, the
transaction is signed and checked, and its serialisation fails on the negative amount. -/
theorem signTransaction_negative_value_fails :
    toyLib.Laws ∧ ValidKey toyLib toyKey ∧ parseChainID "1" = .ok 1 ∧
    hasFeeMarketField (some [("value", .string "-5")]) = false ∧
    signTransaction toyLib "\x7b\"value\":\"-5\"\x7d" (some [("value", .string "-5")]) "1"
      addrOne toyKey = .error (.failedToMarshal .errNegativeBigInt) :=
  ⟨toyLib_laws, toyKey_valid, by decide, by decide, by decide⟩


/-! ## Fee-market input -/

theorem SignTx_dynamicFee (L : Lib) (t : DynamicFeeTx) (s : EIP155Signer) (key : PrivateKey) :
    ∃ e, SignTx L (.dynamicFeeTx t) s key = .error (.err e) ∧
      ((∃ sig, L.sign (s.Hash L (.dynamicFeeTx t)) key.D = .ok sig) →
        e = .errTxTypeNotSupported) := by
  unfold SignTx
  cases hs : L.sign (s.Hash L (.dynamicFeeTx t)) key.D with
  | error e => exact ⟨e, rfl, fun ⟨sig, h⟩ => by cases h⟩
  | ok sig =>
    exact ⟨.errTxTypeNotSupported,
      by simp [Transaction.WithSignature, EIP155Signer.SignatureValues, Transaction.isLegacy],
      fun _ => rfl⟩

/-- C2 (what the code does): for fee-market input (JSON data with a non-null
`maxFeePerGas`) and a parseable chain id, `signTransaction` builds a `DynamicFeeTx`,
hands it to the EIP-155 signer and returns the failed-to-sign error; with a valid key
and primitives that meet their contract the cause is "transaction type not supported".
No signed transaction is returned. -/
theorem signTransaction_feeMarket_fails (L : Lib) (txData : String)
    (txMap : Option JSONObject) (chainIDStr to_ : String) (key : PrivateKey) (c : Int)
    (hparse : parseChainID chainIDStr = .ok c) (hfee : hasFeeMarketField txMap = true) :
    (buildTransaction txData txMap c to_).isLegacy = false ∧
    (∃ e, signTransaction L txData txMap chainIDStr to_ key
        = .error (.failedToSignTransaction e)) ∧
    (L.Laws → ValidKey L key → signTransaction L txData txMap chainIDStr to_ key
        = .error (.failedToSignTransaction .errTxTypeNotSupported)) := by
  have hbuild : ∃ t, buildTransaction txData txMap c to_ = .dynamicFeeTx t := by
    unfold buildTransaction
    simp [hfee, NewDynamicFeeTx]
  obtain ⟨t, ht⟩ := hbuild
  obtain ⟨e, he, hcause⟩ := SignTx_dynamicFee L t (NewEIP155Signer (some c)) key
  have hres : signTransaction L txData txMap chainIDStr to_ key
      = .error (.failedToSignTransaction e) := by
    unfold signTransaction
    rw [hparse]
    simp only [ht, signAndVerify, he]
  refine ⟨by rw [ht]; rfl, ⟨e, hres⟩, fun hL hk => ?_⟩
  obtain ⟨sig, hs, _⟩ := hL.sign_ok ((NewEIP155Signer (some c)).Hash L (.dynamicFeeTx t)) key
    (rlpHash_length L hL _) hk
  rw [hres, hcause ⟨sig, hs⟩]

/-- C2 on the JSON input with `maxFeePerGas` and `maxPriorityFeePerGas` of 1 Gwei,
chain id 1, with the toy primitives. -/
theorem signTransaction_feeMarket_fails_witness :
    (buildTransaction "" (some [("maxFeePerGas", .string "0x3b9aca00"),
        ("maxPriorityFeePerGas", .string "0x3b9aca00")]) 1 addrOne).isLegacy = false ∧
    (∃ e, signTransaction toyLib "" (some [("maxFeePerGas", .string "0x3b9aca00"),
        ("maxPriorityFeePerGas", .string "0x3b9aca00")]) "1" addrOne toyKey
        = .error (.failedToSignTransaction e)) ∧
    (toyLib.Laws → ValidKey toyLib toyKey →
      signTransaction toyLib "" (some [("maxFeePerGas", .string "0x3b9aca00"),
        ("maxPriorityFeePerGas", .string "0x3b9aca00")]) "1" addrOne toyKey
        = .error (.failedToSignTransaction .errTxTypeNotSupported)) :=
  signTransaction_feeMarket_fails toyLib "" _ "1" addrOne toyKey 1 (by decide) (by decide)

/-! ## Typed data -/

theorem addEIP712Domain_copies_agree (typedData : TypedData) :
    Orby.AddEIP712DomainTypeToTypedData typedData = addEIP712DomainTypeToTypedData typedData :=
  rfl

theorem addEIP712Domain_types_length (typedData : TypedData) :
    (((addEIP712DomainTypeToTypedData typedData).Types).getD []).length ≠ 0 := by
  simp [addEIP712DomainTypeToTypedData, Types.set]

theorem typedDataDigest_length (L : Lib) (hL : L.Laws) (typedData : TypedData) (digest : Bytes)
    (h : typedDataDigest L typedData = .ok digest) : digest.length = 32 := by
  unfold typedDataDigest at h
  split at h
  · cases h
  · split at h
    · cases h
    · simp only [Except.ok.injEq] at h
      rw [← h]
      exact hL.keccak_length _

/-- C3: for every valid key and every parsed typed data that passes validation
(non-zero domain, non-empty primaryType and message) and hashing, the signature is
made, the address recovered from the final digest and the raw signature is the address
derived from the key, and `signTypedData` (either copy) returns `0x` and the hex of the
signature with its last byte adjusted: the verification-failed error does not occur. -/
theorem signTypedData_verified (L : Lib) (hL : L.Laws) (key : PrivateKey)
    (hk : ValidKey L key) (typedDataJSON : String) (op : Orby.Operation)
    (typedData : TypedData) (digest : Bytes)
    (hdom : typedData.Domain ≠ TypedDataDomain.zero) (hpt : typedData.PrimaryType ≠ "")
    (hmsg : typedData.Message.length ≠ 0)
    (hdigest : typedDataDigest L (addEIP712DomainTypeToTypedData typedData) = .ok digest) :
    ∃ sig pubKey, L.sign digest key.D = .ok sig ∧ L.ecrecover digest sig = .ok pubKey ∧
      BytesToAddress ((L.keccak256 (pubKey.drop 1)).drop 12) = PubkeyToAddress L key ∧
      signTypedData L typedDataJSON (some typedData) key
        = .ok ("0x" ++ hexEncodeToString (adjustV sig)) ∧
      Orby.SignTypedData L op (some typedData) key
        = .ok ("0x" ++ hexEncodeToString (adjustV sig)) := by
  have hlen := typedDataDigest_length L hL _ digest hdigest
  obtain ⟨sig, hs, hwf⟩ := hL.sign_ok digest key hlen hk
  have hrec := hL.recover_sign digest key sig hlen hk hs
  have hsl : ¬ sig.length ≤ 64 := by rw [hwf.1]; omega
  have hpl : ¬ (FromECDSAPub key.X key.Y).length < 1 := by simp [FromECDSAPub]
  have hkl : ∀ b, ¬ (L.keccak256 b).length < 12 := by
    intro b; rw [hL.keccak_length]; omega
  have hd' : (addEIP712DomainTypeToTypedData typedData).Domain ≠ TypedDataDomain.zero := hdom
  have hp' : (addEIP712DomainTypeToTypedData typedData).PrimaryType ≠ "" := hpt
  have hm' : (addEIP712DomainTypeToTypedData typedData).Message.length ≠ 0 := hmsg
  have ht' := addEIP712Domain_types_length typedData
  have htop : signTypedData L typedDataJSON (some typedData) key
      = .ok ("0x" ++ hexEncodeToString (adjustV sig)) := by
    unfold signTypedData
    simp only [hd', ht', hp', hm', if_false, hdigest, hs, hsl, hrec, hpl, hkl]
    rw [if_neg (by simp [PubkeyToAddress])]
  refine ⟨sig, _, hs, hrec, rfl, htop, ?_⟩
  unfold typedDataDigest at hdigest
  unfold Orby.SignTypedData
  simp only [addEIP712Domain_copies_agree, hd', ht', hp', hm', if_false]
  split at hdigest
  · cases hdigest
  · rename_i h1 hh1
    split at hdigest
    · cases hdigest
    · rename_i h2 hh2
      simp only [Except.ok.injEq] at hdigest
      simp only [hh1, hh2, hdigest, hs, hsl, hrec, hpl, hkl, if_false]
      rw [if_neg (by simp [PubkeyToAddress])]


/-- C3 on a mail message with the toy primitives. -/
theorem signTypedData_verified_witness :
    ∃ sig pubKey,
      toyLib.sign (toyLib.keccak256 ([0x19, 0x01] ++ List.replicate 32 12 ++ List.replicate 32 4))
        toyKey.D = .ok sig ∧
      toyLib.ecrecover
        (toyLib.keccak256 ([0x19, 0x01] ++ List.replicate 32 12 ++ List.replicate 32 4)) sig
        = .ok pubKey ∧
      BytesToAddress ((toyLib.keccak256 (pubKey.drop 1)).drop 12)
        = PubkeyToAddress toyLib toyKey ∧
      signTypedData toyLib "" (some customDomainTypedData) toyKey
        = .ok ("0x" ++ hexEncodeToString (adjustV sig)) ∧
      Orby.SignTypedData toyLib (opOnChain "eip155-1" "" addrOne) (some customDomainTypedData)
        toyKey = .ok ("0x" ++ hexEncodeToString (adjustV sig)) :=
  signTypedData_verified toyLib toyLib_laws toyKey toyKey_valid "" _ customDomainTypedData _
    (by decide) (by decide) (by decide) (by decide)


/-! ## The steps of `signTypedData` -/

theorem add_keeps_fields (typedData : TypedData) :
    (addEIP712DomainTypeToTypedData typedData).Domain = typedData.Domain ∧
    (addEIP712DomainTypeToTypedData typedData).PrimaryType = typedData.PrimaryType ∧
    (addEIP712DomainTypeToTypedData typedData).Message = typedData.Message :=
  ⟨rfl, rfl, rfl⟩

/-- The top-level `signTypedData` as its steps: the three tests that can fail, the
digest, then `signAndPublish`. -/
theorem signTypedData_steps (L : Lib) (typedDataJSON : String) (typedData : TypedData)
    (key : PrivateKey) :
    signTypedData L typedDataJSON (some typedData) key =
      if typedData.Domain = TypedDataDomain.zero then .error (.missingField "domain")
      else if typedData.PrimaryType = "" then .error (.missingField "primaryType")
      else if typedData.Message.length = 0 then .error (.missingField "message")
      else
        match typedDataDigest L (addEIP712DomainTypeToTypedData typedData) with
        | .error e => .error e
        | .ok finalHash => signAndPublish L finalHash key := by
  obtain ⟨hd, hp, hm⟩ := add_keeps_fields typedData
  have ht := addEIP712Domain_types_length typedData
  unfold signTypedData
  simp only [hd, hp, hm, ht, if_false]
  split
  · rfl
  · split
    · rfl
    · split
      · rfl
      · split
        · rfl
        · rfl

/-- The nested `SignTypedData` has the same steps. -/
theorem nested_SignTypedData_steps (L : Lib) (op : Orby.Operation) (typedData : TypedData)
    (key : PrivateKey) :
    Orby.SignTypedData L op (some typedData) key =
      if typedData.Domain = TypedDataDomain.zero then .error (.missingField "domain")
      else if typedData.PrimaryType = "" then .error (.missingField "primaryType")
      else if typedData.Message.length = 0 then .error (.missingField "message")
      else
        match typedDataDigest L (addEIP712DomainTypeToTypedData typedData) with
        | .error e => .error e
        | .ok finalHash => signAndPublish L finalHash key := by
  obtain ⟨hd, hp, hm⟩ := add_keeps_fields typedData
  have ht := addEIP712Domain_types_length typedData
  unfold Orby.SignTypedData typedDataDigest
  simp only [addEIP712Domain_copies_agree, hd, hp, hm, ht, if_false]
  split
  · rfl
  · split
    · rfl
    · split
      · rfl
      · cases L.hashStruct (addEIP712DomainTypeToTypedData typedData) typedData.PrimaryType
          typedData.Message with
        | error e => rfl
        | ok typedDataHash =>
          cases L.hashStruct (addEIP712DomainTypeToTypedData typedData) "EIP712Domain"
            typedData.Domain.Map with
          | error e => rfl
          | ok domainSeparator => rfl


theorem typedDataDigest_error_kind (L : Lib) (typedData : TypedData) (e : SignError)
    (h : typedDataDigest L typedData = .error e) :
    (∃ e1, e = .failedToHashStruct e1) ∨ (∃ e1, e = .failedToCreateDomainSeparator e1) := by
  unfold typedDataDigest at h
  split at h
  · rename_i e1 _
    cases h
    exact Or.inl ⟨e1, rfl⟩
  · split at h
    · rename_i e1 _
      cases h
      exact Or.inr ⟨e1, rfl⟩
    · cases h

theorem typedDataDigest_ok_iff (L : Lib) (typedData : TypedData) (digest : Bytes) :
    typedDataDigest L typedData = .ok digest ↔
      ∃ typedDataHash domainSeparator,
        L.hashStruct typedData typedData.PrimaryType typedData.Message = .ok typedDataHash ∧
        L.hashStruct typedData "EIP712Domain" typedData.Domain.Map = .ok domainSeparator ∧
        digest = L.keccak256 (eip712RawData domainSeparator typedDataHash) := by
  unfold typedDataDigest
  cases h1 : L.hashStruct typedData typedData.PrimaryType typedData.Message with
  | error e => simp
  | ok typedDataHash =>
    cases h2 : L.hashStruct typedData "EIP712Domain" typedData.Domain.Map with
    | error e => simp
    | ok domainSeparator =>
      simp only [Except.ok.injEq, exists_and_left, exists_eq_left']
      exact eq_comm

theorem signAndPublish_ok_inv (L : Lib) (finalHash : Bytes) (key : PrivateKey) (s : String)
    (h : signAndPublish L finalHash key = .ok s) :
    ∃ sig pubKey, L.sign finalHash key.D = .ok sig ∧ 64 < sig.length ∧
      L.ecrecover finalHash sig = .ok pubKey ∧
      recoveredAddressOf L pubKey = PubkeyToAddress L key ∧
      s = "0x" ++ hexEncodeToString (adjustV sig) := by
  unfold signAndPublish at h
  split at h
  · cases h
  · rename_i sig hsig
    split at h
    · cases h
    · rename_i hlen
      split at h
      · cases h
      · rename_i pubKey hrec
        split at h
        · cases h
        · split at h
          · cases h
          · split at h
            · cases h
            · rename_i hne
              simp only [Except.ok.injEq] at h
              exact ⟨sig, pubKey, hsig, by omega, hrec, by simpa using hne, h.symm⟩

theorem signAndPublish_error_kind (L : Lib) (finalHash : Bytes) (key : PrivateKey)
    (field : String) : signAndPublish L finalHash key ≠ .error (.missingField field) := by
  intro h
  unfold signAndPublish at h
  split at h
  · cases h
  · split at h
    · cases h
    · split at h
      · cases h
      · split at h
        · cases h
        · split at h
          · cases h
          · split at h <;> cases h

/-- What a successful `signTypedData` has done. -/
theorem signTypedData_ok_inv (L : Lib) (typedDataJSON : String) (parsed : Option TypedData)
    (key : PrivateKey) (s : String) (h : signTypedData L typedDataJSON parsed key = .ok s) :
    ∃ typedData digest, parsed = some typedData ∧ PassesValidation typedData ∧
      typedDataDigest L (addEIP712DomainTypeToTypedData typedData) = .ok digest ∧
      signAndPublish L digest key = .ok s := by
  cases parsed with
  | none => cases h
  | some typedData =>
    rw [signTypedData_steps] at h
    split at h
    · cases h
    · split at h
      · cases h
      · split at h
        · cases h
        · rename_i h0 h1 h2
          split at h
          · cases h
          · rename_i digest hd
            exact ⟨typedData, digest, rfl, ⟨h0, h1, h2⟩, hd, h⟩

theorem nested_SignTypedData_ok_inv (L : Lib) (op : Orby.Operation)
    (parsed : Option TypedData) (key : PrivateKey) (s : String)
    (h : Orby.SignTypedData L op parsed key = .ok s) :
    ∃ typedData digest, parsed = some typedData ∧ PassesValidation typedData ∧
      typedDataDigest L (addEIP712DomainTypeToTypedData typedData) = .ok digest ∧
      signAndPublish L digest key = .ok s := by
  cases parsed with
  | none => cases h
  | some typedData =>
    rw [nested_SignTypedData_steps] at h
    split at h
    · cases h
    · split at h
      · cases h
      · split at h
        · cases h
        · rename_i h0 h1 h2
          split at h
          · cases h
          · rename_i digest hd
            exact ⟨typedData, digest, rfl, ⟨h0, h1, h2⟩, hd, h⟩

/-- After validation and hashing, both copies are `signAndPublish` on the digest. -/
theorem signTypedData_valid (L : Lib) (typedDataJSON : String) (op : Orby.Operation)
    (typedData : TypedData) (key : PrivateKey) (digest : Bytes)
    (hv : PassesValidation typedData)
    (hd : typedDataDigest L (addEIP712DomainTypeToTypedData typedData) = .ok digest) :
    signTypedData L typedDataJSON (some typedData) key = signAndPublish L digest key ∧
    Orby.SignTypedData L op (some typedData) key = signAndPublish L digest key := by
  obtain ⟨h0, h1, h2⟩ := hv
  rw [signTypedData_steps, nested_SignTypedData_steps]
  simp only [h0, h1, h2, if_false, hd, and_self]

/-! ## Validation of typed data -/

/-- C11: `signTypedData` (either copy) rejects a parsed typed data whose domain is the
zero value, whose primaryType is empty or whose message is empty with the error that
names the missing field, the first missing one in the order domain, primaryType,
message; the outcome is the same for all primitives, so nothing is hashed or signed. -/
theorem signTypedData_missing_field (L : Lib) (typedDataJSON : String)
    (op : Orby.Operation) (typedData : TypedData) (key : PrivateKey) :
    (typedData.Domain = TypedDataDomain.zero →
      signTypedData L typedDataJSON (some typedData) key = .error (.missingField "domain") ∧
      Orby.SignTypedData L op (some typedData) key = .error (.missingField "domain")) ∧
    (typedData.Domain ≠ TypedDataDomain.zero → typedData.PrimaryType = "" →
      signTypedData L typedDataJSON (some typedData) key
        = .error (.missingField "primaryType") ∧
      Orby.SignTypedData L op (some typedData) key = .error (.missingField "primaryType")) ∧
    (typedData.Domain ≠ TypedDataDomain.zero → typedData.PrimaryType ≠ "" →
      typedData.Message.length = 0 →
      signTypedData L typedDataJSON (some typedData) key = .error (.missingField "message") ∧
      Orby.SignTypedData L op (some typedData) key = .error (.missingField "message")) := by
  rw [signTypedData_steps, nested_SignTypedData_steps]
  refine ⟨fun h0 => ?_, fun h0 h1 => ?_, fun h0 h1 h2 => ?_⟩
  · simp only [h0, if_true, and_self]
  · simp only [h0, h1, if_true, if_false, and_self]
  · simp only [h0, h1, h2, if_true, if_false, and_self]

/-- C11 on three inputs: a zero domain, an empty primaryType, an empty message. -/
theorem signTypedData_missing_field_witness :
    signTypedData toyLib "" (some zeroDomainTypedData) toyKey
      = .error (.missingField "domain") ∧
    signTypedData toyLib "" (some emptyPrimaryTypedData) toyKey
      = .error (.missingField "primaryType") ∧
    signTypedData toyLib "" (some emptyMessageTypedData) toyKey
      = .error (.missingField "message") ∧
    Orby.SignTypedData toyLib (opOnChain "eip155-1" "" addrOne) (some emptyMessageTypedData)
      toyKey = .error (.missingField "message") :=
  ⟨((signTypedData_missing_field toyLib "" (opOnChain "eip155-1" "" addrOne)
      zeroDomainTypedData toyKey).1 (by decide)).1,
   ((signTypedData_missing_field toyLib "" (opOnChain "eip155-1" "" addrOne)
      emptyPrimaryTypedData toyKey).2.1 (by decide) (by decide)).1,
   ((signTypedData_missing_field toyLib "" (opOnChain "eip155-1" "" addrOne)
      emptyMessageTypedData toyKey).2.2 (by decide) (by decide) (by decide)).1,
   ((signTypedData_missing_field toyLib "" (opOnChain "eip155-1" "" addrOne)
      emptyMessageTypedData toyKey).2.2 (by decide) (by decide) (by decide)).2⟩

theorem steps_ne_missing_types (L : Lib) (typedData : TypedData) (key : PrivateKey) :
    (if typedData.Domain = TypedDataDomain.zero then .error (.missingField "domain")
      else if typedData.PrimaryType = "" then .error (.missingField "primaryType")
      else if typedData.Message.length = 0 then .error (.missingField "message")
      else
        match typedDataDigest L (addEIP712DomainTypeToTypedData typedData) with
        | .error e => .error e
        | .ok finalHash => signAndPublish L finalHash key)
      ≠ (.error (.missingField "types") : Except SignError String) := by
  intro h
  split at h
  · simp at h
  · split at h
    · simp at h
    · split at h
      · simp at h
      · split at h
        · rename_i e he
          cases h
          rcases typedDataDigest_error_kind L _ _ he with ⟨e1, h1⟩ | ⟨e1, h1⟩ <;> cases h1
        · exact signAndPublish_error_kind L _ key "types" h

/-- C12 (what the code does): the `types` test of `signTypedData` comes after
`addEIP712DomainTypeToTypedData`, which has put the `EIP712Domain` entry into the
schema, so no input, with or without a schema, ends in the error that names the
missing `types` field (either copy); a typed data without a schema, with its domain,
primaryType and message present, passes validation and goes on to the struct hash. -/
theorem signTypedData_never_missing_types (L : Lib) (typedDataJSON : String)
    (op : Orby.Operation) (parsed : Option TypedData) (key : PrivateKey) :
    signTypedData L typedDataJSON parsed key ≠ .error (.missingField "types") ∧
    Orby.SignTypedData L op parsed key ≠ .error (.missingField "types") ∧
    noTypesTypedData.Types = none ∧
    (∀ e, L.hashStruct (addEIP712DomainTypeToTypedData noTypesTypedData) "Mail"
        noTypesTypedData.Message = .error e →
      signTypedData L typedDataJSON (some noTypesTypedData) key
        = .error (.failedToHashStruct e)) := by
  refine ⟨?_, ?_, rfl, ?_⟩
  · cases parsed with
    | none => intro h; cases h
    | some typedData =>
      rw [signTypedData_steps]
      exact steps_ne_missing_types L typedData key
  · cases parsed with
    | none => intro h; cases h
    | some typedData =>
      rw [nested_SignTypedData_steps]
      exact steps_ne_missing_types L typedData key
  · intro e hh
    rw [signTypedData_steps]
    have hd : noTypesTypedData.Domain ≠ TypedDataDomain.zero := by decide
    have hp : noTypesTypedData.PrimaryType ≠ "" := by decide
    have hm : noTypesTypedData.Message.length ≠ 0 := by decide
    have hdig : typedDataDigest L (addEIP712DomainTypeToTypedData noTypesTypedData)
        = .error (.failedToHashStruct e) := by
      unfold typedDataDigest
      have hpt : (addEIP712DomainTypeToTypedData noTypesTypedData).PrimaryType = "Mail" := rfl
      have hmm : (addEIP712DomainTypeToTypedData noTypesTypedData).Message
          = noTypesTypedData.Message := rfl
      rw [hpt, hmm, hh]
    simp only [hd, hp, hm, if_false, hdig]


/-! ## The hashed byte string and the published signature -/

theorem goSprintf_eip712 (domainSeparator typedDataHash : Bytes) :
    goSprintf eip712Format [domainSeparator, typedDataHash]
      = some (0x19 :: 0x01 :: (domainSeparator ++ typedDataHash)) := by
  simp [goSprintf, eip712Format]

/-- C13: for every 32-byte domainSeparator and every 32-byte structHash, whatever their
bytes are, the byte string that `signTypedData` (either copy) hashes into the final
digest is the 66 bytes `0x19`, `0x01`, domainSeparator, structHash: the formatting
copies every byte. -/
theorem eip712RawData_exact (domainSeparator structHash : Bytes)
    (h1 : domainSeparator.length = 32) (h2 : structHash.length = 32) :
    eip712RawData domainSeparator structHash
      = 0x19 :: 0x01 :: (domainSeparator ++ structHash) ∧
    (eip712RawData domainSeparator structHash).length = 66 ∧
    ∀ (L : Lib) (typedData : TypedData),
      L.hashStruct typedData typedData.PrimaryType typedData.Message = .ok structHash →
      L.hashStruct typedData "EIP712Domain" typedData.Domain.Map = .ok domainSeparator →
      typedDataDigest L typedData
        = .ok (L.keccak256 (0x19 :: 0x01 :: (domainSeparator ++ structHash))) := by
  have h : eip712RawData domainSeparator structHash
      = 0x19 :: 0x01 :: (domainSeparator ++ structHash) := by
    unfold eip712RawData
    rw [goSprintf_eip712]
    rfl
  refine ⟨h, by rw [h]; simp [h1, h2], fun L typedData hs hd => ?_⟩
  rw [typedDataDigest_ok_iff]
  exact ⟨structHash, domainSeparator, hs, hd, by rw [h]⟩

/-- C13 on a domainSeparator of 32 `%` bytes and a structHash of 31 bytes `0xff` and a
zero byte. -/
theorem eip712RawData_exact_witness :
    eip712RawData (List.replicate 32 0x25) (List.replicate 31 0xff ++ [0])
      = 0x19 :: 0x01 :: (List.replicate 32 0x25 ++ (List.replicate 31 0xff ++ [0])) ∧
    (eip712RawData (List.replicate 32 0x25) (List.replicate 31 0xff ++ [0])).length = 66 ∧
    ∀ (L : Lib) (typedData : TypedData),
      L.hashStruct typedData typedData.PrimaryType typedData.Message
        = .ok (List.replicate 31 0xff ++ [0]) →
      L.hashStruct typedData "EIP712Domain" typedData.Domain.Map
        = .ok (List.replicate 32 0x25) →
      typedDataDigest L typedData
        = .ok (L.keccak256
            (0x19 :: 0x01 :: (List.replicate 32 0x25 ++ (List.replicate 31 0xff ++ [0])))) :=
  eip712RawData_exact (List.replicate 32 0x25) (List.replicate 31 0xff ++ [0])
    (by decide) (by decide)

theorem adjustV_facts (sig : Bytes) (hlen : sig.length = 65) :
    (adjustV sig).length = 65 ∧ (adjustV sig).take 64 = sig.take 64 ∧
    (adjustV sig).getD 64 0
      = (if sig.getD 64 0 < 27 then sig.getD 64 0 + 27 else sig.getD 64 0) := by
  unfold adjustV
  split
  · rename_i hlt
    refine ⟨by rw [List.length_set, hlen], ?_, ?_⟩
    · have h1 : (sig.set 64 ((sig.getD 64 0 + 27) % 256)).take 64
          = (sig.take 64).set 64 ((sig.getD 64 0 + 27) % 256) := by
        rw [List.set_take]
      rw [h1, List.set_eq_of_length_le (by simp)]
    · rw [List.getD_eq_getElem?_getD, List.getElem?_set_self (by omega)]
      simp only [Option.getD_some]
      omega
  · exact ⟨hlen, rfl, rfl⟩

/-- C14: for every raw 65-byte signature that `crypto.Sign` returns in `signTypedData`
(either copy), the published signature keeps the first 64 bytes and has as last byte
the raw recovery byte plus 27 when that byte is below 27 (the same byte otherwise), so
27 or 28 for a raw recovery id 0 or 1; the recovery check is run on the raw signature:
the call succeeds only with the public key recovered from it, and fails with the
error of the recovery on it. -/
theorem adjustV_published (L : Lib) (typedDataJSON : String) (op : Orby.Operation)
    (typedData : TypedData) (key : PrivateKey) (digest sig : Bytes)
    (hv : PassesValidation typedData)
    (hd : typedDataDigest L (addEIP712DomainTypeToTypedData typedData) = .ok digest)
    (hs : L.sign digest key.D = .ok sig) (hlen : sig.length = 65) :
    (adjustV sig).length = 65 ∧ (adjustV sig).take 64 = sig.take 64 ∧
    (adjustV sig).getD 64 0
      = (if sig.getD 64 0 < 27 then sig.getD 64 0 + 27 else sig.getD 64 0) ∧
    (sig.getD 64 0 ≤ 1 → (adjustV sig).getD 64 0 = 27 ∨ (adjustV sig).getD 64 0 = 28) ∧
    (∀ s, signTypedData L typedDataJSON (some typedData) key = .ok s ∨
        Orby.SignTypedData L op (some typedData) key = .ok s →
      s = "0x" ++ hexEncodeToString (adjustV sig) ∧
      ∃ pubKey, L.ecrecover digest sig = .ok pubKey ∧
        recoveredAddressOf L pubKey = PubkeyToAddress L key) ∧
    (∀ e, L.ecrecover digest sig = .error e →
      signTypedData L typedDataJSON (some typedData) key
        = .error (.failedToRecoverPublicKey e) ∧
      Orby.SignTypedData L op (some typedData) key
        = .error (.failedToRecoverPublicKey e)) := by
  obtain ⟨ha1, ha2, ha3⟩ := adjustV_facts sig hlen
  obtain ⟨ht, hn⟩ := signTypedData_valid L typedDataJSON op typedData key digest hv hd
  refine ⟨ha1, ha2, ha3, fun h01 => ?_, fun s hs' => ?_, fun e he => ?_⟩
  · rw [ha3, if_pos (by omega)]
    omega
  · rw [ht, hn, or_self] at hs'
    obtain ⟨sig1, pubKey, hs1, _, hrec, haddr, hstr⟩ := signAndPublish_ok_inv L digest key s hs'
    rw [hs] at hs1
    cases hs1
    exact ⟨hstr, pubKey, hrec, haddr⟩
  · rw [ht, hn]
    unfold signAndPublish
    simp only [hs, he, and_self]
    rw [if_neg (by omega)]

/-- C14 with the toy primitives on a mail message: raw recovery byte 0, published 27. -/
theorem adjustV_published_witness :
    (adjustV (List.replicate 31 0 ++ [8] ++ (List.replicate 31 0 ++ [1]) ++ [0])).getD 64 0
      = 27 ∧
    signTypedData toyLib "" (some customDomainTypedData) toyKey
      = .ok ("0x" ++ hexEncodeToString
          (adjustV (List.replicate 31 0 ++ [8] ++ (List.replicate 31 0 ++ [1]) ++ [0]))) := by
  have h := adjustV_published toyLib "" (opOnChain "eip155-1" "" addrOne)
    customDomainTypedData toyKey
    (toyLib.keccak256 (eip712RawData (List.replicate 32 12) (List.replicate 32 4)))
    (List.replicate 31 0 ++ [8] ++ (List.replicate 31 0 ++ [1]) ++ [0])
    (by unfold PassesValidation; decide) (by decide) (by decide) (by decide)
  refine ⟨?_, by decide⟩
  rcases h.2.2.2.1 (by decide) with h27 | h28
  · exact h27
  · exact absurd h28 (by decide)


/-! ## The returned strings -/

theorem hexDigit_lower : ∀ n, n < 16 → isLowerHexDigit (hexDigit n) = true := by
  decide

theorem hexEncodeToString_digits (b : Bytes) :
    (hexEncodeToString b).data.length = 2 * b.length ∧
    ∀ c ∈ (hexEncodeToString b).data, isLowerHexDigit c = true := by
  unfold hexEncodeToString
  constructor
  · induction b with
    | nil => rfl
    | cons x xs ih =>
      simp only [List.flatMap_cons, List.length_append, List.length_cons, List.length_nil, ih]
      omega
  · intro c hc
    simp only [List.mem_flatMap, List.mem_cons, List.mem_singleton, List.not_mem_nil,
      or_false] at hc
    obtain ⟨x, _, rfl | rfl⟩ := hc
    · exact hexDigit_lower _ (Nat.mod_lt _ (by decide))
    · exact hexDigit_lower _ (Nat.mod_lt _ (by decide))

theorem prefixed_hex_data (b : Bytes) :
    ("0x" ++ hexEncodeToString b).data = '0' :: 'x' :: (hexEncodeToString b).data := by
  rw [String.data_append]
  rfl

theorem adjustV_length (sig : Bytes) : (adjustV sig).length = sig.length := by
  unfold adjustV
  split
  · rw [List.length_set]
  · rfl

theorem signAndVerify_ok_inv (L : Lib) (tx : Transaction) (c : Int) (key : PrivateKey)
    (signedTx : Transaction) (s : String)
    (h : signAndVerify L tx c key = .ok (signedTx, s)) :
    SignTx L tx (NewEIP155Signer (some c)) key = .ok signedTx ∧
    (NewEIP155Signer (some c)).Sender L signedTx = .ok (PubkeyToAddress L key) ∧
    ∃ signedTxBytes, signedTx.MarshalBinary = .ok signedTxBytes ∧
      s = "0x" ++ hexEncodeToString signedTxBytes := by
  unfold signAndVerify at h
  dsimp only at h
  split at h
  · cases h
  · cases h
  · rename_i signed hsign
    split at h
    · cases h
    · cases h
    · rename_i sender hsender
      split at h
      · cases h
      · rename_i hne
        split at h
        · cases h
        · rename_i b hb
          simp only [Except.ok.injEq, Prod.mk.injEq] at h
          obtain ⟨h1, h2⟩ := h
          subst h1
          have hsd : sender = PubkeyToAddress L key := by simpa using hne
          subst hsd
          exact ⟨hsign, hsender, b, hb, h2.symm⟩

/-- What a successful `signTransaction` has done. -/
theorem signTransaction_ok_inv (L : Lib) (txData : String) (txMap : Option JSONObject)
    (chainIDStr to_ : String) (key : PrivateKey) (s : String)
    (h : signTransaction L txData txMap chainIDStr to_ key = .ok s) :
    ∃ c signedTx signedTxBytes, parseChainID chainIDStr = .ok c ∧
      SignTx L (buildTransaction txData txMap c to_) (NewEIP155Signer (some c)) key
        = .ok signedTx ∧
      (NewEIP155Signer (some c)).Sender L signedTx = .ok (PubkeyToAddress L key) ∧
      signedTx.MarshalBinary = .ok signedTxBytes ∧
      s = "0x" ++ hexEncodeToString signedTxBytes := by
  unfold signTransaction at h
  split at h
  · cases h
  · rename_i c hc
    split at h
    · cases h
    · rename_i signedTx s1 hsv
      simp only [Except.ok.injEq] at h
      subst h
      obtain ⟨h1, h2, b, h3, h4⟩ := signAndVerify_ok_inv L _ c key signedTx s1 hsv
      exact ⟨c, signedTx, b, hc, h1, h2, h3, h4⟩

/-- C15: with a valid key and primitives that meet their contract, every string that
`signTypedData` returns without error is `0x` followed by exactly 130 lowercase hex
digits, and every string that `signTransaction` returns without error is `0x` followed
by an even number of lowercase hex digits, the hex of the serialised signed
transaction. -/
theorem returned_strings_hex (L : Lib) (hL : L.Laws) (key : PrivateKey) (hk : ValidKey L key)
    (typedDataJSON : String) (parsed : Option TypedData) (txData : String)
    (txMap : Option JSONObject) (chainIDStr to_ : String) :
    (∀ s, signTypedData L typedDataJSON parsed key = .ok s →
      ∃ digits, s.data = '0' :: 'x' :: digits ∧ digits.length = 130 ∧
        ∀ c ∈ digits, isLowerHexDigit c = true) ∧
    (∀ s, signTransaction L txData txMap chainIDStr to_ key = .ok s →
      ∃ (signedTx : Transaction) (signedTxBytes : Bytes) (digits : List Char),
        signedTx.MarshalBinary = .ok signedTxBytes ∧
        s = "0x" ++ hexEncodeToString signedTxBytes ∧
        s.data = '0' :: 'x' :: digits ∧ digits.length % 2 = 0 ∧
        ∀ c ∈ digits, isLowerHexDigit c = true) := by
  constructor
  · intro s hs
    obtain ⟨typedData, digest, _, _, hd, hp⟩ := signTypedData_ok_inv L _ _ key s hs
    obtain ⟨sig, _, hsig, _, _, _, hstr⟩ := signAndPublish_ok_inv L digest key s hp
    have hlen := typedDataDigest_length L hL _ digest hd
    obtain ⟨sig1, hs1, hwf⟩ := hL.sign_ok digest key hlen hk
    rw [hsig] at hs1
    cases hs1
    obtain ⟨h1, h2⟩ := hexEncodeToString_digits (adjustV sig)
    refine ⟨(hexEncodeToString (adjustV sig)).data, by rw [hstr, prefixed_hex_data], ?_, h2⟩
    rw [h1, adjustV_length, hwf.1]
  · intro s hs
    obtain ⟨c, signedTx, b, _, _, _, hb, hstr⟩ := signTransaction_ok_inv L _ _ _ _ key s hs
    obtain ⟨h1, h2⟩ := hexEncodeToString_digits b
    exact ⟨signedTx, b, (hexEncodeToString b).data, hb, hstr,
      by rw [hstr, prefixed_hex_data], by rw [h1]; omega, h2⟩

/-- C16: neither `signTypedData` nor `signTransaction` returns an unverified signature:
a returned string is the hex of a signature (of a signed transaction) from which the
address of the key has been recovered, so a differing recovered address means an error;
and the string that comes back with an error is empty. -/
theorem never_unverified (L : Lib) (key : PrivateKey) (typedDataJSON : String)
    (parsed : Option TypedData) (txData : String) (txMap : Option JSONObject)
    (chainIDStr to_ : String) :
    (∀ s, signTypedData L typedDataJSON parsed key = .ok s →
      ∃ digest sig pubKey, L.sign digest key.D = .ok sig ∧
        L.ecrecover digest sig = .ok pubKey ∧
        recoveredAddressOf L pubKey = PubkeyToAddress L key ∧
        s = "0x" ++ hexEncodeToString (adjustV sig)) ∧
    (∀ s, signTransaction L txData txMap chainIDStr to_ key = .ok s →
      ∃ c signedTx signedTxBytes, parseChainID chainIDStr = .ok c ∧
        (NewEIP155Signer (some c)).Sender L signedTx = .ok (PubkeyToAddress L key) ∧
        signedTx.MarshalBinary = .ok signedTxBytes ∧
        s = "0x" ++ hexEncodeToString signedTxBytes) ∧
    (∀ e, (returnPair (signTypedData L typedDataJSON parsed key)).2 = some e →
      (returnPair (signTypedData L typedDataJSON parsed key)).1 = "") ∧
    (∀ e, (returnPair (signTransaction L txData txMap chainIDStr to_ key)).2 = some e →
      (returnPair (signTransaction L txData txMap chainIDStr to_ key)).1 = "") := by
  refine ⟨fun s hs => ?_, fun s hs => ?_, fun e he => ?_, fun e he => ?_⟩
  · obtain ⟨typedData, digest, _, _, _, hp⟩ := signTypedData_ok_inv L _ _ key s hs
    obtain ⟨sig, pubKey, hsig, _, hrec, haddr, hstr⟩ := signAndPublish_ok_inv L digest key s hp
    exact ⟨digest, sig, pubKey, hsig, hrec, haddr, hstr⟩
  · obtain ⟨c, signedTx, b, hc, _, hsender, hb, hstr⟩ :=
      signTransaction_ok_inv L _ _ _ _ key s hs
    exact ⟨c, signedTx, b, hc, hsender, hb, hstr⟩
  · cases hr : signTypedData L typedDataJSON parsed key with
    | error e1 => rfl
    | ok s => rw [hr] at he; cases he
  · cases hr : signTransaction L txData txMap chainIDStr to_ key with
    | error e1 => rfl
    | ok s => rw [hr] at he; cases he


/-- C15 with the toy primitives: the signature of a mail message and the signed legacy
transaction of the raw data `0x` on chain 1. -/
theorem returned_strings_hex_witness :
    (∃ digits, ("0x000000000000000000000000000000000000000000000000000000000000000800000000000000000000000000000000000000000000000000000000000000011b" : String).data
        = '0' :: 'x' :: digits ∧ digits.length = 130 ∧
        ∀ c ∈ digits, isLowerHexDigit c = true) ∧
    (∃ (signedTx : Transaction) (signedTxBytes : Bytes) (digits : List Char),
      signedTx.MarshalBinary = .ok signedTxBytes ∧
      ("0xe480843b9aca00830493e09400000000000000000000000000000000000000018080250801" : String)
        = "0x" ++ hexEncodeToString signedTxBytes ∧
      ("0xe480843b9aca00830493e09400000000000000000000000000000000000000018080250801" : String).data
        = '0' :: 'x' :: digits ∧ digits.length % 2 = 0 ∧
      ∀ c ∈ digits, isLowerHexDigit c = true) :=
  have h := returned_strings_hex toyLib toyLib_laws toyKey toyKey_valid ""
    (some customDomainTypedData) "0x" none "1" addrOne
  ⟨h.1 _ (by decide), h.2 _ (by decide)⟩

/-- C16 with the toy primitives, on the same two calls. -/
theorem never_unverified_witness :
    (∃ digest sig pubKey, toyLib.sign digest toyKey.D = .ok sig ∧
      toyLib.ecrecover digest sig = .ok pubKey ∧
      recoveredAddressOf toyLib pubKey = PubkeyToAddress toyLib toyKey ∧
      ("0x000000000000000000000000000000000000000000000000000000000000000800000000000000000000000000000000000000000000000000000000000000011b" : String)
        = "0x" ++ hexEncodeToString (adjustV sig)) ∧
    (∃ c signedTx signedTxBytes, parseChainID "1" = .ok c ∧
      (NewEIP155Signer (some c)).Sender toyLib signedTx
        = .ok (PubkeyToAddress toyLib toyKey) ∧
      signedTx.MarshalBinary = .ok signedTxBytes ∧
      ("0xe480843b9aca00830493e09400000000000000000000000000000000000000018080250801" : String)
        = "0x" ++ hexEncodeToString signedTxBytes) ∧
    (returnPair (signTypedData toyLib "" (some emptyMessageTypedData) toyKey)).1 = "" :=
  have h := never_unverified toyLib toyKey "" (some customDomainTypedData) "0x" none "1"
    addrOne
  have h2 := never_unverified toyLib toyKey "" (some emptyMessageTypedData) "0x" none "1"
    addrOne
  ⟨h.1 _ (by decide), h.2.1 _ (by decide), h2.2.2.1 (.missingField "message") (by decide)⟩

/-! ## The two failures of the verification step -/

/-- C18: in the verification step of `signTypedData` (either copy), a raw signature
from which no public key can be recovered gives the failed-to-recover-public-key error
(with the cause), a signature that recovers to another address gives the different
signature-verification-failed error (with both addresses); neither case returns a
signature. -/
theorem verification_failures_distinct (L : Lib) (typedDataJSON : String)
    (op : Orby.Operation) (typedData : TypedData) (key : PrivateKey) (digest sig : Bytes)
    (hv : PassesValidation typedData)
    (hd : typedDataDigest L (addEIP712DomainTypeToTypedData typedData) = .ok digest)
    (hs : L.sign digest key.D = .ok sig) (hlen : 64 < sig.length) :
    (∀ e, L.ecrecover digest sig = .error e →
      signTypedData L typedDataJSON (some typedData) key
        = .error (.failedToRecoverPublicKey e) ∧
      Orby.SignTypedData L op (some typedData) key
        = .error (.failedToRecoverPublicKey e)) ∧
    (∀ pubKey, L.ecrecover digest sig = .ok pubKey → 1 ≤ pubKey.length →
      12 ≤ (L.keccak256 (pubKey.drop 1)).length →
      recoveredAddressOf L pubKey ≠ PubkeyToAddress L key →
      signTypedData L typedDataJSON (some typedData) key
        = .error (.signatureVerificationFailed (recoveredAddressOf L pubKey)
            (PubkeyToAddress L key)) ∧
      Orby.SignTypedData L op (some typedData) key
        = .error (.signatureVerificationFailed (recoveredAddressOf L pubKey)
            (PubkeyToAddress L key))) ∧
    (∀ (e : LibError) (a b : Address),
      SignError.failedToRecoverPublicKey e ≠ SignError.signatureVerificationFailed a b) := by
  obtain ⟨ht, hn⟩ := signTypedData_valid L typedDataJSON op typedData key digest hv hd
  rw [ht, hn]
  refine ⟨fun e he => ?_, fun pubKey hp h1 h12 hne => ?_, fun e a b h => by cases h⟩
  · unfold signAndPublish
    simp only [hs, he, and_self]
    rw [if_neg (by omega)]
  · unfold signAndPublish
    simp only [hs, hp, and_self]
    rw [if_neg (by omega), if_neg (by omega), if_neg (by omega), if_pos hne]

/-- C18 with the toy primitives: a recovery that fails, and a key whose stored public
point is not the one recovered. -/
theorem verification_failures_distinct_witness :
    signTypedData toyLibNoRecover "" (some customDomainTypedData) toyKey
      = .error (.failedToRecoverPublicKey (.other "invalid signature recovery id")) ∧
    signTypedData toyLib "" (some customDomainTypedData) toyKeyMismatch
      = .error (.signatureVerificationFailed
          (recoveredAddressOf toyLib
            (4 :: (List.replicate 31 0 ++ [8] ++ List.replicate 32 0)))
          (PubkeyToAddress toyLib toyKeyMismatch)) :=
  ⟨((verification_failures_distinct toyLibNoRecover "" (opOnChain "eip155-1" "" addrOne)
      customDomainTypedData toyKey
      (toyLib.keccak256 (eip712RawData (List.replicate 32 12) (List.replicate 32 4)))
      (List.replicate 31 0 ++ [8] ++ (List.replicate 31 0 ++ [1]) ++ [0])
      (by unfold PassesValidation; decide) (by decide) (by decide) (by decide)).1
      (.other "invalid signature recovery id") (by decide)).1,
   ((verification_failures_distinct toyLib "" (opOnChain "eip155-1" "" addrOne)
      customDomainTypedData toyKeyMismatch
      (toyLib.keccak256 (eip712RawData (List.replicate 32 12) (List.replicate 32 4)))
      (List.replicate 31 0 ++ [8] ++ (List.replicate 31 0 ++ [1]) ++ [0])
      (by unfold PassesValidation; decide) (by decide) (by decide) (by decide)).2.1
      (4 :: (List.replicate 31 0 ++ [8] ++ List.replicate 32 0))
      (by decide) (by decide) (by decide) (by decide)).1⟩


/-! ## The EIP-155 value `v` -/

/-- C19: for a legacy transaction signed by `signTransaction` on a chain `c >= 1` with a
raw recovery id `r` of 0 or 1 (the last byte of the raw signature), the signature value
`v` is `r + 2 * c + 35`, and the sender recovery inverts it: it takes the EIP-155
branch, derives the chain id `c` from `v`, and gets the recovery id `r` back. -/
theorem eip155_v_roundtrip (t : LegacyTx) (c : Int) (hc : 1 ≤ c) (sig : Bytes) (r : Nat)
    (hlen : sig.length = 65) (hsr : sig.getD 64 0 = r) (hr : r ≤ 1) :
    (∀ (L : Lib) (key : PrivateKey),
      L.sign ((NewEIP155Signer (some c)).Hash L (.legacyTx t)) key.D = .ok sig →
      ∃ signedTx, SignTx L (.legacyTx t) (NewEIP155Signer (some c)) key = .ok signedTx ∧
        signedTx.RawSignatureValues.1 = (r : Int) + 2 * c + 35 ∧
        signedTx.Protected = true ∧ signedTx.ChainId = c) ∧
    isProtectedV ((r : Int) + 2 * c + 35) = true ∧
    deriveChainId ((r : Int) + 2 * c + 35) = c ∧
    recoveryByte ((r : Int) + 2 * c + 35 - (NewEIP155Signer (some c)).chainIdMul - 8) = r := by
  subst hsr
  have hmod : (sig.getD 64 0 + 35) % 256 = sig.getD 64 0 + 35 := Nat.mod_eq_of_lt (by omega)
  have hV : (sig.getD 64 0 : Int) + 2 * c + 35 = ((sig.getD 64 0 + 35 : Nat) : Int) + c * 2 := by
    push_cast; ring
  have hp : isProtectedV ((sig.getD 64 0 : Int) + 2 * c + 35) = true :=
    isProtectedV_of_ge _ (by omega)
  have hcid : deriveChainId ((sig.getD 64 0 : Int) + 2 * c + 35) = c := by
    rw [hV]; exact deriveChainId_eip155 _ hr c hc
  refine ⟨fun L key hs => ?_, hp, hcid, ?_⟩
  · refine ⟨_, SignTx_legacy L t c (by omega) key sig hs hlen, ?_, ?_, ?_⟩
    · simp only [Transaction.RawSignatureValues, hmod]
      push_cast; ring
    · simp only [Transaction.Protected, hmod, ← hV]
      exact hp
    · simp only [Transaction.ChainId, hmod, ← hV]
      exact hcid
  · have h8 : (sig.getD 64 0 : Int) + 2 * c + 35 - (NewEIP155Signer (some c)).chainIdMul - 8
        = (sig.getD 64 0 : Int) + 27 := by
      simp only [NewEIP155Signer, Option.getD_some]
      ring
    rw [h8]
    exact (recovery_byte _ hr).2

/-- C19 for the chains 1, 137 and 10, with the raw recovery ids 0, 1 and 0. -/
theorem eip155_v_roundtrip_witness :
    (isProtectedV (((0 : Nat) : Int) + 2 * 1 + 35) = true ∧
      deriveChainId (((0 : Nat) : Int) + 2 * 1 + 35) = 1 ∧
      recoveryByte (((0 : Nat) : Int) + 2 * 1 + 35 - (NewEIP155Signer (some 1)).chainIdMul - 8)
        = 0) ∧
    (isProtectedV (((1 : Nat) : Int) + 2 * 137 + 35) = true ∧
      deriveChainId (((1 : Nat) : Int) + 2 * 137 + 35) = 137 ∧
      recoveryByte
        (((1 : Nat) : Int) + 2 * 137 + 35 - (NewEIP155Signer (some 137)).chainIdMul - 8) = 1) ∧
    (isProtectedV (((0 : Nat) : Int) + 2 * 10 + 35) = true ∧
      deriveChainId (((0 : Nat) : Int) + 2 * 10 + 35) = 10 ∧
      recoveryByte
        (((0 : Nat) : Int) + 2 * 10 + 35 - (NewEIP155Signer (some 10)).chainIdMul - 8) = 0) :=
  ⟨(eip155_v_roundtrip (default : LegacyTx) 1 (by decide) (List.replicate 64 7 ++ [0]) 0
      (by decide) (by decide) (by decide)).2,
   (eip155_v_roundtrip (default : LegacyTx) 137 (by decide) (List.replicate 64 7 ++ [1]) 1
      (by decide) (by decide) (by decide)).2,
   (eip155_v_roundtrip (default : LegacyTx) 10 (by decide) (List.replicate 64 7 ++ [0]) 0
      (by decide) (by decide) (by decide)).2⟩


/-! ## The payload -/

theorem buildTransaction_Data (txData : String) (txMap : Option JSONObject) (chainID : Int)
    (to_ : String) :
    (buildTransaction txData txMap chainID to_).Data = txPayload txData txMap := by
  unfold buildTransaction
  split <;> rfl

theorem fromHexChar_ascii (c : Char) (h : (fromHexChar c).isSome = true) :
    c.toNat ≤ 102 ∧ c ≠ 'x' ∧ c ≠ 'X' := by
  unfold fromHexChar at h
  refine ⟨?_, ?_, ?_⟩
  · split at h
    · omega
    · split at h
      · omega
      · split at h
        · omega
        · cases h
  · rintro rfl; simp at h
  · rintro rfl; simp at h

theorem utf8Size_ascii (c : Char) (h : c.toNat ≤ 127) : c.utf8Size = 1 := by
  have h1 : c.val ≤ UInt32.ofNatCore 127 (by decide) := by
    show c.val.toNat ≤ 127
    exact h
  unfold Char.utf8Size
  dsimp only
  rw [if_pos h1]

theorem utf8ByteSize_ascii (cs : List Char) (h : ∀ c ∈ cs, c.toNat ≤ 127) :
    String.utf8ByteSize ⟨cs⟩ = cs.length := by
  show String.utf8ByteSize.go cs = cs.length
  induction cs with
  | nil => rfl
  | cons c cs ih =>
    show String.utf8ByteSize.go cs + c.utf8Size = (c :: cs).length
    rw [ih (fun d hd => h d (List.mem_cons_of_mem _ hd)),
      utf8Size_ascii c (h c (List.mem_cons_self _ _))]
    rfl

theorem hexPairs_decode_aux : ∀ (n : Nat) (cs : List Char) (bs : Bytes), cs.length ≤ n →
    hexPairs cs = some bs →
    hexDecodePrefix cs = bs ∧ cs.length % 2 = 0 ∧
    ∀ c ∈ cs, (fromHexChar c).isSome = true := by
  intro n
  induction n with
  | zero =>
    intro cs bs hn h
    cases cs with
    | nil =>
      simp only [hexPairs, Option.some.injEq] at h
      subst h
      exact ⟨rfl, rfl, by simp⟩
    | cons a t => simp at hn
  | succ n ih =>
    intro cs bs hn h
    match cs, hn, h with
    | [], _, h =>
      simp only [hexPairs, Option.some.injEq] at h
      subst h
      exact ⟨rfl, rfl, by simp⟩
    | [a], _, h => simp [hexPairs] at h
    | a :: b :: rest, hn, h =>
      unfold hexPairs at h
      cases ha : fromHexChar a with
      | none => simp [ha] at h
      | some x =>
        cases hb : fromHexChar b with
        | none => simp [ha, hb] at h
        | some y =>
          cases hr : hexPairs rest with
          | none => simp [ha, hb, hr] at h
          | some rs =>
            simp only [ha, hb, hr, Option.some.injEq] at h
            subst h
            obtain ⟨h1, h2, h3⟩ := ih rest rs (by simp only [List.length_cons] at hn; omega) hr
            refine ⟨by simp only [hexDecodePrefix, ha, hb, h1], by
              simp only [List.length_cons]; omega, ?_⟩
            intro c hc
            simp only [List.mem_cons] at hc
            rcases hc with rfl | rfl | hc
            · rw [ha]; rfl
            · rw [hb]; rfl
            · exact h3 c hc

/-- A string of hex digit pairs is decoded in full, and all its characters are hex
digits. -/
theorem hexPairs_decode (cs : List Char) (bs : Bytes) (h : hexPairs cs = some bs) :
    hexDecodePrefix cs = bs ∧ cs.length % 2 = 0 ∧
    ∀ c ∈ cs, (fromHexChar c).isSome = true :=
  hexPairs_decode_aux cs.length cs bs le_rfl h

theorem FromHex_hexPairs (h : String) (bs : Bytes) (hh : hexPairs h.data = some bs) :
    FromHex h = bs ∧ FromHex ("0x" ++ h) = bs := by
  obtain ⟨h1, h2, h3⟩ := hexPairs_decode h.data bs hh
  have hascii : ∀ c ∈ h.data, c.toNat ≤ 127 := fun c hc => by
    have := (fromHexChar_ascii c (h3 c hc)).1
    omega
  have hsize : h.utf8ByteSize % 2 = 0 := by
    have : h.utf8ByteSize = h.data.length := utf8ByteSize_ascii h.data hascii
    rw [this]; exact h2
  have hno : has0xPrefix h = false := by
    unfold has0xPrefix
    cases hd : h.data with
    | nil => rfl
    | cons a t =>
      cases t with
      | nil => rfl
      | cons b t =>
        have hb := fromHexChar_ascii b (h3 b (by rw [hd]; simp))
        simp [hb.2.1, hb.2.2]
  constructor
  · unfold FromHex
    simp only [hno, Bool.false_eq_true, if_false, hsize, Nat.zero_ne_one, h1]
  · have hd : ("0x" ++ h).data = '0' :: 'x' :: h.data := by
      rw [String.data_append]; rfl
    have hyes : has0xPrefix ("0x" ++ h) = true := by
      unfold has0xPrefix; rw [hd]; rfl
    have hstrip : (⟨("0x" ++ h).data.drop 2⟩ : String) = h := by
      rw [hd]; rfl
    unfold FromHex
    simp only [hyes, if_true, hstrip, hsize, Nat.zero_ne_one, if_false, h1]

theorem fromHexChar_hexDigit : ∀ n, n < 16 → fromHexChar (hexDigit n) = some n := by
  decide

theorem hexPairs_encode (b : Bytes) (hb : ∀ x ∈ b, x < 256) :
    hexPairs (hexEncodeToString b).data = some b := by
  show hexPairs (b.flatMap (fun x => [hexDigit (x / 16 % 16), hexDigit (x % 16)])) = some b
  induction b with
  | nil => rfl
  | cons x xs ih =>
    have hx : x < 256 := hb x (List.mem_cons_self _ _)
    have hval : 16 * (x / 16 % 16) + x % 16 = x := by omega
    show hexPairs (hexDigit (x / 16 % 16) :: hexDigit (x % 16) ::
      xs.flatMap (fun x => [hexDigit (x / 16 % 16), hexDigit (x % 16)])) = some (x :: xs)
    rw [hexPairs, fromHexChar_hexDigit _ (Nat.mod_lt _ (by decide : 0 < 16)),
      fromHexChar_hexDigit _ (Nat.mod_lt _ (by decide : 0 < 16)),
      ih (fun y hy => hb y (List.mem_cons_of_mem _ hy))]
    simp only [hval]

/-- C20: when the transaction data is no JSON, `signTransaction` uses it as the
payload: the data of the built transaction is `FromHex` of the input, which for every
string `h` of hex digit pairs, with or without a `0x` in front, is the bytes `h`
denotes (so the bytes `b` for the hex of `b`); when the data is a JSON object, the
payload is `FromHex` of its non-empty `data` string, and empty when that key is absent
or its string is empty. -/
theorem payload_from_data (chainID : Int) (to_ : String) :
    (∀ txData, (buildTransaction txData none chainID to_).Data = FromHex txData) ∧
    (∀ (h : String) (bs : Bytes), hexPairs h.data = some bs →
      (buildTransaction h none chainID to_).Data = bs ∧
      (buildTransaction ("0x" ++ h) none chainID to_).Data = bs) ∧
    (∀ b : Bytes, (∀ x ∈ b, x < 256) →
      (buildTransaction (hexEncodeToString b) none chainID to_).Data = b ∧
      (buildTransaction ("0x" ++ hexEncodeToString b) none chainID to_).Data = b) ∧
    (∀ (txData : String) (m : JSONObject),
      (∀ s, m.lookup "data" = some (.string s) → s ≠ "" →
        (buildTransaction txData (some m) chainID to_).Data = FromHex s) ∧
      (m.lookup "data" = none → (buildTransaction txData (some m) chainID to_).Data = []) ∧
      (m.lookup "data" = some (.string "") →
        (buildTransaction txData (some m) chainID to_).Data = [])) := by
  refine ⟨fun txData => ?_, fun h bs hh => ?_, fun b hb => ?_, fun txData m => ⟨?_, ?_, ?_⟩⟩
  · rw [buildTransaction_Data]; rfl
  · rw [buildTransaction_Data, buildTransaction_Data]
    exact FromHex_hexPairs h bs hh
  · rw [buildTransaction_Data, buildTransaction_Data]
    exact FromHex_hexPairs _ b (hexPairs_encode b hb)
  · intro s hs hne
    rw [buildTransaction_Data]
    simp [txPayload, JSONObject.index, hs, JSONValue.asString, hne]
  · intro hs
    rw [buildTransaction_Data]
    simp [txPayload, JSONObject.index, hs, JSONValue.asString]
  · intro hs
    rw [buildTransaction_Data]
    simp [txPayload, JSONObject.index, hs, JSONValue.asString]

/-- C20 on the raw data `a9059cbb` and `0xa9059cbb`, and on JSON objects with a
`data` member and without one. -/
theorem payload_from_data_witness :
    ((buildTransaction "a9059cbb" none 1 addrOne).Data = [0xa9, 0x05, 0x9c, 0xbb] ∧
      (buildTransaction ("0x" ++ "a9059cbb") none 1 addrOne).Data = [0xa9, 0x05, 0x9c, 0xbb]) ∧
    (buildTransaction "" (some [("data", .string "0xa9059cbb")]) 1 addrOne).Data
      = FromHex "0xa9059cbb" ∧
    (buildTransaction "" (some []) 1 addrOne).Data = [] :=
  have h := payload_from_data 1 addrOne
  ⟨h.2.1 "a9059cbb" [0xa9, 0x05, 0x9c, 0xbb] (by decide),
   (h.2.2.2 "" [("data", .string "0xa9059cbb")]).1 "0xa9059cbb" rfl (by decide),
   (h.2.2.2 "" []).2.1 rfl⟩


/-! ## Fields that do not parse -/

theorem parseUintLoop_errSyntax (base : Nat) (cs : List Char) (n : Nat)
    (h : (parseUintLoop base n cs).2 = some .errSyntax) : (parseUintLoop base n cs).1 = 0 := by
  induction cs generalizing n with
  | nil => simp [parseUintLoop] at h
  | cons c cs ih =>
    unfold parseUintLoop at h ⊢
    cases hd : strconvDigit c with
    | none => rfl
    | some d =>
      simp only [hd] at h ⊢
      split
      · rfl
      · rename_i h1
        rw [if_neg h1] at h
        split
        · rename_i h2
          rw [if_pos h2] at h
          cases h
        · rename_i h2
          rw [if_neg h2] at h
          split
          · rename_i h3
            rw [if_pos h3] at h
            cases h
          · rename_i h3
            rw [if_neg h3] at h
            exact ih _ h

theorem strconvParseUint_errSyntax (s : String) (base : Nat)
    (h : (strconvParseUint s base).2 = some .errSyntax) : (strconvParseUint s base).1 = 0 := by
  unfold strconvParseUint at h ⊢
  split
  · rfl
  · rename_i hne
    rw [if_neg hne] at h
    exact parseUintLoop_errSyntax base _ 0 h

theorem buildTransaction_legacy (txData : String) (txMap : Option JSONObject) (c : Int)
    (to_ : String) (hleg : hasFeeMarketField txMap = false) :
    buildTransaction txData txMap c to_ = .legacyTx
      { Nonce := txNonce txMap, GasPrice := (txGasPrice txMap).getD 0,
        Gas := txGasLimit txMap, To := some (HexToAddress to_), Value := txValue txMap,
        Data := txPayload txData txMap, V := 0, R := 0, S := 0 } := by
  unfold buildTransaction
  simp [hleg, NewTransaction]

/-- C17 (amended): a failure to parse gasLimit, value, nonce or gasPrice is not
terminal in `signTransaction`.  For every valid key and every legacy JSON transaction
input with a chain id that parses to `c >= 1` and no negative value or gas price, the
call returns a signed transaction whether or not those fields parse; a field that does
not parse falls back: gas limit 300000 and nonce 0 on a syntax error of `ParseUint`,
value 0 when `SetString` fails, gas price 0 when the member is no string or
`SetString` fails. -/
theorem parse_failure_not_terminal (L : Lib) (hL : L.Laws) (key : PrivateKey)
    (hk : ValidKey L key) (txData : String) (m : JSONObject) (chainIDStr to_ : String)
    (c : Int) (hparse : parseChainID chainIDStr = .ok c) (hc : 1 ≤ c)
    (hleg : hasFeeMarketField (some m) = false) (hval : 0 ≤ txValue (some m))
    (hgp : 0 ≤ (txGasPrice (some m)).getD 0) :
    (∃ s, signTransaction L txData (some m) chainIDStr to_ key = .ok s) ∧
    (∀ s, m.index "gasLimit" = .string s →
      (strconvParseUint (stringsTrimPrefix s "0x") 16).2 = some .errSyntax →
      (buildTransaction txData (some m) c to_).Gas = 300000) ∧
    (∀ s, m.index "nonce" = .string s →
      (strconvParseUint (stringsTrimPrefix s "0x") 16).2 = some .errSyntax →
      (buildTransaction txData (some m) c to_).Nonce = 0) ∧
    (∀ s, m.index "value" = .string s → bigSetString (stringsTrimPrefix s "0x") 16 = none →
      (buildTransaction txData (some m) c to_).Value = 0) ∧
    ((m.index "gasPrice").nonNil = true → feeField m "gasPrice" = none →
      (buildTransaction txData (some m) c to_).GasPrice = 0) := by
  have hbuild := buildTransaction_legacy txData (some m) c to_ hleg
  refine ⟨?_, fun s hs he => ?_, fun s hs he => ?_, fun s hs he => ?_, fun hn hf => ?_⟩
  · obtain ⟨signedTx, b, _, _, hsv⟩ := signAndVerify_legacy L hL key hk
      { Nonce := txNonce (some m), GasPrice := (txGasPrice (some m)).getD 0,
        Gas := txGasLimit (some m), To := some (HexToAddress to_), Value := txValue (some m),
        Data := txPayload txData (some m), V := 0, R := 0, S := 0 } c hc hgp hval
    refine ⟨"0x" ++ hexEncodeToString b, ?_⟩
    unfold signTransaction
    rw [hparse]
    simp only [hbuild, hsv]
  · rw [hbuild]
    simp only [Transaction.Gas, txGasLimit, hs, JSONValue.asString,
      strconvParseUint_errSyntax _ _ he]
    rfl
  · rw [hbuild]
    simp only [Transaction.Nonce, txNonce, hs, JSONValue.asString,
      strconvParseUint_errSyntax _ _ he]
    split <;> rfl
  · rw [hbuild]
    simp only [Transaction.Value, txValue, hs, JSONValue.asString, he]
    split <;> rfl
  · rw [hbuild]
    simp only [Transaction.GasPrice, txGasPrice, hn, if_true, hf]
    rfl

/-- C17 (amended) on a JSON object with nonce `zz`, gas limit `0xzz`, value `0x` and a
gas price given as a number, chain id 1, with the toy primitives. -/
theorem parse_failure_not_terminal_witness :
    (∃ s, signTransaction toyLib "" (some [("nonce", .string "zz"), ("gasPrice", .number "5"),
        ("gasLimit", .string "0xzz"), ("value", .string "0x")]) "1" addrOne toyKey = .ok s) ∧
    (buildTransaction "" (some [("nonce", .string "zz"), ("gasPrice", .number "5"),
        ("gasLimit", .string "0xzz"), ("value", .string "0x")]) 1 addrOne).Gas = 300000 ∧
    (buildTransaction "" (some [("nonce", .string "zz"), ("gasPrice", .number "5"),
        ("gasLimit", .string "0xzz"), ("value", .string "0x")]) 1 addrOne).Nonce = 0 ∧
    (buildTransaction "" (some [("nonce", .string "zz"), ("gasPrice", .number "5"),
        ("gasLimit", .string "0xzz"), ("value", .string "0x")]) 1 addrOne).Value = 0 ∧
    (buildTransaction "" (some [("nonce", .string "zz"), ("gasPrice", .number "5"),
        ("gasLimit", .string "0xzz"), ("value", .string "0x")]) 1 addrOne).GasPrice = 0 :=
  have h := parse_failure_not_terminal toyLib toyLib_laws toyKey toyKey_valid ""
    [("nonce", .string "zz"), ("gasPrice", .number "5"), ("gasLimit", .string "0xzz"),
      ("value", .string "0x")] "1" addrOne 1 (by decide) (by decide) (by decide) (by decide)
    (by decide)
  ⟨h.1, h.2.1 "0xzz" rfl (by decide), h.2.2.1 "zz" rfl (by decide),
    h.2.2.2.1 "0x" rfl (by decide), h.2.2.2.2 (by decide) (by decide)⟩

/-- C17 as stated fails on the JSON input with nonce `zz` and a gas price given as a
number (chain id 1, a valid key, primitives that meet the contract): the call returns
a signed transaction, with nonce 0 and gas price 0, and no error. -/
theorem signTransaction_bad_nonce_succeeds :
    toyLib.Laws ∧ ValidKey toyLib toyKey ∧
    signTransaction toyLib "\x7b\"nonce\":\"zz\",\"gasPrice\":5\x7d"
      (some [("nonce", .string "zz"), ("gasPrice", .number "5")]) "1" addrOne toyKey
      = .ok "0xe08080830493e09400000000000000000000000000000000000000018080250801" :=
  ⟨toyLib_laws, toyKey_valid, by decide⟩

/-! ## The two copies of the typed-data signer -/

/-- C24: the two copies of the structured-data signer are duplicates.  For every
private key, every operation and every outcome of parsing `op.Data` as typed data,
`orby.SignTypedData(op)` run with that key returns the same string and error outcome
as the top-level `signTypedData(op.Data, key)`. -/
theorem signTypedData_copies_agree (L : Lib) (op : Orby.Operation)
    (parsed : Option TypedData) (key : PrivateKey) :
    Orby.SignTypedData L op parsed key = signTypedData L op.Data parsed key ∧
    returnPair (Orby.SignTypedData L op parsed key)
      = returnPair (signTypedData L op.Data parsed key) := by
  have h : Orby.SignTypedData L op parsed key = signTypedData L op.Data parsed key := by
    cases parsed with
    | none => rfl
    | some typedData => rw [signTypedData_steps, nested_SignTypedData_steps]
  exact ⟨h, by rw [h]⟩

/-! ## The frame of `AddEIP712DomainTypeToTypedData` -/

theorem lookup_set_other (m : Types) (key other : String) (v : List TypeField)
    (h : other ≠ key) : (m.set key v).get other = m.get other := by
  unfold Types.set Types.get
  have h1 : (other == key) = false := by simpa using h
  rw [List.lookup_cons, h1]
  induction m with
  | nil => rfl
  | cons e m ih =>
    obtain ⟨k, w⟩ := e
    by_cases hk : k = key
    · subst hk
      have h2 : (other == k) = false := h1
      simp only [List.filter_cons, ne_eq, not_true_eq_false, decide_False, List.lookup_cons, h2]
      simpa using ih
    · rw [List.filter_cons, if_pos (by simpa using hk)]
      simp only [List.lookup_cons]
      cases other == k
      · simpa using ih
      · rfl

/-- C25: `AddEIP712DomainTypeToTypedData` (either copy) changes nothing but the
`EIP712Domain` schema entry.  Reading any other key of `Types` gives the same result
after the call as before (a nil schema reads as an empty one), and the Domain,
PrimaryType and Message are the same. -/
theorem addEIP712Domain_frame (typedData : TypedData) (key : String)
    (h : key ≠ "EIP712Domain") :
    (((addEIP712DomainTypeToTypedData typedData).Types.getD []).get key
        = (typedData.Types.getD []).get key ∧
      (addEIP712DomainTypeToTypedData typedData).Domain = typedData.Domain ∧
      (addEIP712DomainTypeToTypedData typedData).PrimaryType = typedData.PrimaryType ∧
      (addEIP712DomainTypeToTypedData typedData).Message = typedData.Message) ∧
    (((Orby.AddEIP712DomainTypeToTypedData typedData).Types.getD []).get key
        = (typedData.Types.getD []).get key ∧
      (Orby.AddEIP712DomainTypeToTypedData typedData).Domain = typedData.Domain ∧
      (Orby.AddEIP712DomainTypeToTypedData typedData).PrimaryType = typedData.PrimaryType ∧
      (Orby.AddEIP712DomainTypeToTypedData typedData).Message = typedData.Message) := by
  have h1 : ((addEIP712DomainTypeToTypedData typedData).Types.getD []).get key
      = (typedData.Types.getD []).get key := by
    unfold addEIP712DomainTypeToTypedData
    cases ht : typedData.Types with
    | none => simp only [Option.getD_some, Option.getD_none]; exact lookup_set_other _ _ _ _ h
    | some m => simp only [Option.getD_some]; exact lookup_set_other _ _ _ _ h
  refine ⟨⟨h1, rfl, rfl, rfl⟩, ?_, rfl, rfl, rfl⟩
  rw [addEIP712Domain_copies_agree]
  exact h1

theorem addEIP712Domain_frame_witness :
    ((addEIP712DomainTypeToTypedData customDomainTypedData).Types.getD []).get "Mail"
      = some [{ Name := "contents", Type_ := "string" }] :=
  ((addEIP712Domain_frame customDomainTypedData "Mail" (by decide)).1.1).trans rfl

/-! ## Chain-id formatting -/

theorem decimalChar (k : Nat) (h : k < 10) :
    (Char.ofNat (48 + k)).toNat = 48 + k ∧ isDecimalDigit (Char.ofNat (48 + k)) = true := by
  interval_cases k <;> exact ⟨by decide, by decide⟩

theorem fmtDecimalDigits_buf (fuel u : Nat) (buf : List Char) :
    fmtDecimalDigits fuel u buf = fmtDecimalDigits fuel u [] ++ buf := by
  induction fuel generalizing u buf with
  | zero => rfl
  | succ fuel ih =>
    unfold fmtDecimalDigits
    split
    · rw [ih (u / 10) (_ :: buf), ih (u / 10) [_]]
      simp
    · rfl

theorem fmtDecimalDigits_spec (fuel u : Nat) (h : u < fuel) :
    (fmtDecimalDigits fuel u []).all isDecimalDigit = true ∧
    fmtDecimalDigits fuel u [] ≠ [] ∧
    (fmtDecimalDigits fuel u []).foldl (fun a c => a * 10 + (c.toNat - 48)) 0 = u ∧
    (u ≠ 0 → (fmtDecimalDigits fuel u []).head? ≠ some '0') := by
  induction fuel generalizing u with
  | zero => omega
  | succ fuel ih =>
    unfold fmtDecimalDigits
    by_cases hu : u ≥ 10
    · rw [if_pos hu, fmtDecimalDigits_buf]
      obtain ⟨h1, h2, h3, h4⟩ := ih (u / 10) (by omega)
      obtain ⟨c1, c2⟩ := decimalChar (u % 10) (Nat.mod_lt _ (by norm_num))
      refine ⟨?_, ?_, ?_, ?_⟩
      · simp [h1, c2]
      · simp
      · rw [List.foldl_append, h3]
        simp only [List.foldl_cons, List.foldl_nil, c1]
        omega
      · intro _
        have h5 := h4 (by omega)
        cases hds : fmtDecimalDigits fuel (u / 10) [] with
        | nil => exact absurd hds h2
        | cons d ds =>
          rw [hds] at h5
          simpa using h5
    · rw [if_neg hu]
      obtain ⟨c1, c2⟩ := decimalChar u (by omega)
      refine ⟨by simp [c2], by simp, ?_, ?_⟩
      · simp only [List.foldl_cons, List.foldl_nil, c1]
        omega
      · intro hne
        simp only [List.head?_cons, ne_eq, Option.some.injEq]
        intro hc
        have : (Char.ofNat (48 + u)).toNat = ('0' : Char).toNat := by rw [hc]
        rw [c1] at this
        have h0 : ('0' : Char).toNat = 48 := by decide
        omega

theorem fmtDecimal_digits (c : Int) :
    isDecimal ⟨fmtDecimalDigits (c.natAbs + 1) c.natAbs []⟩ = true ∧
    decimalValue ⟨fmtDecimalDigits (c.natAbs + 1) c.natAbs []⟩ = c.natAbs ∧
    (c ≠ 0 → (fmtDecimalDigits (c.natAbs + 1) c.natAbs []).head? ≠ some '0') := by
  obtain ⟨h1, h2, h3, h4⟩ := fmtDecimalDigits_spec (c.natAbs + 1) c.natAbs (by omega)
  refine ⟨?_, h3, ?_⟩
  · unfold isDecimal
    simp only [h1, Bool.and_true, Bool.not_eq_true', List.isEmpty_eq_false]
    exact h2
  · intro hc
    exact h4 (by omega)

theorem fmtDecimal_split (c : Int) :
    fmtDecimal c = (if c < 0 then "-" else "")
      ++ (⟨fmtDecimalDigits (c.natAbs + 1) c.natAbs []⟩ : String) := by
  unfold fmtDecimal
  split <;> rfl

theorem bigSetString_fmtDecimal (c : Int) : bigSetString (fmtDecimal c) 10 = some c := by
  obtain ⟨h1, h2, _⟩ := fmtDecimal_digits c
  by_cases hc : c < 0
  · have hd : (fmtDecimal c).data = '-' :: fmtDecimalDigits (c.natAbs + 1) c.natAbs [] := by
      unfold fmtDecimal; simp [hc]
    unfold isDecimal at h1
    simp only [Bool.and_eq_true, Bool.not_eq_true', List.isEmpty_eq_false] at h1
    unfold bigSetString
    rw [hd]
    simp only [if_true]
    unfold bigScanMantissa
    have hne : (fmtDecimalDigits (c.natAbs + 1) c.natAbs []).isEmpty = false := by
      cases hds : fmtDecimalDigits (c.natAbs + 1) c.natAbs [] with
      | nil => simp [hds] at h1
      | cons d ds => rfl
    rw [hne]
    simp only [Bool.false_eq_true, if_false]
    rw [bigScanDigits_decimal _ _ h1.2]
    unfold decimalValue at h2
    simp only at h2
    rw [h2]
    simp only [Option.map_some']
    congr 1
    omega
  · have hd : fmtDecimal c = ⟨fmtDecimalDigits (c.natAbs + 1) c.natAbs []⟩ := by
      unfold fmtDecimal; simp [hc]
    rw [hd, bigSetString_decimal _ h1, h2]
    congr 1
    omega

/-- C22: `GetExternalChainIdFromInternalChainId` (either copy) returns the empty
string for 0 and, for every other chain id `c`, the string `eip155-` followed by the
decimal rendering of `c`: a minus sign when `c` is negative, then the decimal digits
of the magnitude of `c` with no leading zero. -/
theorem externalChainId_format (c : Int) :
    (GetExternalChainIdFromInternalChainId 0 = "" ∧
      Orby.GetExternalChainIdFromInternalChainId 0 = "") ∧
    (c ≠ 0 → ∃ digits : String,
      isDecimal digits = true ∧ decimalValue digits = c.natAbs ∧
      digits.data.head? ≠ some '0' ∧
      GetExternalChainIdFromInternalChainId c
        = "eip155-" ++ ((if c < 0 then "-" else "") ++ digits) ∧
      Orby.GetExternalChainIdFromInternalChainId c
        = "eip155-" ++ ((if c < 0 then "-" else "") ++ digits)) := by
  refine ⟨⟨rfl, rfl⟩, fun hc => ?_⟩
  obtain ⟨h1, h2, h3⟩ := fmtDecimal_digits c
  refine ⟨⟨fmtDecimalDigits (c.natAbs + 1) c.natAbs []⟩, h1, h2, h3 hc, ?_, ?_⟩
  · unfold GetExternalChainIdFromInternalChainId
    rw [if_neg hc, fmtDecimal_split]
  · unfold Orby.GetExternalChainIdFromInternalChainId
    rw [if_neg hc, fmtDecimal_split]

theorem externalChainId_format_witness :
    ∃ digits : String,
      isDecimal digits = true ∧ decimalValue digits = (42161 : Int).natAbs ∧
      digits.data.head? ≠ some '0' ∧
      GetExternalChainIdFromInternalChainId 42161
        = "eip155-" ++ ((if (42161 : Int) < 0 then "-" else "") ++ digits) ∧
      Orby.GetExternalChainIdFromInternalChainId 42161
        = "eip155-" ++ ((if (42161 : Int) < 0 then "-" else "") ++ digits) :=
  (externalChainId_format 42161).2 (by decide)

/-- C26: external chain-id formatting and the chain-id parsing of the top-level
`signTransaction` round-trip.  For every non-zero `c`, stripping `eip155-` from
`GetExternalChainIdFromInternalChainId(c)` and parsing the rest in base 10 succeeds
and yields `c`; for 0 the formatted string is empty and parsing it fails with the
invalid chain ID error, which is what `signTransaction` then returns. -/
theorem chainId_roundtrip (c : Int) (L : Lib) (txData : String) (txMap : Option JSONObject)
    (to_ : String) (key : PrivateKey) :
    (c ≠ 0 →
      bigSetString (stringsTrimPrefix (GetExternalChainIdFromInternalChainId c) "eip155-") 10
        = some c ∧
      parseChainID (GetExternalChainIdFromInternalChainId c) = .ok c) ∧
    GetExternalChainIdFromInternalChainId 0 = "" ∧
    parseChainID (GetExternalChainIdFromInternalChainId 0) = .error (.invalidChainID "") ∧
    signTransaction L txData txMap (GetExternalChainIdFromInternalChainId 0) to_ key
      = .error (.invalidChainID "") := by
  refine ⟨fun hc => ?_, rfl, rfl, rfl⟩
  have h : bigSetString
      (stringsTrimPrefix (GetExternalChainIdFromInternalChainId c) "eip155-") 10 = some c := by
    unfold GetExternalChainIdFromInternalChainId
    rw [if_neg hc, trimPrefix_tagged, bigSetString_fmtDecimal]
  refine ⟨h, ?_⟩
  unfold parseChainID
  simp only [h]

theorem chainId_roundtrip_witness :
    parseChainID (GetExternalChainIdFromInternalChainId (-5)) = .ok (-5) :=
  ((chainId_roundtrip (-5) toyLib "" none "" toyKey).1 (by decide)).2

/-! ## Hex quantities -/

theorem hexChar_digits (c : Char) (d : Nat) (h : fromHexChar c = some d) :
    d < 16 ∧ strconvDigit c = some d ∧ bigDigit c = d := by
  unfold fromHexChar at h
  unfold strconvDigit bigDigit
  split_ifs at h with h1 h2 h3
  · simp only [Option.some.injEq] at h
    subst h
    refine ⟨by omega, ?_, ?_⟩
    · rw [if_pos h1]
    · rw [if_pos h1]
  · simp only [Option.some.injEq] at h
    subst h
    have h4 : 97 ≤ c.toNat ∧ c.toNat ≤ 122 := by omega
    refine ⟨by omega, ?_, ?_⟩
    · rw [if_neg h1, if_pos h4]
    · rw [if_neg h1, if_pos h4]
  · simp only [Option.some.injEq] at h
    subst h
    have h4 : ¬ (97 ≤ c.toNat ∧ c.toNat ≤ 122) := by omega
    have h5 : 65 ≤ c.toNat ∧ c.toNat ≤ 90 := by omega
    refine ⟨by omega, ?_, ?_⟩
    · rw [if_neg h1, if_neg h4, if_pos h5]
    · rw [if_neg h1, if_neg h4, if_pos h5]

theorem nonHex_strconv (c : Char) (h : fromHexChar c = none) :
    strconvDigit c = none ∨ ∃ d, strconvDigit c = some d ∧ d ≥ 16 := by
  unfold fromHexChar at h
  unfold strconvDigit
  split_ifs at h with h1 h2 h3
  rw [if_neg h1]
  by_cases h4 : 97 ≤ c.toNat ∧ c.toNat ≤ 122
  · rw [if_pos h4]
    exact Or.inr ⟨_, rfl, by omega⟩
  · rw [if_neg h4]
    by_cases h5 : 65 ≤ c.toNat ∧ c.toNat ≤ 90
    · rw [if_pos h5]
      exact Or.inr ⟨_, rfl, by omega⟩
    · rw [if_neg h5]
      exact Or.inl rfl

theorem hexValueFrom_ge (cs : List Char) (n : Nat) : n ≤ hexValueFrom n cs := by
  induction cs generalizing n with
  | nil => exact Nat.le_refl _
  | cons c cs ih =>
    have h := ih (n * 16 + (fromHexChar c).getD 0)
    have h2 : hexValueFrom n (c :: cs) = hexValueFrom (n * 16 + (fromHexChar c).getD 0) cs := rfl
    rw [h2]
    omega

theorem maxUint64_eq : maxUint64 = 18446744073709551615 := by
  unfold maxUint64; norm_num

theorem parseUintLoop_hex (cs : List Char) (n : Nat) (hn : n ≤ maxUint64) :
    parseUintLoop 16 n cs =
      if maxUint64 < hexValueFrom n (cs.takeWhile isHexDigit) then
        (maxUint64, some .errRange)
      else if cs.all isHexDigit then (hexValueFrom n cs, none)
      else (0, some .errSyntax) := by
  induction cs generalizing n with
  | nil =>
    have h1 : ¬ (maxUint64 < n) := by omega
    simp [parseUintLoop, hexValueFrom, h1]
  | cons c cs ih =>
    cases hc : fromHexChar c with
    | none =>
      have hx : isHexDigit c = false := by simp [isHexDigit, hc]
      have h1 : ¬ (maxUint64 < n) := by omega
      simp only [List.takeWhile_cons, hx, Bool.false_eq_true, if_false, hexValueFrom,
        List.foldl_nil, h1, List.all_cons, Bool.false_and]
      unfold parseUintLoop
      rcases nonHex_strconv c hc with h | ⟨d, h, hd⟩
      · rw [h]
      · rw [h]
        simp only [hd, if_true]
    | some d =>
      obtain ⟨hd, hs, _⟩ := hexChar_digits c d hc
      have hx : isHexDigit c = true := by simp [isHexDigit, hc]
      have hv : ∀ l, hexValueFrom n (c :: l) = hexValueFrom (n * 16 + d) l := by
        intro l
        simp [hexValueFrom, hc]
      simp only [List.takeWhile_cons, hx, if_true, hv, List.all_cons, Bool.true_and]
      unfold parseUintLoop
      rw [hs]
      simp only
      rw [if_neg (by omega)]
      have hge := hexValueFrom_ge (cs.takeWhile isHexDigit) (n * 16 + d)
      rw [maxUint64_eq] at hn ⊢
      by_cases h1 : n ≥ 18446744073709551615 / 16 + 1
      · rw [if_pos h1, if_pos (by omega)]
      · rw [if_neg h1]
        by_cases h2 : n * 16 + d > 18446744073709551615
        · rw [if_pos h2, if_pos (by omega)]
        · rw [if_neg h2]
          have := ih (n * 16 + d) (by rw [maxUint64_eq]; omega)
          rw [maxUint64_eq] at this
          exact this

theorem hexDigitsOf_trim (s : String) : (stringsTrimPrefix s "0x").data = hexDigitsOf s := by
  unfold stringsTrimPrefix hexDigitsOf
  have h2 : ("0x" : String).data = ['0', 'x'] := rfl
  rw [h2]
  rcases hs : s.data with _ | ⟨a, _ | ⟨b, rest⟩⟩
  · simp [List.isPrefixOf, hs]
  · by_cases ha : a = '0'
    · subst ha; simp [List.isPrefixOf, hs]
    · simp [List.isPrefixOf, hs]
  · by_cases ha : a = '0'
    · subst ha
      by_cases hb : b = 'x'
      · subst hb; simp [List.isPrefixOf]
      · have hb2 : ¬ ('x' = b) := fun h => hb h.symm
        simp [List.isPrefixOf, hb, hb2, hs]
    · have ha2 : ¬ ('0' = a) := fun h => ha h.symm
      simp [List.isPrefixOf, ha, ha2, hs]

/-- The value `strconv.ParseUint` hands back for a hex quantity after
`strings.TrimPrefix(_, "0x")`. -/
theorem strconvParseUint_hex (s : String) :
    (strconvParseUint (stringsTrimPrefix s "0x") 16).1 =
      if maxUint64 < leadingHexValue s then maxUint64
      else if isValidHex s then hexValue s
      else 0 := by
  unfold strconvParseUint leadingHexValue isValidHex hexValue
  rw [hexDigitsOf_trim]
  by_cases he : hexDigitsOf s = []
  · rw [he]
    simp [hexValueFrom]
  · rw [if_neg he, parseUintLoop_hex _ 0 (Nat.zero_le _)]
    have h1 : (hexDigitsOf s).isEmpty = false := by
      cases h : hexDigitsOf s with
      | nil => exact absurd h he
      | cons a l => rfl
    rw [h1]
    simp only [Bool.not_false, Bool.true_and]
    split_ifs <;> rfl

theorem bigScanDigits_hex (cs : List Char) (acc : Nat) (h : cs.all isHexDigit = true) :
    bigScanDigits 16 acc cs = some (hexValueFrom acc cs) := by
  induction cs generalizing acc with
  | nil => rfl
  | cons c cs ih =>
    simp only [List.all_cons, Bool.and_eq_true] at h
    obtain ⟨hc, hcs⟩ := h
    unfold isHexDigit at hc
    obtain ⟨d, hd⟩ := Option.isSome_iff_exists.mp hc
    obtain ⟨h1, _, h3⟩ := hexChar_digits c d hd
    rw [bigScanDigits, h3, if_pos h1, ih _ hcs]
    simp [hexValueFrom, hd]

theorem bigSetString_hex (s : String) (h : isValidHex s = true) :
    bigSetString (stringsTrimPrefix s "0x") 16 = some (hexValue s : Int) := by
  unfold isValidHex at h
  simp only [Bool.and_eq_true, Bool.not_eq_true', List.isEmpty_eq_false] at h
  obtain ⟨hne, hall⟩ := h
  unfold bigSetString hexValue
  rw [hexDigitsOf_trim]
  cases hds : hexDigitsOf s with
  | nil => exact absurd hds hne
  | cons c cs =>
    rw [hds] at hall
    have hc : isHexDigit c = true := by
      simp only [List.all_cons, Bool.and_eq_true] at hall; exact hall.1
    have h1 : ¬ (c = '-') := by
      rintro rfl; revert hc; decide
    have h2 : ¬ (c = '+') := by
      rintro rfl; revert hc; decide
    simp only [h1, h2, if_false]
    unfold bigScanMantissa
    simp only [List.isEmpty_cons, Bool.false_eq_true, if_false]
    rw [bigScanDigits_hex _ _ hall]
    rfl

theorem isValidHex_ne_empty (s : String) (h : isValidHex s = true) : s ≠ "" := by
  rintro rfl
  revert h
  decide

theorem txNonce_string (m : JSONObject) (s : String) (h : m.index "nonce" = .string s) :
    txNonce (some m) =
      if maxUint64 < leadingHexValue s then maxUint64
      else if isValidHex s then hexValue s
      else 0 := by
  unfold txNonce
  simp only [h, JSONValue.asString]
  by_cases hs : s = ""
  · subst hs
    rw [if_neg (by simp)]
    decide
  · rw [if_pos hs, strconvParseUint_hex]

theorem txGasLimit_string (m : JSONObject) (s : String)
    (h : m.index "gasLimit" = .string s) :
    txGasLimit (some m) =
      if (if maxUint64 < leadingHexValue s then maxUint64
          else if isValidHex s then hexValue s else 0) > 0
      then (if maxUint64 < leadingHexValue s then maxUint64
          else if isValidHex s then hexValue s else 0)
      else 300000 := by
  unfold txGasLimit
  simp only [h, JSONValue.asString, strconvParseUint_hex]

theorem txValue_string (m : JSONObject) (s : String) (h : m.index "value" = .string s)
    (hv : isValidHex s = true) : txValue (some m) = (hexValue s : Int) := by
  unfold txValue
  simp only [h, JSONValue.asString]
  rw [if_pos (isValidHex_ne_empty s hv), bigSetString_hex s hv]

theorem buildTransaction_fields (txData : String) (txMap : Option JSONObject) (c : Int)
    (to_ : String) :
    (buildTransaction txData txMap c to_).Nonce = txNonce txMap ∧
    (buildTransaction txData txMap c to_).Gas = txGasLimit txMap ∧
    (buildTransaction txData txMap c to_).Value = txValue txMap := by
  unfold buildTransaction
  simp only
  split <;> exact ⟨rfl, rfl, rfl⟩

theorem leadingHexValue_valid (s : String) (h : isValidHex s = true) :
    leadingHexValue s = hexValue s := by
  unfold isValidHex at h
  simp only [Bool.and_eq_true] at h
  unfold leadingHexValue hexValue
  rw [List.takeWhile_eq_self_iff.mpr]
  intro x hx
  exact List.all_eq_true.mp h.2 x hx

/-! ## Fields that are present -/

/-- C21 as stated fails: a gas limit that is present as the valid hex string `0x0`
is not carried by the built transaction, which gets the default 300000 instead, and a
nonce that is present as the valid hex string of 2^64 is carried as 2^64 - 1. -/
theorem present_zero_gasLimit_defaulted :
    isValidHex "0x0" = true ∧ hexValue "0x0" = 0 ∧
    (buildTransaction "" (some [("gasLimit", .string "0x0")]) 1 addrOne).Gas = 300000 ∧
    isValidHex "0x10000000000000000" = true ∧
    hexValue "0x10000000000000000" = 18446744073709551616 ∧
    (buildTransaction "" (some [("nonce", .string "0x10000000000000000")]) 1 addrOne).Nonce
      = 18446744073709551615 := by
  refine ⟨by decide, by decide, by decide, by decide, by decide, by decide⟩

/-- C21 (amended): for every JSON transaction input, a value that is present as a
valid hex string is carried exactly by the built transaction, and so is a nonce that
is present as a valid hex string of a number up to 2^64 - 1 and a gas limit that is
present as a valid hex string of a number from 1 to 2^64 - 1.  For the scenario input
(value 0, gasLimit `0x5208`, gasPrice `0x3b9aca00`, nonce `0x5`, empty data, to
`0x00..01`) the transaction is the legacy transaction with nonce 5, gas limit 21000,
gas price 1000000000, value 0 and empty data. -/
theorem present_fields_extracted (txData : String) (m : JSONObject) (c : Int)
    (to_ : String) :
    (∀ s, m.index "nonce" = .string s → isValidHex s = true → hexValue s ≤ maxUint64 →
      (buildTransaction txData (some m) c to_).Nonce = hexValue s) ∧
    (∀ s, m.index "gasLimit" = .string s → isValidHex s = true → 0 < hexValue s →
      hexValue s ≤ maxUint64 → (buildTransaction txData (some m) c to_).Gas = hexValue s) ∧
    (∀ s, m.index "value" = .string s → isValidHex s = true →
      (buildTransaction txData (some m) c to_).Value = (hexValue s : Int)) ∧
    buildTransaction txData (some scenarioTx) 1 addrOne = .legacyTx
      { Nonce := 5, GasPrice := 1000000000, Gas := 21000,
        To := some (List.replicate 19 0 ++ [1]), Value := 0, Data := [],
        V := 0, R := 0, S := 0 } := by
  obtain ⟨hN, hG, hV⟩ := buildTransaction_fields txData (some m) c to_
  refine ⟨?_, ?_, ?_, ?_⟩
  · intro s h hv hle
    rw [hN, txNonce_string m s h, leadingHexValue_valid s hv, if_neg (by omega), if_pos hv]
  · intro s h hv hpos hle
    have h1 : ¬ (maxUint64 < hexValue s) := by omega
    rw [hG, txGasLimit_string m s h, leadingHexValue_valid s hv]
    simp only [h1, hv, hpos, if_true, if_false, gt_iff_lt]
  · intro s h hv
    rw [hV, txValue_string m s h hv]
  · rw [buildTransaction_legacy _ _ _ _ (by rfl)]
    have h1 : txNonce (some scenarioTx) = 5 := by decide
    have h2 : (txGasPrice (some scenarioTx)).getD 0 = 1000000000 := by decide
    have h3 : txGasLimit (some scenarioTx) = 21000 := by decide
    have h4 : HexToAddress addrOne = List.replicate 19 0 ++ [1] := by decide
    have h5 : txValue (some scenarioTx) = 0 := by decide
    have h6 : txPayload txData (some scenarioTx) = [] := rfl
    rw [h1, h2, h3, h4, h5, h6]

theorem present_fields_extracted_witness :
    (buildTransaction "" (some scenarioTx) 1 addrOne).Gas = hexValue "0x5208" :=
  (present_fields_extracted "" scenarioTx 1 addrOne).2.1 "0x5208" rfl (by decide)
    (by decide) (by decide)

/-! ## A nonce or gas limit that cannot be represented -/

/-- C28 as stated fails: the nonce string `0xfffffffffffffffffzz` is not valid hex,
yet the built transaction has nonce 2^64 - 1 and not 0, because `strconv.ParseUint`
reports the overflow of the seventeen leading digits before it reaches the `z`; as
a gas limit the same string gives 2^64 - 1 and not 300000. -/
theorem invalid_nonce_not_zero :
    isValidHex "0xfffffffffffffffffzz" = false ∧
    (buildTransaction "" (some [("nonce", .string "0xfffffffffffffffffzz")]) 1
      addrOne).Nonce = 18446744073709551615 ∧
    (buildTransaction "" (some [("gasLimit", .string "0xfffffffffffffffffzz")]) 1
      addrOne).Gas = 18446744073709551615 := by
  refine ⟨by decide, by decide, by decide⟩

/-- C28 (amended): for a JSON transaction input the transaction is built whatever
the nonce and gasLimit strings are.  A nonce string that is not valid hex gives
nonce 0 when the hex digits before its first other character denote at most
2^64 - 1; a nonce or gasLimit string whose leading hex digits denote more than
2^64 - 1, in particular a valid hex value above 2^64 - 1, gives 2^64 - 1; a gasLimit
string that is not valid hex, with leading hex digits of at most 2^64 - 1, or that
is valid hex and equals zero, gives the default 300000. -/
theorem unrepresentable_nonce_gasLimit (txData : String) (m : JSONObject) (c : Int)
    (to_ : String) :
    (∀ s, m.index "nonce" = .string s →
      (isValidHex s = false → leadingHexValue s ≤ maxUint64 →
        (buildTransaction txData (some m) c to_).Nonce = 0) ∧
      (maxUint64 < leadingHexValue s →
        (buildTransaction txData (some m) c to_).Nonce = maxUint64) ∧
      (isValidHex s = true → maxUint64 < hexValue s →
        (buildTransaction txData (some m) c to_).Nonce = maxUint64)) ∧
    (∀ s, m.index "gasLimit" = .string s →
      (maxUint64 < leadingHexValue s →
        (buildTransaction txData (some m) c to_).Gas = maxUint64) ∧
      (isValidHex s = true → maxUint64 < hexValue s →
        (buildTransaction txData (some m) c to_).Gas = maxUint64) ∧
      (isValidHex s = false → leadingHexValue s ≤ maxUint64 →
        (buildTransaction txData (some m) c to_).Gas = 300000) ∧
      (isValidHex s = true → hexValue s = 0 →
        (buildTransaction txData (some m) c to_).Gas = 300000)) := by
  obtain ⟨hN, hG, _⟩ := buildTransaction_fields txData (some m) c to_
  have hmax : 0 < maxUint64 := by rw [maxUint64_eq]; norm_num
  refine ⟨?_, ?_⟩
  · intro s h
    rw [hN, txNonce_string m s h]
    refine ⟨?_, ?_, ?_⟩
    · intro hv hle
      rw [if_neg (by omega), hv]
      rfl
    · intro hgt
      rw [if_pos hgt]
    · intro hv hgt
      rw [leadingHexValue_valid s hv, if_pos hgt]
  · intro s h
    rw [hG, txGasLimit_string m s h]
    refine ⟨?_, ?_, ?_, ?_⟩
    · intro hgt
      simp only [hgt, hmax, if_true, gt_iff_lt]
    · intro hv hgt
      rw [leadingHexValue_valid s hv]
      simp only [hgt, hmax, if_true, gt_iff_lt]
    · intro hv hle
      have h1 : ¬ (maxUint64 < leadingHexValue s) := by omega
      simp [h1, hv]
    · intro hv h0
      rw [leadingHexValue_valid s hv, h0]
      simp

theorem unrepresentable_nonce_gasLimit_witness :
    (buildTransaction "" (some [("nonce", .string "0xzz")]) 1 addrOne).Nonce = 0 :=
  ((unrepresentable_nonce_gasLimit "" [("nonce", .string "0xzz")] 1 addrOne).1 "0xzz"
    rfl).1 (by decide) (by decide)

/-! ## The sign-and-send loop -/

theorem signLoop_filterMap (signTyped signTx : Orby.Operation → Except SignError String)
    (ops : List Orby.Operation) (acc : List Orby.SignedOperation) :
    signLoop signTyped signTx ops acc = acc ++ ops.filterMap (sentEntry signTyped signTx) := by
  induction ops generalizing acc with
  | nil => simp [signLoop]
  | cons op rest ih =>
    rw [signLoop, List.filterMap_cons]
    by_cases h1 : op.Format = "TYPED_DATA"
    · rw [if_pos h1]
      cases hres : signTyped op with
      | error e =>
        have hs : sentEntry signTyped signTx op = none := by
          simp [sentEntry, h1, hres]
        simp only [hs, ih]
      | ok signature =>
        have hs : sentEntry signTyped signTx op = some (signedOperationOf op signature) := by
          simp [sentEntry, h1, hres, signedOperationOf]
        simp only [hs, ih, List.append_assoc, List.singleton_append]
    · rw [if_neg h1]
      by_cases h2 : op.Format = "TRANSACTION"
      · rw [if_pos h2]
        cases hres : signTx op with
        | error e =>
          have hs : sentEntry signTyped signTx op = none := by
            simp [sentEntry, h1, h2, hres]
          simp only [hs, ih]
        | ok signature =>
          have hs : sentEntry signTyped signTx op
              = some (signedOperationOf op signature) := by
            simp [sentEntry, h1, h2, hres, signedOperationOf]
          simp only [hs, ih, List.append_assoc, List.singleton_append]
      · rw [if_neg h2]
        have hs : sentEntry signTyped signTx op = none := by
          simp [sentEntry, h1, h2]
        simp only [hs, ih]

theorem signAndSend_sentList (signTyped signTx : Orby.Operation → Except SignError String)
    (intents : List Orby.Intent) (accountClusterId : String) :
    signAndSend signTyped signTx intents accountClusterId
      = sentList signTyped signTx intents accountClusterId := by
  unfold signAndSend sentList
  cases intents with
  | nil => rfl
  | cons intent rest =>
    simp only [signLoop_filterMap, List.nil_append]
    cases h : List.filterMap (sentEntry signTyped signTx) intent.IntentOperations with
    | nil => simp
    | cons a l => simp

/-- C27: in the sign-and-send loop of `main` and of the runners, the list handed to
`SendSignedOperations` is, in the original order, exactly the operations of the first
intent whose format is TYPED_DATA or TRANSACTION and whose signing returned no error;
each entry carries that operation's Type, Data, ChainId and From together with the
signature returned for it, and nothing is sent when the list is empty or when there
is no intent. -/
theorem signAndSend_exact (L : Lib) (J : JSONLib) (key : PrivateKey)
    (intents : List Orby.Intent) (accountClusterId : String) :
    mainSignAndSend L J key intents accountClusterId
      = sentList (fun op => signTypedData L op.Data (J.typedData op.Data) key)
          (fun op => signTransaction L op.Data (J.object op.Data) op.ChainId op.To key)
          intents accountClusterId ∧
    Orby.runSignAndSend L J key intents accountClusterId
      = sentList (fun op => Orby.SignTypedData L op (J.typedData op.Data) key)
          (fun op => Orby.SignTransaction L op (J.object op.Data) key)
          intents accountClusterId :=
  ⟨signAndSend_sentList _ _ _ _, signAndSend_sentList _ _ _ _⟩

/-! ## A response without a status -/

/-- C30: in `GetOperationsToSwap.Run` (and the same block of the execute-transaction
and sign-typed-data runners), whenever the RPC result parses into an `OperationSet`
whose `Status` is empty, `Run` hands no operation to a signing call, sends nothing
and returns a nil error, whether or not the result also parses as an
`ErrorResponse`. -/
theorem run_empty_status (L : Lib) (J : JSONLib) (key : PrivateKey)
    (accountClusterId : String) (x : Orby.RPCExchange) (response : Orby.OperationSet)
    (hparse : Orby.unmarshalRaw J.operationSet (Orby.SendJSONRPCRequest x).1 = some response)
    (hstatus : response.Status = "") :
    Orby.Run L J key accountClusterId x = { err := none, signed := [], sent := none } := by
  cases x with
  | result raw =>
    simp only [Orby.SendJSONRPCRequest] at hparse
    unfold Orby.Run
    simp only [Orby.SendJSONRPCRequest, hparse, hstatus, if_true]
    cases Orby.unmarshalRaw J.errorResponse raw <;> rfl
  | _ => simp [Orby.SendJSONRPCRequest, Orby.unmarshalRaw] at hparse

theorem run_empty_status_witness :
    Orby.Run toyLib toyJSON toyKey "cluster" (.result (some badCodeText))
      = { err := none, signed := [], sent := none } :=
  run_empty_status toyLib toyJSON toyKey "cluster" (.result (some badCodeText))
    { AggregateEstimatedTimeInMs := 0, Intents := [], Status := "" } (by decide) rfl

/-! ## The domain against the fixed three-field type -/

theorem string_length_zero (s : String) : s.length = 0 ↔ s = "" := by
  constructor
  · intro h
    cases s with
    | mk data =>
      cases data with
      | nil => rfl
      | cons c cs => simp [String.length] at h
  · rintro rfl
    rfl

theorem declaredFields_domain (typedData : TypedData) :
    declaredFields (addEIP712DomainTypeToTypedData typedData) "EIP712Domain" = eip712Domain := by
  unfold declaredFields addEIP712DomainTypeToTypedData
  simp only [Option.getD_some, get_set_self]

theorem domainMap_shape (d : TypedDataDomain) :
    (d.ChainId = none → d.Map.lookup "chainId" = none) ∧
    (d.Name.length = 0 → d.Map.lookup "name" = none) ∧
    (d.VerifyingContract.length = 0 → d.Map.lookup "verifyingContract" = none) ∧
    (d.ChainId ≠ none → 0 < d.Name.length → 0 < d.VerifyingContract.length →
      (0 < d.Version.length ∨ 0 < d.Salt.length) → 3 < d.Map.len) := by
  obtain ⟨name, version, chainId, contract, salt⟩ := d
  simp only
  refine ⟨?_, ?_, ?_, ?_⟩
  · rintro rfl
    by_cases h1 : name.length > 0 <;> by_cases h2 : version.length > 0 <;>
      by_cases h3 : contract.length > 0 <;> by_cases h4 : salt.length > 0 <;>
      simp [TypedDataDomain.Map, h1, h2, h3, h4, List.lookup]
  · intro h1
    cases chainId <;> by_cases h2 : version.length > 0 <;>
      by_cases h3 : contract.length > 0 <;> by_cases h4 : salt.length > 0 <;>
      simp [TypedDataDomain.Map, h1, h2, h3, h4, List.lookup]
  · intro h3
    cases chainId <;> by_cases h1 : name.length > 0 <;> by_cases h2 : version.length > 0 <;>
      by_cases h4 : salt.length > 0 <;>
      simp [TypedDataDomain.Map, h1, h2, h3, h4, List.lookup]
  · intro hc h1 h3 h24
    cases chainId with
    | none => exact absurd rfl hc
    | some c =>
      by_cases h2 : version.length > 0 <;> by_cases h4 : salt.length > 0
      · simp only [TypedDataDomain.Map, h1, h2, h3, h4, if_true, gt_iff_lt, JSONObject.len,
          List.cons_append, List.nil_append, List.map_cons, List.map_nil]
        decide
      · simp only [TypedDataDomain.Map, h1, h2, h3, h4, if_true, if_false, gt_iff_lt,
          JSONObject.len, List.cons_append, List.nil_append, List.map_cons, List.map_nil,
          List.append_nil]
        decide
      · simp only [TypedDataDomain.Map, h1, h2, h3, h4, if_true, if_false, gt_iff_lt,
          JSONObject.len, List.cons_append, List.nil_append, List.map_cons, List.map_nil,
          List.append_nil]
        decide
      · rcases h24 with h | h
        · exact absurd h h2
        · exact absurd h h4

theorem domain_hash_fails (L : Lib) (hH : L.HashStructLaws) (typedData : TypedData)
    (h : typedData.Domain.Version ≠ "" ∨ typedData.Domain.Salt ≠ "" ∨
      typedData.Domain.Name = "" ∨ typedData.Domain.ChainId = none ∨
      typedData.Domain.VerifyingContract = "") :
    ∃ e, L.hashStruct (addEIP712DomainTypeToTypedData typedData) "EIP712Domain"
      typedData.Domain.Map = .error e := by
  obtain ⟨m1, m2, m3, m4⟩ := domainMap_shape typedData.Domain
  have hf := declaredFields_domain typedData
  by_cases hc : typedData.Domain.ChainId = none
  · exact hH.missing_value _ _ _ { Name := "chainId", Type_ := "uint256" }
      (by rw [hf]; simp [eip712Domain]) (m1 hc)
  by_cases hn : typedData.Domain.Name.length = 0
  · exact hH.missing_value _ _ _ { Name := "name", Type_ := "string" }
      (by rw [hf]; simp [eip712Domain]) (m2 hn)
  by_cases hv : typedData.Domain.VerifyingContract.length = 0
  · exact hH.missing_value _ _ _ { Name := "verifyingContract", Type_ := "address" }
      (by rw [hf]; simp [eip712Domain]) (m3 hv)
  apply hH.extra_data
  rw [hf]
  apply m4 hc (by omega) (by omega)
  rcases h with h | h | h | h | h
  · exact Or.inl (Nat.pos_of_ne_zero (fun h0 => h ((string_length_zero _).mp h0)))
  · exact Or.inr (Nat.pos_of_ne_zero (fun h0 => h ((string_length_zero _).mp h0)))
  · exact absurd ((string_length_zero _).mpr h) hn
  · exact absurd h hc
  · exact absurd ((string_length_zero _).mpr h) hv

theorem typedDataDigest_domain_fails (L : Lib) (hH : L.HashStructLaws)
    (typedData : TypedData)
    (h : typedData.Domain.Version ≠ "" ∨ typedData.Domain.Salt ≠ "" ∨
      typedData.Domain.Name = "" ∨ typedData.Domain.ChainId = none ∨
      typedData.Domain.VerifyingContract = "") :
    ∃ e, typedDataDigest L (addEIP712DomainTypeToTypedData typedData) = .error e := by
  obtain ⟨e, he⟩ := domain_hash_fails L hH typedData h
  unfold typedDataDigest
  cases h1 : L.hashStruct (addEIP712DomainTypeToTypedData typedData)
      (addEIP712DomainTypeToTypedData typedData).PrimaryType
      (addEIP712DomainTypeToTypedData typedData).Message with
  | error e1 => exact ⟨_, rfl⟩
  | ok typedDataHash =>
    have h2 : (addEIP712DomainTypeToTypedData typedData).Domain.Map = typedData.Domain.Map := rfl
    simp only [h2, he]
    exact ⟨_, rfl⟩

theorem toyLib712_hashStructLaws : toyLib712.HashStructLaws where
  extra_data := by
    intro typedData primaryType data h
    refine ⟨.other "there is extra data provided in the message", ?_⟩
    simp only [toyLib712]
    rw [if_pos h]
  missing_value := by
    intro typedData primaryType data field hf hl
    simp only [toyLib712]
    split
    · exact ⟨_, rfl⟩
    · have hany : (declaredFields typedData primaryType).any
          (fun field => (data.lookup field.Name).isNone) = true := by
        rw [List.any_eq_true]
        exact ⟨field, hf, by rw [hl]; rfl⟩
      rw [if_pos hany]
      exact ⟨_, rfl⟩

theorem toyLib712_laws : toyLib712.Laws where
  keccak_length := toyLib_laws.keccak_length
  sign_ok := toyLib_laws.sign_ok
  recover_sign := toyLib_laws.recover_sign

/-- With the toy primitives that meet both contracts, a typed data whose domain has
exactly name, chainId and verifyingContract is signed. -/
theorem plainDomain_signs :
    (signTypedData toyLib712 "" (some plainDomainTypedData) toyKey).toOption.isSome = true := by
  decide

/-- C29: because the domain is always hashed against the fixed three-field
`EIP712Domain` type, `signTypedData` (either copy) returns an error and no signature
for every typed data whose domain carries a non-empty version or salt, and for every
typed data whose domain lacks name, chainId or verifyingContract.  The struct hashing
of go-ethereum is taken with its two documented errors, `Lib.HashStructLaws`. -/
theorem signTypedData_domain_mismatch (L : Lib) (hH : L.HashStructLaws)
    (typedDataJSON : String) (op : Orby.Operation) (typedData : TypedData)
    (key : PrivateKey)
    (h : typedData.Domain.Version ≠ "" ∨ typedData.Domain.Salt ≠ "" ∨
      typedData.Domain.Name = "" ∨ typedData.Domain.ChainId = none ∨
      typedData.Domain.VerifyingContract = "") :
    (∃ e, signTypedData L typedDataJSON (some typedData) key = .error e ∧
      returnPair (signTypedData L typedDataJSON (some typedData) key) = ("", some e)) ∧
    (∃ e, Orby.SignTypedData L op (some typedData) key = .error e ∧
      returnPair (Orby.SignTypedData L op (some typedData) key) = ("", some e)) := by
  obtain ⟨e, he⟩ := typedDataDigest_domain_fails L hH typedData h
  have key1 : ∃ e1, (if typedData.Domain = TypedDataDomain.zero then
        (.error (.missingField "domain") : Except SignError String)
      else if typedData.PrimaryType = "" then .error (.missingField "primaryType")
      else if typedData.Message.length = 0 then .error (.missingField "message")
      else
        match typedDataDigest L (addEIP712DomainTypeToTypedData typedData) with
        | .error e => .error e
        | .ok finalHash => signAndPublish L finalHash key) = .error e1 := by
    rw [he]
    split_ifs <;> exact ⟨_, rfl⟩
  obtain ⟨e1, h1⟩ := key1
  have hS : signTypedData L typedDataJSON (some typedData) key = .error e1 := by
    rw [signTypedData_steps]; exact h1
  have hN : Orby.SignTypedData L op (some typedData) key = .error e1 := by
    rw [nested_SignTypedData_steps]; exact h1
  exact ⟨⟨e1, hS, by rw [hS]; rfl⟩, ⟨e1, hN, by rw [hN]; rfl⟩⟩

theorem signTypedData_domain_mismatch_witness :
    ∃ e, signTypedData toyLib712 "" (some customDomainTypedData) toyKey = .error e ∧
      returnPair (signTypedData toyLib712 "" (some customDomainTypedData) toyKey)
        = ("", some e) :=
  (signTypedData_domain_mismatch toyLib712 toyLib712_hashStructLaws ""
    (opOnChain "1" "" addrOne) customDomainTypedData toyKey (Or.inl (by decide))).1

end OrbyExamples
